import Mathlib

/-!
# Hearthstone image recognition: the recognition engine of `src/Recognizer.cpp`

A shallow embedding of `hs::Recognizer` and proofs about it.

Conventions of the embedding.

* `cv::Mat` images and descriptor matrices are values of two type parameters `Image` and
  `Desc`.  Everything the code obtains from OpenCV, from `PerceptualHash` and from the
  headers that declare constants is a field of `Platform` or of `Constants`; the code of
  `Recognizer.cpp` itself is translated function by function.
* `std::vector` is `List`, `push_back` appends at the end, a range `for` walks the list
  from its head.  An index that is out of range is a `Fault` (the C++ behaviour is
  undefined there), so the functions that index return `Except Fault _`.
* `int` is `Int` and `unsigned int` / `size_t` are `Nat`.  Where the code converts an
  `int` to `size_t` (the index in `db->cards[...]`, the comparison `minSIndex == cand`) the
  conversion is `toSizeT`, modulo `2 ^ sizeBits`.  The number of matches kept in
  `int bestResultMatchesCount` is a natural number: it only ever holds a `matches.size()`,
  which is taken to fit an `int`.
* `float` values are the rationals they denote.  Every place where the code rounds to
  `float` (a `double` stored in a `std::vector<float>`, a `float` product or sum) applies
  `Platform.rnd`, so nothing is assumed about the rounding unless a theorem says so.
-/

namespace hs

/-! ## Data model -/

/-- Rectangle `cv::Rect` of a calibration: `x`, `y`, `width`, `height`. -/
structure Region where
  x : Int
  y : Int
  width : Int
  height : Int
deriving DecidableEq, Repr

/-- Result `cv::Size` of the calibration: the expected frame resolution. -/
structure Size where
  width : Int
  height : Int
deriving DecidableEq, Repr

/-- List `Calibration::VectorROI`: the regions of one recognizer, in order. -/
abbrev VectorROI := List Region

/-- Calibration data read by the engine (`c->res`, `c->roi...`). -/
structure Calibration where
  res : Size
  roiDraftClassPick : VectorROI
  roiDraftCardPick : VectorROI
  roiGameClassShow : VectorROI
  roiGameDraw : VectorROI
  roiGameDrawInit1 : VectorROI
  roiGameDrawInit2 : VectorROI
  roiGameCoin : VectorROI
  roiGameEnd : VectorROI
deriving DecidableEq, Repr

/-- Record `Recognizer::DataSetEntry`: an identifier and a validity flag. -/
structure DataSetEntry where
  id : Int
  valid : Bool
deriving DecidableEq, Repr

/-- Record `Recognizer::DataSet`: entries, their hashes (same order) and the threshold. -/
structure DataSet where
  entries : List DataSetEntry
  hashes : List Nat
  phashThreshold : Int
deriving DecidableEq, Repr

/-- Record `PerceptualHash::ComparisonResult`: position and distance of the nearest hash. -/
structure ComparisonResult where
  index : Nat
  distance : Int
deriving DecidableEq, Repr

/-- Record `Recognizer::RecognitionResult`. -/
structure RecognitionResult where
  valid : Bool
  sourceRecognizer : Nat
  results : List Int
deriving DecidableEq, Repr

/-- Record `cv::DMatch`: one descriptor correspondence with its distance. -/
structure DMatch where
  queryIdx : Int
  trainIdx : Int
  imgIdx : Int
  distance : ℚ
deriving DecidableEq

/-- List `Recognizer::VectorDescriptor`: reference descriptors with their outcome. -/
abbrev VectorDescriptor (Desc : Type) := List (Desc × Int)

/-- A card of the database: `id`, `phash`, `quality`. -/
structure Card where
  id : Int
  phash : Nat
  quality : Int
deriving DecidableEq, Repr

/-- A hero of the database: `id`, `phash`. -/
structure Hero where
  id : Int
  phash : Nat
deriving DecidableEq, Repr

/-- The database `db`: the cards and the heroes, in stored order. -/
structure Database where
  cards : List Card
  heroes : List Hero
deriving DecidableEq, Repr

/-- The out-of-range accesses the code can make. -/
inductive Fault where
  /-- Access `dataSet.entries[best.index]` in `bestPHashMatches`. -/
  | entryIndex
  /-- Access `lastDraftRecognition[0]` used as index in `db->cards[...]`. -/
  | cardIndex
  /-- Reads `hsv[2][0]`, `hsv[2][1]`, `hsv[2][2]` of the value means. -/
  | valueRead
  /-- Reads `hsv[1][0]`, `hsv[1][i]` of the saturation means. -/
  | saturationRead
  /-- Read `hsv[0][i]` of a hue mean. -/
  | hueRead
  /-- Writes `red[i]`, `candidateColor[i]` to the vectors of size three. -/
  | flagWrite
deriving DecidableEq, Repr

deriving instance DecidableEq for Except

/-- Everything `Recognizer.cpp` calls but does not define: OpenCV, `PerceptualHash`, the
float unit, and the values of members that the code leaves unset. -/
structure Platform (Image Desc : Type) where
  /-- Member `source.cols`. -/
  cols : Image → Int
  /-- Member `source.rows`. -/
  rows : Image → Int
  /-- Call `cv::resize(source, image, cv::Size(w, h))`. -/
  resize : Image → Int → Int → Image
  /-- Sub-image `image(cv::Range(r.y, r.y + r.height), cv::Range(r.x, r.x + r.width))`. -/
  crop : Image → Region → Image
  /-- Member `roiImage.channels()`. -/
  channels : Image → Nat
  /-- Call `cv::cvtColor(_, _, CV_BGR2GRAY)`. -/
  toGray : Image → Image
  /-- Call `cv::cvtColor(_, _, CV_BGR2HSV)`. -/
  toHSV : Image → Image
  /-- Call `cv::mean`: the means of the first three channels, as `double`. -/
  mean : Image → ℚ × ℚ × ℚ
  /-- Operator `surf(image, cv::Mat(), keypoints, descriptor)`: the descriptor matrix. -/
  surf : Image → Desc
  /-- Test `descriptor.data != 0`: the matrix holds at least one descriptor. -/
  hasData : Desc → Bool
  /-- Call `matcher->knnMatch(obj, scene, matches, k)`: per query, its nearest neighbours,
  best first. -/
  knnMatch : Desc → Desc → Nat → List (List DMatch)
  /-- Call `PerceptualHash::phash`: the 64-bit hash of an image. -/
  phash : Image → Nat
  /-- Call `PerceptualHash::best`: nearest hash of a list, with its distance. -/
  best : Nat → List Nat → ComparisonResult
  /-- Rounding of a real value to `float`. -/
  rnd : ℚ → ℚ
  /-- Value of an `int` member that was never assigned. -/
  unsetInt : Int
  /-- Value of an `unsigned int` member that was never assigned. -/
  unsetKind : Nat

/-- Constants of `Recognizer.h`. -/
structure Constants where
  RECOGNIZER_DRAFT_CLASS_PICK : Nat
  RECOGNIZER_DRAFT_CARD_PICK : Nat
  RECOGNIZER_GAME_CLASS_SHOW : Nat
  RECOGNIZER_GAME_DRAW : Nat
  RECOGNIZER_GAME_DRAW_INIT_1 : Nat
  RECOGNIZER_GAME_DRAW_INIT_2 : Nat
  RECOGNIZER_GAME_COIN : Nat
  RECOGNIZER_GAME_END : Nat
  RESULT_GAME_END_VICTORY : Int
  RESULT_GAME_END_DEFEAT : Int
  RESULT_GAME_COIN_FIRST : Int
  RESULT_GAME_COIN_SECOND : Int
deriving DecidableEq, Repr

/-- Modelled from the spec: the constructor `DataSetEntry(int id)` of `Recognizer.h`, an
entry that carries `id` and is valid. -/
def DataSetEntry.ofId (id : Int) : DataSetEntry :=
  { id := id, valid := true }

/-- Modelled from the spec: the default constructor `DataSetEntry()` of `Recognizer.h`,
the no-match sentinel: `valid = false`, identifier unspecified. -/
def DataSetEntry.sentinel {Image Desc : Type} (P : Platform Image Desc) : DataSetEntry :=
  { id := P.unsetInt, valid := false }

/-- One registered hash recognizer: kind, regions, data set (a `boost::tuple`). -/
abbrev PHashRecognizer := Nat × VectorROI × DataSet

/-- One registered feature recognizer: kind, regions, reference descriptors. -/
abbrev SurfRecognizer (Desc : Type) := Nat × VectorROI × VectorDescriptor Desc

/-- The members of `hs::Recognizer` that the code of `Recognizer.cpp` reads or writes. -/
structure Recognizer (Desc : Type) where
  db : Database
  phashThreshold : Int
  c : Calibration
  setCards : DataSet
  setClasses : DataSet
  descriptorEnd : VectorDescriptor Desc
  descriptorCoin : VectorDescriptor Desc
  phashRecognizers : List PHashRecognizer
  surfRecognizers : List (SurfRecognizer Desc)
  lastDraftRecognition : List Int
deriving DecidableEq

/-- Number of bits of `size_t`. -/
def sizeBits : Nat := 64

/-- Conversion of an `int` to `size_t`, as in an index or a mixed comparison. -/
def toSizeT (i : Int) : Nat := (i % 2 ^ sizeBits).toNat

namespace Recognizer

variable {Image Desc : Type}

/-! ## Hash matcher -/

/-- Loop of `bestPHashMatches` (lines 154-166) over the remaining regions; `results` is
the vector built so far. -/
def bestPHashMatchesLoop (P : Platform Image Desc) (image : Image) (dataSet : DataSet) :
    List Region → List DataSetEntry → Except Fault (List DataSetEntry)
  | [], results => .ok results
  | r :: rest, results =>
    let roiImage := P.crop image r
    let phash := P.phash roiImage
    let best := P.best phash dataSet.hashes
    if best.distance < dataSet.phashThreshold then
      match dataSet.entries[best.index]? with
      | some e => bestPHashMatchesLoop P image dataSet rest (results ++ [e])
      | none => .error Fault.entryIndex
    else
      bestPHashMatchesLoop P image dataSet rest (results ++ [DataSetEntry.sentinel P])

/-- Function `Recognizer::bestPHashMatches` (lines 152-169). -/
def bestPHashMatches (P : Platform Image Desc) (image : Image) (roi : VectorROI)
    (dataSet : DataSet) : Except Fault (List DataSetEntry) :=
  bestPHashMatchesLoop P image dataSet roi []

/-- Function `Recognizer::comparePHashes` (lines 134-150). -/
def comparePHashes (P : Platform Image Desc) (image : Image) (recognizer : Nat)
    (roi : VectorROI) (dataSet : DataSet) : Except Fault RecognitionResult :=
  match bestPHashMatches P image roi dataSet with
  | .error f => .error f
  | .ok bestMatches =>
    let valid := bestMatches.foldl (fun v bestMatch => v && bestMatch.valid) true
    let rr : RecognitionResult :=
      { valid := valid, sourceRecognizer := P.unsetKind, results := [] }
    if valid then
      .ok { rr with
            sourceRecognizer := recognizer
            results := bestMatches.foldl (fun res dse => res ++ [dse.id]) rr.results }
    else
      .ok rr

/-! ## Feature matcher -/

/-- Value of the literal `0.6f`: the IEEE-754 single nearest to `0.6`, which is
`0x3F19999A = 10066330 * 2 ^ (-24)`. -/
def float06 : ℚ := 10066330 / 16777216

/-- Function `Recognizer::getDescriptor` (lines 274-279). -/
def getDescriptor (P : Platform Image Desc) (image : Image) : Desc :=
  P.surf image

/-- Function `Recognizer::isGoodDescriptorMatch` (lines 281-283). -/
def isGoodDescriptorMatch (ms : List DMatch) : Bool :=
  decide (ms.length ≥ 7)

/-- Loop of `getMatches` (lines 291-301), the ratio test, over the remaining queries;
`goodMatches` is the vector built so far. -/
def getMatchesLoop (P : Platform Image Desc) :
    List (List DMatch) → List DMatch → List DMatch
  | [], goodMatches => goodMatches
  | (m1 :: m2 :: _) :: rest, goodMatches =>
    if m1.distance ≤ P.rnd (float06 * m2.distance) then
      getMatchesLoop P rest (goodMatches ++ [m1])
    else
      getMatchesLoop P rest goodMatches
  | _ :: rest, goodMatches => getMatchesLoop P rest goodMatches

/-- Function `Recognizer::getMatches` (lines 285-304). -/
def getMatches (P : Platform Image Desc) (descriptorObj descriptorScene : Desc) :
    List DMatch :=
  getMatchesLoop P (P.knnMatch descriptorObj descriptorScene 2) []

/-- Inner loop of `compareFeatures` (lines 257-263) over the remaining references; the
state is `(bestResult, bestResultMatchesCount)`. -/
def bestResultLoop (P : Platform Image Desc) (descriptorImage : Desc) :
    List (Desc × Int) → Int × Nat → Int × Nat
  | [], state => state
  | d :: rest, (bestResult, bestResultMatchesCount) =>
    let ms := getMatches P descriptorImage d.1
    if isGoodDescriptorMatch ms && decide (ms.length > bestResultMatchesCount) then
      bestResultLoop P descriptorImage rest (d.2, ms.length)
    else
      bestResultLoop P descriptorImage rest (bestResult, bestResultMatchesCount)

/-- Outer loop of `compareFeatures` (lines 238-269) over the remaining regions; `rr` is
the result built so far. -/
def compareFeaturesLoop (P : Platform Image Desc) (image : Image) (recognizer : Nat)
    (descriptors : VectorDescriptor Desc) :
    List Region → RecognitionResult → RecognitionResult
  | [], rr => rr
  | r :: rest, rr =>
    let roiImage := P.crop image r
    let greyscaleImage := if P.channels roiImage = 1 then roiImage else P.toGray roiImage
    let descriptorImage := getDescriptor P greyscaleImage
    if !P.hasData descriptorImage then
      compareFeaturesLoop P image recognizer descriptors rest rr
    else
      let bestResult := (bestResultLoop P descriptorImage descriptors (-1, 0)).1
      if bestResult ≠ -1 then
        compareFeaturesLoop P image recognizer descriptors rest
          { results := rr.results ++ [bestResult], valid := true,
            sourceRecognizer := recognizer }
      else
        compareFeaturesLoop P image recognizer descriptors rest rr

/-- Function `Recognizer::compareFeatures` (lines 234-272). -/
def compareFeatures (P : Platform Image Desc) (image : Image) (recognizer : Nat)
    (roi : VectorROI) (descriptors : VectorDescriptor Desc) : RecognitionResult :=
  compareFeaturesLoop P image recognizer descriptors roi
    { valid := false, sourceRecognizer := P.unsetKind, results := [] }

/-! ## Construction -/

/-- Loop of the constructor over the cards (lines 39-43); `set` is `setCards` so far. -/
def fillCards : List Card → DataSet → DataSet
  | [], set => set
  | e :: rest, set =>
    let o := DataSetEntry.ofId e.id
    fillCards rest
      { set with entries := set.entries ++ [o], hashes := set.hashes ++ [e.phash] }

/-- Loop of the constructor over the heroes (lines 45-49); `set` is `setClasses` so far. -/
def fillClasses : List Hero → DataSet → DataSet
  | [], set => set
  | e :: rest, set =>
    let o := DataSetEntry.ofId e.id
    fillClasses rest
      { set with entries := set.entries ++ [o], hashes := set.hashes ++ [e.phash] }

/-- Constructor `Recognizer::Recognizer` (lines 23-80).  Its inputs are what it obtains
from outside: the database (after `precomputeData` if hashes were missing), the configured
threshold, the calibration that was loaded, and the four reference images. -/
def init (P : Platform Image Desc) (K : Constants) (db : Database) (phashThreshold : Int)
    (c : Calibration) (gameEndVictory gameEndDefeat gameCoinFirst gameCoinSecond : Image) :
    Recognizer Desc :=
  let empty : DataSet := { entries := [], hashes := [], phashThreshold := P.unsetInt }
  let setCards := fillCards db.cards empty
  let setClasses := fillClasses db.heroes empty
  let descriptorEnd : VectorDescriptor Desc :=
    ([] ++ [(getDescriptor P gameEndVictory, K.RESULT_GAME_END_VICTORY)])
      ++ [(getDescriptor P gameEndDefeat, K.RESULT_GAME_END_DEFEAT)]
  let descriptorCoin : VectorDescriptor Desc :=
    ([] ++ [(getDescriptor P gameCoinFirst, K.RESULT_GAME_COIN_FIRST)])
      ++ [(getDescriptor P gameCoinSecond, K.RESULT_GAME_COIN_SECOND)]
  let setCards := { setCards with phashThreshold := phashThreshold }
  let setClasses := { setClasses with phashThreshold := phashThreshold }
  { db := db
    phashThreshold := phashThreshold
    c := c
    setCards := setCards
    setClasses := setClasses
    descriptorEnd := descriptorEnd
    descriptorCoin := descriptorCoin
    phashRecognizers :=
      [ (K.RECOGNIZER_DRAFT_CLASS_PICK, c.roiDraftClassPick, setClasses),
        (K.RECOGNIZER_DRAFT_CARD_PICK, c.roiDraftCardPick, setCards),
        (K.RECOGNIZER_GAME_CLASS_SHOW, c.roiGameClassShow, setClasses),
        (K.RECOGNIZER_GAME_DRAW, c.roiGameDraw, setCards),
        (K.RECOGNIZER_GAME_DRAW_INIT_1, c.roiGameDrawInit1, setCards),
        (K.RECOGNIZER_GAME_DRAW_INIT_2, c.roiGameDrawInit2, setCards) ]
    surfRecognizers :=
      [ (K.RECOGNIZER_GAME_COIN, c.roiGameCoin, descriptorCoin),
        (K.RECOGNIZER_GAME_END, c.roiGameEnd, descriptorEnd) ]
    lastDraftRecognition := [] }

/-! ## Recognition engine -/

/-- First loop of `recognize` (lines 110-115) over the remaining hash recognizers;
`results` is the vector built so far. -/
def recognizePHashLoop (P : Platform Image Desc) (image : Image) (allowedRecognizers : Nat) :
    List PHashRecognizer → List RecognitionResult → Except Fault (List RecognitionResult)
  | [], results => .ok results
  | rPHash :: rest, results =>
    if allowedRecognizers &&& rPHash.1 ≠ 0 then
      match comparePHashes P image rPHash.1 rPHash.2.1 rPHash.2.2 with
      | .error f => .error f
      | .ok rr =>
        if rr.valid then
          recognizePHashLoop P image allowedRecognizers rest (results ++ [rr])
        else
          recognizePHashLoop P image allowedRecognizers rest results
    else
      recognizePHashLoop P image allowedRecognizers rest results

/-- Second loop of `recognize` (lines 117-122) over the remaining feature recognizers;
`results` is the vector built so far. -/
def recognizeSurfLoop (P : Platform Image Desc) (image : Image) (allowedRecognizers : Nat) :
    List (SurfRecognizer Desc) → List RecognitionResult → List RecognitionResult
  | [], results => results
  | rSURF :: rest, results =>
    if allowedRecognizers &&& rSURF.1 ≠ 0 then
      let rr := compareFeatures P image rSURF.1 rSURF.2.1 rSURF.2.2
      if rr.valid then
        recognizeSurfLoop P image allowedRecognizers rest (results ++ [rr])
      else
        recognizeSurfLoop P image allowedRecognizers rest results
    else
      recognizeSurfLoop P image allowedRecognizers rest results

/-- The frame after the normalisation of lines 103-108. -/
def normalize (P : Platform Image Desc) (self : Recognizer Desc) (source : Image) : Image :=
  if P.cols source ≠ self.c.res.width ∨ P.rows source ≠ self.c.res.height then
    P.resize source self.c.res.width self.c.res.height
  else
    source

/-- Function `Recognizer::recognize` (lines 101-132): the returned vector and the
recognizer object after the call. -/
def recognize (P : Platform Image Desc) (K : Constants) (self : Recognizer Desc)
    (source : Image) (allowedRecognizers : Nat) :
    Except Fault (List RecognitionResult × Recognizer Desc) :=
  let image := normalize P self source
  match recognizePHashLoop P image allowedRecognizers self.phashRecognizers [] with
  | .error f => .error f
  | .ok results =>
    let results := recognizeSurfLoop P image allowedRecognizers self.surfRecognizers results
    if allowedRecognizers &&& K.RECOGNIZER_DRAFT_CARD_PICK ≠ 0 then
      match results.find? (fun r => r.sourceRecognizer == K.RECOGNIZER_DRAFT_CARD_PICK) with
      | some recognitionResult =>
        .ok (results, { self with lastDraftRecognition := recognitionResult.results })
      | none => .ok (results, self)
    else
      .ok (results, self)

/-! ## Colour-candidate heuristic -/

/-- Value of `1/3.0f`: the IEEE-754 single nearest to one third, which is
`0x3EAAAAAB = 11184811 * 2 ^ (-25)`. -/
def floatThird : ℚ := 11184811 / 33554432

/-- Loop of `getIndexOfBluest` over the regions (lines 178-189); the state is
`(hV, sV, vV)`. -/
def hsvMeansLoop (P : Platform Image Desc) (image : Image) :
    List Region → List ℚ × List ℚ × List ℚ → List ℚ × List ℚ × List ℚ
  | [], state => state
  | r :: rest, (hV, sV, vV) =>
    let roiImage := P.crop image r
    let hsvImage := P.toHSV roiImage
    let means := P.mean hsvImage
    hsvMeansLoop P image rest
      (hV ++ [P.rnd means.1], sV ++ [P.rnd means.2.1], vV ++ [P.rnd means.2.2])

/-- Local variables of `getIndexOfBluest` that its second loop updates. -/
structure HueState where
  minS : ℚ
  minSIndex : Nat
  red : List Bool
  candidateColor : List Bool
  isMatch : Bool
  cand : Int
deriving DecidableEq

/-- Second loop of `getIndexOfBluest` (lines 212-228) over the remaining values of `i`;
`hV` is `hsv[0]` and `sV` is `hsv[1]`. -/
def hueLoop (quality : Int) (hV sV : List ℚ) : List Nat → HueState → Except Fault HueState
  | [], st => .ok st
  | i :: rest, st =>
    match sV[i]? with
    | none => .error Fault.saturationRead
    | some s =>
      let st := if s < st.minS then { st with minS := s, minSIndex := i } else st
      match hV[i]? with
      | none => .error Fault.hueRead
      | some h =>
        let candidateEpic : Bool := decide (quality = 4) && decide (110 ≤ h) && decide (h ≤ 150)
        let candidateOther : Bool := decide (quality ≠ 4) &&
          ((decide (90 ≤ h) && decide (h ≤ 110)) || (decide (50 ≤ h) && decide (h ≤ 80)))
        if i < st.red.length ∧ i < st.candidateColor.length then
          let red := st.red.set i (decide (h < 30))
          let candidateColor := st.candidateColor.set i (candidateEpic || candidateOther)
          let flag := candidateEpic || candidateOther
          let isMatch := if decide (st.cand ≥ 0) && flag then false else st.isMatch
          let cand := if flag then (i : Int) else st.cand
          hueLoop quality hV sV rest
            { st with red := red, candidateColor := candidateColor, isMatch := isMatch,
                      cand := cand }
        else
          .error Fault.flagWrite

/-- Function `Recognizer::getIndexOfBluest` (lines 171-232). -/
def getIndexOfBluest (P : Platform Image Desc) (self : Recognizer Desc) (image : Image)
    (roi : VectorROI) : Except Fault Int :=
  match self.lastDraftRecognition with
  | [] => .ok (-1)
  | first :: _ =>
    match self.db.cards[toSizeT first]? with
    | none => .error Fault.cardIndex
    | some card =>
      let quality := card.quality
      let (hV, sV, vV) := hsvMeansLoop P image roi ([], [], [])
      let best : Int := -1
      match vV[0]?, vV[1]?, vV[2]? with
      | some v0, some v1, some v2 =>
        let averageValue := P.rnd (floatThird * P.rnd (P.rnd (v0 + v1) + v2))
        let averageAboveThres : Bool :=
          (decide (quality = 5) && decide (averageValue ≥ 200)) ||
          (decide (quality ≠ 5) && decide (averageValue ≥ 220))
        if !averageAboveThres then .ok best
        else
          match sV[0]? with
          | none => .error Fault.saturationRead
          | some s0 =>
            let st0 : HueState :=
              { minS := s0, minSIndex := 0, red := List.replicate 3 false,
                candidateColor := List.replicate 3 false, isMatch := true, cand := -1 }
            match hueLoop quality hV sV (List.range hV.length) st0 with
            | .error f => .error f
            | .ok st =>
              if st.isMatch && decide (st.minSIndex = toSizeT st.cand) then .ok st.cand
              else .ok best
      | _, _, _ => .error Fault.valueRead

/-! ## Vocabulary of the statements -/

/-- The nearest-hash lookup that `bestPHashMatches` makes for region `r` (lines 155-159):
its `index` and `distance`. -/
def lookup (P : Platform Image Desc) (image : Image) (dataSet : DataSet) (r : Region) :
    ComparisonResult :=
  P.best (P.phash (P.crop image r)) dataSet.hashes

/-- Every region whose lookup is below the threshold points at an existing entry, so
that `dataSet.entries[best.index]` is a defined access for each region of `roi`. -/
def InRange (P : Platform Image Desc) (image : Image) (roi : VectorROI) (dataSet : DataSet) :
    Prop :=
  ∀ r ∈ roi, (lookup P image dataSet r).distance < dataSet.phashThreshold →
    (lookup P image dataSet r).index < dataSet.entries.length

instance (P : Platform Image Desc) (image : Image) (roi : VectorROI) (dataSet : DataSet) :
    Decidable (InRange P image roi dataSet) := by
  unfold InRange; infer_instance

/-- The entry that lines 161-165 push for region `r` when the access is in range. -/
def entryOf (P : Platform Image Desc) (image : Image) (dataSet : DataSet) (r : Region) :
    DataSetEntry :=
  if (lookup P image dataSet r).distance < dataSet.phashThreshold then
    dataSet.entries.getD (lookup P image dataSet r).index (DataSetEntry.sentinel P)
  else
    DataSetEntry.sentinel P

/-- What one registered hash recognizer contributes to the vector that `recognize`
returns: its result when it is selected and valid, nothing otherwise. -/
def contributionPHash (P : Platform Image Desc) (image : Image) (allowedRecognizers : Nat)
    (kind : Nat) (roi : VectorROI) (dataSet : DataSet) : Option RecognitionResult :=
  if allowedRecognizers &&& kind ≠ 0 then
    match comparePHashes P image kind roi dataSet with
    | .ok rr => if rr.valid then some rr else none
    | .error _ => none
  else
    none

/-- What one registered feature recognizer contributes to the vector that `recognize`
returns: its result when it is selected and valid, nothing otherwise. -/
def contributionSurf (P : Platform Image Desc) (image : Image) (allowedRecognizers : Nat)
    (kind : Nat) (roi : VectorROI) (descriptors : VectorDescriptor Desc) :
    Option RecognitionResult :=
  if allowedRecognizers &&& kind ≠ 0 then
    if (compareFeatures P image kind roi descriptors).valid then
      some (compareFeatures P image kind roi descriptors)
    else none
  else
    none

/-- The eight registered recognizers in registration order (lines 71-79), each with its
kind and with what it contributes to the vector that `recognize` returns. -/
def slots (P : Platform Image Desc) (K : Constants) (self : Recognizer Desc) (image : Image)
    (allowedRecognizers : Nat) : List (Nat × Option RecognitionResult) :=
  [ (K.RECOGNIZER_DRAFT_CLASS_PICK, contributionPHash P image allowedRecognizers
        K.RECOGNIZER_DRAFT_CLASS_PICK self.c.roiDraftClassPick self.setClasses),
    (K.RECOGNIZER_DRAFT_CARD_PICK, contributionPHash P image allowedRecognizers
        K.RECOGNIZER_DRAFT_CARD_PICK self.c.roiDraftCardPick self.setCards),
    (K.RECOGNIZER_GAME_CLASS_SHOW, contributionPHash P image allowedRecognizers
        K.RECOGNIZER_GAME_CLASS_SHOW self.c.roiGameClassShow self.setClasses),
    (K.RECOGNIZER_GAME_DRAW, contributionPHash P image allowedRecognizers
        K.RECOGNIZER_GAME_DRAW self.c.roiGameDraw self.setCards),
    (K.RECOGNIZER_GAME_DRAW_INIT_1, contributionPHash P image allowedRecognizers
        K.RECOGNIZER_GAME_DRAW_INIT_1 self.c.roiGameDrawInit1 self.setCards),
    (K.RECOGNIZER_GAME_DRAW_INIT_2, contributionPHash P image allowedRecognizers
        K.RECOGNIZER_GAME_DRAW_INIT_2 self.c.roiGameDrawInit2 self.setCards),
    (K.RECOGNIZER_GAME_COIN, contributionSurf P image allowedRecognizers
        K.RECOGNIZER_GAME_COIN self.c.roiGameCoin self.descriptorCoin),
    (K.RECOGNIZER_GAME_END, contributionSurf P image allowedRecognizers
        K.RECOGNIZER_GAME_END self.c.roiGameEnd self.descriptorEnd) ]

/-- The eight recognizer kinds are pairwise different values. -/
def DistinctKinds (K : Constants) : Prop :=
  [ K.RECOGNIZER_DRAFT_CLASS_PICK, K.RECOGNIZER_DRAFT_CARD_PICK,
    K.RECOGNIZER_GAME_CLASS_SHOW, K.RECOGNIZER_GAME_DRAW, K.RECOGNIZER_GAME_DRAW_INIT_1,
    K.RECOGNIZER_GAME_DRAW_INIT_2, K.RECOGNIZER_GAME_COIN, K.RECOGNIZER_GAME_END ].Nodup

instance (K : Constants) : Decidable (DistinctKinds K) := by
  unfold DistinctKinds; infer_instance

/-- A recognizer object between two calls: built by the constructor, with whatever
identifier sequence earlier calls of `recognize` have retained. -/
def inUse (P : Platform Image Desc) (K : Constants) (db : Database) (phashThreshold : Int)
    (c : Calibration) (gameEndVictory gameEndDefeat gameCoinFirst gameCoinSecond : Image)
    (last : List Int) : Recognizer Desc :=
  { init P K db phashThreshold c gameEndVictory gameEndDefeat gameCoinFirst gameCoinSecond
      with lastDraftRecognition := last }

/-- The descriptor matrix that `compareFeatures` extracts for region `r` (lines 239-249). -/
def regionDescriptor (P : Platform Image Desc) (image : Image) (r : Region) : Desc :=
  getDescriptor P
    (if P.channels (P.crop image r) = 1 then P.crop image r else P.toGray (P.crop image r))

/-- The number of accepted correspondences of a region descriptor against reference `d`:
the `matches.size()` of line 259. -/
def acceptedCount (P : Platform Image Desc) (descriptorImage : Desc) (d : Desc × Int) : Nat :=
  (getMatches P descriptorImage d.1).length

/-- The value of `bestResult` when line 264 tests it, for a region that has
descriptors. -/
def bestResultOf (P : Platform Image Desc) (descriptorImage : Desc)
    (descriptors : VectorDescriptor Desc) : Int :=
  (bestResultLoop P descriptorImage descriptors (-1, 0)).1

/-- What region `r` appends to the result of `compareFeatures`: nothing when the region
yields no descriptors (line 254) or when `bestResult` is still `-1` at line 264, and the
value of `bestResult` otherwise. -/
def regionOutcome (P : Platform Image Desc) (image : Image)
    (descriptors : VectorDescriptor Desc) (r : Region) : Option Int :=
  if P.hasData (regionDescriptor P image r) = false then none
  else if bestResultOf P (regionDescriptor P image r) descriptors ≠ -1 then
    some (bestResultOf P (regionDescriptor P image r) descriptors)
  else none

/-- The test of lines 292-298 on the neighbours of one query: the best neighbour when
there are at least two neighbours and the ratio test passes. -/
def ratioTest (P : Platform Image Desc) : List DMatch → Option DMatch
  | m1 :: m2 :: _ => if m1.distance ≤ P.rnd (float06 * m2.distance) then some m1 else none
  | _ => none

/-- Invariant of the inner loop of `compareFeatures` after the references `seen`: either
no reference reached 7 accepted correspondences and the state is the initial `(-1, 0)`, or
the state holds the outcome and the count of a reference `w` with at least 7, every
reference before `w` has a smaller count and none after it has a larger one. -/
def BestSoFar (P : Platform Image Desc) (descriptorImage : Desc)
    (seen : List (Desc × Int)) (state : Int × Nat) : Prop :=
  (state = (-1, 0) ∧ ∀ d ∈ seen, acceptedCount P descriptorImage d < 7) ∨
  (∃ before w after, seen = before ++ w :: after ∧
    state = (w.2, acceptedCount P descriptorImage w) ∧
    7 ≤ acceptedCount P descriptorImage w ∧
    (∀ d ∈ before, acceptedCount P descriptorImage d < acceptedCount P descriptorImage w) ∧
    (∀ d ∈ after, acceptedCount P descriptorImage d ≤ acceptedCount P descriptorImage w))

/-- The mean hue that `getIndexOfBluest` stores for region `r` (lines 179-186). -/
def slotHue (P : Platform Image Desc) (image : Image) (r : Region) : ℚ :=
  P.rnd (P.mean (P.toHSV (P.crop image r))).1

/-- The mean saturation that `getIndexOfBluest` stores for region `r` (line 187). -/
def slotSaturation (P : Platform Image Desc) (image : Image) (r : Region) : ℚ :=
  P.rnd (P.mean (P.toHSV (P.crop image r))).2.1

/-- The mean value that `getIndexOfBluest` stores for region `r` (line 188). -/
def slotValue (P : Platform Image Desc) (image : Image) (r : Region) : ℚ :=
  P.rnd (P.mean (P.toHSV (P.crop image r))).2.2

/-- The `averageValue` of line 198 for the value means `v0`, `v1`, `v2`: the `float`
expression `1/3.0f * (v0 + v1 + v2)`. -/
def averageValueOf (P : Platform Image Desc) (v0 v1 v2 : ℚ) : ℚ :=
  P.rnd (floatThird * P.rnd (P.rnd (v0 + v1) + v2))

/-- The flag `averageAboveThres` of lines 200-202. -/
def averageAboveThres (quality : Int) (averageValue : ℚ) : Bool :=
  (decide (quality = 5) && decide (averageValue ≥ 200)) ||
  (decide (quality ≠ 5) && decide (averageValue ≥ 220))

/-- The flag `candidateColor[i]` of lines 218-221 for the mean hue `h`. -/
def hueQualifies (quality : Int) (h : ℚ) : Bool :=
  (decide (quality = 4) && decide (110 ≤ h) && decide (h ≤ 150)) ||
  (decide (quality ≠ 4) &&
    ((decide (90 ≤ h) && decide (h ≤ 110)) || (decide (50 ≤ h) && decide (h ≤ 80))))

/-- One pass through the body of the second loop of `getIndexOfBluest` (lines 213-225)
for the index `i`, with `h = hsv[0][i]` and `s = hsv[1][i]`, when the two flag writes are
in range. -/
def hueStep (quality : Int) (h s : ℚ) (i : Nat) (st : HueState) : HueState :=
  { minS := if s < st.minS then s else st.minS
    minSIndex := if s < st.minS then i else st.minSIndex
    red := st.red.set i (decide (h < 30))
    candidateColor := st.candidateColor.set i (hueQualifies quality h)
    isMatch := if decide (st.cand ≥ 0) && hueQualifies quality h then false else st.isMatch
    cand := if hueQualifies quality h then (i : Int) else st.cand }

/-- Lines 174-231 of `getIndexOfBluest`: what the function does once `quality` has been
read at line 173. -/
def bluestForQuality (P : Platform Image Desc) (quality : Int) (image : Image)
    (roi : VectorROI) : Except Fault Int :=
  let (hV, sV, vV) := hsvMeansLoop P image roi ([], [], [])
  let best : Int := -1
  match vV[0]?, vV[1]?, vV[2]? with
  | some v0, some v1, some v2 =>
    let averageValue := P.rnd (floatThird * P.rnd (P.rnd (v0 + v1) + v2))
    let averageAboveThres : Bool :=
      (decide (quality = 5) && decide (averageValue ≥ 200)) ||
      (decide (quality ≠ 5) && decide (averageValue ≥ 220))
    if !averageAboveThres then .ok best
    else
      match sV[0]? with
      | none => .error Fault.saturationRead
      | some s0 =>
        let st0 : HueState :=
          { minS := s0, minSIndex := 0, red := List.replicate 3 false,
            candidateColor := List.replicate 3 false, isMatch := true, cand := -1 }
        match hueLoop quality hV sV (List.range hV.length) st0 with
        | .error f => .error f
        | .ok st =>
          if st.isMatch && decide (st.minSIndex = toSizeT st.cand) then .ok st.cand
          else .ok best
  | _, _, _ => .error Fault.valueRead

/-- The local variables of `getIndexOfBluest` before its second loop (lines 205-209),
`s0` being `hsv[1][0]`. -/
def hueStart (s0 : ℚ) : HueState :=
  { minS := s0, minSIndex := 0, red := List.replicate 3 false,
    candidateColor := List.replicate 3 false, isMatch := true, cand := -1 }

/-- The local variables of `getIndexOfBluest` after its second loop over three slots with
the mean hues `h0`, `h1`, `h2` and the mean saturations `s0`, `s1`, `s2`. -/
def hueEnd (quality : Int) (h0 h1 h2 s0 s1 s2 : ℚ) : HueState :=
  hueStep quality h2 s2 2 (hueStep quality h1 s1 1 (hueStep quality h0 s0 0 (hueStart s0)))

/-- Closed form of the value that `getIndexOfBluest` returns on three slots, from the gate
flag, the three candidate flags and the three mean saturations: slot 0, 1 or 2 when the
gate is passed, the slot is the only candidate and it is the first slot of minimum
saturation, and `-1` otherwise. -/
def bluestOfThree (gate q0 q1 q2 : Bool) (s0 s1 s2 : ℚ) : Int :=
  if gate = true ∧ q0 = true ∧ q1 = false ∧ q2 = false ∧ s0 ≤ s1 ∧ s0 ≤ s2 then 0
  else if gate = true ∧ q0 = false ∧ q1 = true ∧ q2 = false ∧ s1 < s0 ∧ s1 ≤ s2 then 1
  else if gate = true ∧ q0 = false ∧ q1 = false ∧ q2 = true ∧ s2 < s0 ∧ s2 < s1 then 2
  else -1

/-- The quality that line 173 reads, `db->cards[lastDraftRecognition[0]].quality`, when
the retained sequence is not empty and the index is in range. -/
def qualityUsed (self : Recognizer Desc) : Option Int :=
  match self.lastDraftRecognition with
  | [] => none
  | first :: _ => (self.db.cards[toSizeT first]?).map (fun card => card.quality)

/-- The lookup by identifier that the specification describes: the quality of the card of
the database whose identifier is `id`. -/
def qualityByIdentifier (db : Database) (id : Int) : Option Int :=
  (db.cards.find? (fun card => card.id == id)).map (fun card => card.quality)

/-! ## A small concrete platform, used to run the definitions on examples -/

/-- Number of set bits among the low 64 bits. -/
def popcount64 (n : Nat) : Nat :=
  (List.range 64).countP (fun i => n.testBit i)

/-- Scan of a hash list for the nearest hash by Hamming distance; the first minimum is
kept.  The state is the best result so far and the current position. -/
def sampleBestLoop (hash : Nat) : List Nat → ComparisonResult → Nat → ComparisonResult
  | [], best, _ => best
  | h :: rest, best, i =>
    let distance : Int := popcount64 (hash ^^^ h)
    if distance < best.distance then
      sampleBestLoop hash rest { index := i, distance := distance } (i + 1)
    else
      sampleBestLoop hash rest best (i + 1)

/-- A nearest-hash lookup: minimum Hamming distance, first minimum wins; on an empty
list the distance is 65, above every distance of two 64-bit hashes. -/
def sampleBest (hash : Nat) (hashes : List Nat) : ComparisonResult :=
  sampleBestLoop hash hashes { index := 0, distance := 65 } 0

/-- A platform on which an image is a number: cropping adds the `x` of the region, the
hash of an image is the image, a descriptor is the image, and matching a descriptor
against a reference `n` yields `n` queries whose two neighbours are at distances 1 and
2.  Rounding is exact. -/
def samplePlatform : Platform Nat Nat :=
  { cols := fun _ => 1024
    rows := fun _ => 768
    resize := fun img _ _ => img
    crop := fun img r => img + r.x.toNat
    channels := fun _ => 1
    toGray := fun img => img
    toHSV := fun img => img
    mean := fun img => (100, (img : ℚ), 230)
    surf := fun img => img
    hasData := fun d => decide (d ≠ 0)
    knnMatch := fun _ scene _ =>
      List.replicate scene
        [ { queryIdx := 0, trainIdx := 0, imgIdx := 0, distance := 1 },
          { queryIdx := 0, trainIdx := 1, imgIdx := 0, distance := 2 } ]
    phash := fun img => img
    best := sampleBest
    rnd := fun q => q
    unsetInt := 0
    unsetKind := 0 }

/-- The sample platform with a matcher that returns four queries: neighbours at
distances 59 and 100, at 61 and 100, at 60 and 100, and a query with one neighbour. -/
def ratioPlatform : Platform Nat Nat :=
  { samplePlatform with
    knnMatch := fun _ _ _ =>
      [ [ { queryIdx := 0, trainIdx := 0, imgIdx := 0, distance := 59 },
          { queryIdx := 0, trainIdx := 1, imgIdx := 0, distance := 100 } ],
        [ { queryIdx := 1, trainIdx := 0, imgIdx := 0, distance := 61 },
          { queryIdx := 1, trainIdx := 1, imgIdx := 0, distance := 100 } ],
        [ { queryIdx := 2, trainIdx := 0, imgIdx := 0, distance := 60 },
          { queryIdx := 2, trainIdx := 1, imgIdx := 0, distance := 100 } ],
        [ { queryIdx := 3, trainIdx := 0, imgIdx := 0, distance := 1 } ] ] }

/-- Kinds as the bits 1, 2, 4, ..., 128 in registration order, outcomes 1 to 4. -/
def sampleConstants : Constants :=
  { RECOGNIZER_DRAFT_CLASS_PICK := 1
    RECOGNIZER_DRAFT_CARD_PICK := 2
    RECOGNIZER_GAME_CLASS_SHOW := 4
    RECOGNIZER_GAME_DRAW := 8
    RECOGNIZER_GAME_DRAW_INIT_1 := 16
    RECOGNIZER_GAME_DRAW_INIT_2 := 32
    RECOGNIZER_GAME_COIN := 64
    RECOGNIZER_GAME_END := 128
    RESULT_GAME_END_VICTORY := 1
    RESULT_GAME_END_DEFEAT := 2
    RESULT_GAME_COIN_FIRST := 3
    RESULT_GAME_COIN_SECOND := 4 }

/-- The region whose only non-zero coordinate is `x`. -/
def regionAt (x : Int) : Region :=
  { x := x, y := 0, width := 0, height := 0 }

/-- A data set of two entries, ids 7 and 9, hashes 0 and 65535, threshold 5. -/
def sampleSet : DataSet :=
  { entries := [DataSetEntry.ofId 7, DataSetEntry.ofId 9], hashes := [0, 65535],
    phashThreshold := 5 }

/-- A database of two cards (hashes 0 and 65535, qualities 4 and 5) and two heroes. -/
def sampleDb : Database :=
  { cards := [{ id := 0, phash := 0, quality := 4 }, { id := 1, phash := 65535, quality := 5 }]
    heroes := [{ id := 0, phash := 0 }, { id := 1, phash := 65535 }] }

/-- A calibration at the resolution of the sample platform.  On the frame `0` the hash
of `regionAt x` is `x`: hashes 0, 1 and 65535 are within the threshold 5 of a reference,
hash 31 is at distance exactly 5 of the nearest one. -/
def sampleCalibration : Calibration :=
  { res := { width := 1024, height := 768 }
    roiDraftClassPick := [regionAt 0, regionAt 65535, regionAt 0]
    roiDraftCardPick := [regionAt 0, regionAt 65535, regionAt 1]
    roiGameClassShow := [regionAt 31]
    roiGameDraw := [regionAt 65535]
    roiGameDrawInit1 := [regionAt 0, regionAt 0, regionAt 0]
    roiGameDrawInit2 := [regionAt 0, regionAt 1, regionAt 0, regionAt 65535]
    roiGameCoin := [regionAt 1]
    roiGameEnd := [regionAt 2] }

/-- The same calibration with a third card-pick region whose hash, 31, is at distance
exactly 5, the threshold, of the nearest reference. -/
def sampleCalibrationEdge : Calibration :=
  { sampleCalibration with roiDraftCardPick := [regionAt 0, regionAt 65535, regionAt 31] }

/-- A recognizer object over the sample data, threshold 5.  The reference images give
8 and 5 accepted correspondences for the coin references and 3 and 2 for the end
references. -/
def sampleRecognizer (c : Calibration) (last : List Int) : Recognizer Nat :=
  inUse samplePlatform sampleConstants sampleDb 5 c 3 2 8 5 last

/-- The sample platform with other colour means: the slot cropped to the image `2` has
mean hue 60 and mean saturation 5, every other slot hue 10 and saturation 50; the mean
value of every slot is `value`. -/
def tintPlatform (value : ℚ) : Platform Nat Nat :=
  { samplePlatform with
    mean := fun img => (if img = 2 then 60 else 10, if img = 2 then 5 else 50, value) }

/-- The sample platform with colour means in which the slots cropped to the images `0`
and `2` tie for the minimum saturation 5: the slot cropped to the image `cand` has mean
hue 60, every other slot hue 10; the slot cropped to the image `1` has mean saturation 50;
every mean value is 230. -/
def tiePlatform (cand : Nat) : Platform Nat Nat :=
  { samplePlatform with
    mean := fun img => (if img = cand then 60 else 10, if img = 1 then 50 else 5, 230) }

/-- The three slots `regionAt 0`, `regionAt 1`, `regionAt 2`; on the frame `0` they are
cropped to the images `0`, `1`, `2`. -/
def sampleSlot (i : Fin 3) : Region :=
  regionAt (i : Nat)

/-- A database in which the identifiers are not the positions: the card at position 0
has id 1 and quality 4, the card at position 1 has id 0 and quality 5. -/
def swappedDb : Database :=
  { cards := [{ id := 1, phash := 0, quality := 4 }, { id := 0, phash := 65535, quality := 5 }]
    heroes := [] }

/-- A recognizer object over `swappedDb`, with the sample calibration and threshold 5. -/
def swappedRecognizer (last : List Int) : Recognizer Nat :=
  inUse (tintPlatform 210) sampleConstants swappedDb 5 sampleCalibration 3 2 8 5 last

/-! ## Rounding to IEEE-754 single precision, for examples in `float` arithmetic -/

/-- Position of the highest set bit of `n` (and `0` for `n < 2`), found by halving `n` at
most `fuel` times; `bitLength n n` is the integer part of the binary logarithm of a
positive `n`. -/
def bitLength : Nat → Nat → Nat
  | 0, _ => 0
  | fuel + 1, n => if 2 ≤ n then bitLength fuel (n / 2) + 1 else 0

/-- The power of two with the integer exponent `k`. -/
def pow2 (k : Int) : ℚ :=
  if 0 ≤ k then ((2 ^ k.toNat : Nat) : ℚ) else 1 / ((2 ^ (-k).toNat : Nat) : ℚ)

/-- Rounding of a rational to the nearest IEEE-754 single-precision value, ties to the
even significand (the rounding of `float` arithmetic in the default rounding mode), for
magnitudes below `2 ^ 128`: with `e` the binary exponent of `|q|`, not below the least
normal exponent `-126`, the result is the multiple of `2 ^ (e - 23)` nearest to `q`. -/
def roundSingle (q : ℚ) : ℚ :=
  if q = 0 then 0
  else
    let a : ℚ := if q < 0 then -q else q
    let e0 : Int := (bitLength a.num.natAbs a.num.natAbs : Int) - (bitLength a.den a.den : Int)
    let e : Int := if pow2 e0 ≤ a then e0 else e0 - 1
    let ulp : ℚ := pow2 ((if e < -126 then -126 else e) - 23)
    let t : ℚ := a / ulp
    let f : Int := t.num / (t.den : Int)
    let r : ℚ := t - (f : ℚ)
    let m : Int :=
      if r < 1 / 2 then f
      else if 1 / 2 < r then f + 1
      else if f % 2 = 0 then f else f + 1
    let result : ℚ := (m : ℚ) * ulp
    if q < 0 then -result else result

/-- The sample platform with single-precision rounding and a matcher that returns two
queries: neighbours at distances `60 + 2 ^ (-18)` and `100`, and neighbours at distances
`float06` and `1`.  The four distances are single-precision values. -/
def singleRatioPlatform : Platform Nat Nat :=
  { samplePlatform with
    rnd := roundSingle
    knnMatch := fun _ _ _ =>
      [ [ { queryIdx := 0, trainIdx := 0, imgIdx := 0, distance := 60 + 1 / 262144 },
          { queryIdx := 0, trainIdx := 1, imgIdx := 0, distance := 100 } ],
        [ { queryIdx := 1, trainIdx := 0, imgIdx := 0, distance := float06 },
          { queryIdx := 1, trainIdx := 1, imgIdx := 0, distance := 1 } ] ] }

/-- The sample platform with single-precision rounding and other colour means: the slot
cropped to the image `2` has mean hue 120 and mean saturation 5, every other slot hue 10
and saturation 50; the mean value is 220 on the image `0` and `220 - 2 ^ (-16)`, the
single-precision value just below 220, on every other image. -/
def singleTintPlatform : Platform Nat Nat :=
  { samplePlatform with
    rnd := roundSingle
    mean := fun img =>
      (if img = 2 then 120 else 10, if img = 2 then 5 else 50,
        if img = 0 then 220 else 220 - 1 / 65536) }

/-! ## Hash matcher: loop lemmas -/

theorem InRange_nil (P : Platform Image Desc) (image : Image) (dataSet : DataSet) :
    InRange P image [] dataSet := by
  intro r hr; cases hr

theorem InRange_cons (P : Platform Image Desc) (image : Image) (dataSet : DataSet)
    (r : Region) (rest : VectorROI) :
    InRange P image (r :: rest) dataSet ↔
      ((lookup P image dataSet r).distance < dataSet.phashThreshold →
        (lookup P image dataSet r).index < dataSet.entries.length) ∧
      InRange P image rest dataSet := by
  unfold InRange
  simp

theorem bestPHashMatchesLoop_eq (P : Platform Image Desc) (image : Image) (dataSet : DataSet)
    (roi : VectorROI) (acc : List DataSetEntry) :
    bestPHashMatchesLoop P image dataSet roi acc =
      if InRange P image roi dataSet then
        .ok (acc ++ roi.map (entryOf P image dataSet))
      else .error Fault.entryIndex := by
  induction roi generalizing acc with
  | nil => simp [bestPHashMatchesLoop, InRange_nil]
  | cons r rest ih =>
    rw [bestPHashMatchesLoop]
    simp only [InRange_cons, entryOf, lookup, List.map_cons]
    by_cases hhit : (P.best (P.phash (P.crop image r)) dataSet.hashes).distance
        < dataSet.phashThreshold
    · simp only [hhit, if_true, true_implies]
      by_cases hidx : (P.best (P.phash (P.crop image r)) dataSet.hashes).index
          < dataSet.entries.length
      · have hget := List.getElem?_eq_getElem hidx
        simp only [hget, ih, hidx, true_and, List.getD_eq_getElem?_getD, Option.getD_some,
          List.append_assoc, List.singleton_append, lookup]
      · have hnone : dataSet.entries[(P.best (P.phash (P.crop image r)) dataSet.hashes).index]?
            = none := List.getElem?_eq_none (Nat.le_of_not_lt hidx)
        simp [hnone, hidx]
    · simp only [hhit, if_false, false_implies, true_and, ih, List.append_assoc,
        List.singleton_append, lookup]

theorem bestPHashMatches_eq (P : Platform Image Desc) (image : Image) (roi : VectorROI)
    (dataSet : DataSet) :
    bestPHashMatches P image roi dataSet =
      if InRange P image roi dataSet then .ok (roi.map (entryOf P image dataSet))
      else .error Fault.entryIndex := by
  simp [bestPHashMatches, bestPHashMatchesLoop_eq]

/-- C1: `bestPHashMatches` returns one entry per region, in region order; with
`(index, distance)` the nearest-hash lookup of the region, the entry is
`dataSet.entries[index]` when `distance < dataSet.phashThreshold` and the sentinel, whose
`valid` is `false`, when `distance >= dataSet.phashThreshold`.  The hypothesis says that the
accesses `dataSet.entries[index]` the code makes are in range. -/
theorem bestPHashMatches_entries (P : Platform Image Desc) (image : Image) (roi : VectorROI)
    (dataSet : DataSet) (hRange : InRange P image roi dataSet) :
    ∃ out, bestPHashMatches P image roi dataSet = .ok out ∧ out.length = roi.length ∧
      ∀ (i : Nat) (hi : i < roi.length),
        ((lookup P image dataSet roi[i]).distance < dataSet.phashThreshold →
          ∃ e, dataSet.entries[(lookup P image dataSet roi[i]).index]? = some e ∧
            out[i]? = some e) ∧
        (dataSet.phashThreshold ≤ (lookup P image dataSet roi[i]).distance →
          out[i]? = some (DataSetEntry.sentinel P) ∧
            (DataSetEntry.sentinel P).valid = false) := by
  refine ⟨roi.map (entryOf P image dataSet), ?_, by simp, ?_⟩
  · rw [bestPHashMatches_eq, if_pos hRange]
  · intro i hi
    have hmem : roi[i] ∈ roi := List.getElem_mem hi
    constructor
    · intro hhit
      have hidx := hRange _ hmem hhit
      refine ⟨dataSet.entries[(lookup P image dataSet roi[i]).index], ?_, ?_⟩
      · exact List.getElem?_eq_getElem hidx
      · rw [List.getElem?_map, List.getElem?_eq_getElem hi]
        simp [entryOf, hhit, List.getD_eq_getElem?_getD, List.getElem?_eq_getElem hidx]
    · intro hmiss
      refine ⟨?_, rfl⟩
      rw [List.getElem?_map, List.getElem?_eq_getElem hi]
      simp [entryOf, not_lt.mpr hmiss]

/-- Witness of C1: three regions over the sample data set, the third at distance 5 = the
threshold. -/
theorem bestPHashMatches_entries_witness :
    InRange samplePlatform 0 [regionAt 0, regionAt 65535, regionAt 31] sampleSet ∧
    ∃ out, bestPHashMatches samplePlatform 0 [regionAt 0, regionAt 65535, regionAt 31]
        sampleSet = .ok out ∧
      out.length = [regionAt 0, regionAt 65535, regionAt 31].length ∧
      ∀ (i : Nat) (hi : i < [regionAt 0, regionAt 65535, regionAt 31].length),
        ((lookup samplePlatform 0 sampleSet
            [regionAt 0, regionAt 65535, regionAt 31][i]).distance
              < sampleSet.phashThreshold →
          ∃ e, sampleSet.entries[(lookup samplePlatform 0 sampleSet
              [regionAt 0, regionAt 65535, regionAt 31][i]).index]? = some e ∧
            out[i]? = some e) ∧
        (sampleSet.phashThreshold ≤ (lookup samplePlatform 0 sampleSet
            [regionAt 0, regionAt 65535, regionAt 31][i]).distance →
          out[i]? = some (DataSetEntry.sentinel samplePlatform) ∧
            (DataSetEntry.sentinel samplePlatform).valid = false) :=
  ⟨by decide, bestPHashMatches_entries samplePlatform 0 _ sampleSet (by decide)⟩

theorem foldl_and_valid (bm : List DataSetEntry) (b : Bool) :
    bm.foldl (fun v bestMatch => v && bestMatch.valid) b = (b && bm.all (fun e => e.valid)) := by
  induction bm generalizing b with
  | nil => simp
  | cons e rest ih => simp [ih, Bool.and_assoc]

theorem foldl_push_id (bm : List DataSetEntry) (acc : List Int) :
    bm.foldl (fun res dse => res ++ [dse.id]) acc = acc ++ bm.map (fun e => e.id) := by
  induction bm generalizing acc with
  | nil => simp
  | cons e rest ih => simp [ih]

theorem comparePHashes_eq (P : Platform Image Desc) (image : Image) (recognizer : Nat)
    (roi : VectorROI) (dataSet : DataSet) (hRange : InRange P image roi dataSet) :
    comparePHashes P image recognizer roi dataSet =
      .ok (if (roi.map (entryOf P image dataSet)).all (fun e => e.valid) then
            { valid := true, sourceRecognizer := recognizer,
              results := (roi.map (entryOf P image dataSet)).map (fun e => e.id) }
          else { valid := false, sourceRecognizer := P.unsetKind, results := [] }) := by
  unfold comparePHashes
  rw [bestPHashMatches_eq, if_pos hRange]
  simp only [foldl_and_valid, foldl_push_id, Bool.true_and, List.nil_append]
  by_cases hall : (roi.map (entryOf P image dataSet)).all (fun e => e.valid) = true
  · simp only [hall, if_true]
  · simp only [hall, if_false]
    simp

theorem comparePHashes_fault (P : Platform Image Desc) (image : Image) (recognizer : Nat)
    (roi : VectorROI) (dataSet : DataSet) (hRange : ¬ InRange P image roi dataSet) :
    comparePHashes P image recognizer roi dataSet = .error Fault.entryIndex := by
  unfold comparePHashes
  rw [bestPHashMatches_eq, if_neg hRange]

/-- C2: the result of `comparePHashes` is valid if and only if every entry of
`bestPHashMatches` is valid; a valid result carries the ids of the entries in region
order (as many as there are regions) and the recognizer kind passed in; an invalid result
has an empty identifier sequence.  The hypothesis says that the accesses
`dataSet.entries[index]` the code makes are in range. -/
theorem comparePHashes_valid_iff (P : Platform Image Desc) (image : Image) (recognizer : Nat)
    (roi : VectorROI) (dataSet : DataSet) (hRange : InRange P image roi dataSet) :
    ∃ bestMatches rr,
      bestPHashMatches P image roi dataSet = .ok bestMatches ∧
      comparePHashes P image recognizer roi dataSet = .ok rr ∧
      (rr.valid = true ↔ ∀ e ∈ bestMatches, e.valid = true) ∧
      (rr.valid = true →
        rr.results = bestMatches.map (fun e => e.id) ∧ rr.results.length = roi.length ∧
          rr.sourceRecognizer = recognizer) ∧
      (rr.valid = false → rr.results = []) := by
  refine ⟨roi.map (entryOf P image dataSet), _, ?_,
    comparePHashes_eq P image recognizer roi dataSet hRange, ?_, ?_, ?_⟩
  · rw [bestPHashMatches_eq, if_pos hRange]
  · by_cases hall : (roi.map (entryOf P image dataSet)).all (fun e => e.valid) = true
    · rw [if_pos hall]
      simpa using hall
    · rw [if_neg hall]
      simpa using hall
  · by_cases hall : (roi.map (entryOf P image dataSet)).all (fun e => e.valid) = true
    · rw [if_pos hall]
      simp
    · rw [if_neg hall]
      simp
  · by_cases hall : (roi.map (entryOf P image dataSet)).all (fun e => e.valid) = true
    · rw [if_pos hall]
      simp
    · rw [if_neg hall]
      simp

/-- Witness of C2: two matching regions of the sample data set, recognizer kind 2. -/
theorem comparePHashes_valid_iff_witness :
    InRange samplePlatform 0 [regionAt 0, regionAt 65535] sampleSet ∧
    ∃ bestMatches rr,
      bestPHashMatches samplePlatform 0 [regionAt 0, regionAt 65535] sampleSet
        = .ok bestMatches ∧
      comparePHashes samplePlatform 0 2 [regionAt 0, regionAt 65535] sampleSet = .ok rr ∧
      (rr.valid = true ↔ ∀ e ∈ bestMatches, e.valid = true) ∧
      (rr.valid = true →
        rr.results = bestMatches.map (fun e => e.id) ∧
          rr.results.length = [regionAt 0, regionAt 65535].length ∧
          rr.sourceRecognizer = 2) ∧
      (rr.valid = false → rr.results = []) :=
  ⟨by decide, comparePHashes_valid_iff samplePlatform 0 2 _ sampleSet (by decide)⟩

theorem map_eraseIdx_comm {α β : Type} (f : α → β) (l : List α) (i : Nat) :
    (l.eraseIdx i).map f = (l.map f).eraseIdx i := by
  induction l generalizing i with
  | nil => simp
  | cons a rest ih =>
    cases i with
    | zero => simp
    | succ j => simp [ih]

theorem comparePHashes_ok_inRange (P : Platform Image Desc) (image : Image) (recognizer : Nat)
    (roi : VectorROI) (dataSet : DataSet) (rr : RecognitionResult)
    (h : comparePHashes P image recognizer roi dataSet = .ok rr) :
    InRange P image roi dataSet := by
  by_contra hno
  rw [comparePHashes_fault P image recognizer roi dataSet hno] at h
  cases h

theorem comparePHashes_ok_valid (P : Platform Image Desc) (image : Image) (recognizer : Nat)
    (roi : VectorROI) (dataSet : DataSet) (rr : RecognitionResult)
    (h : comparePHashes P image recognizer roi dataSet = .ok rr) (hv : rr.valid = true) :
    (∀ r ∈ roi, (entryOf P image dataSet r).valid = true) ∧
      rr.results = roi.map (fun r => (entryOf P image dataSet r).id) := by
  have hRange := comparePHashes_ok_inRange P image recognizer roi dataSet rr h
  rw [comparePHashes_eq P image recognizer roi dataSet hRange] at h
  by_cases hall : (roi.map (entryOf P image dataSet)).all (fun e => e.valid) = true
  · rw [if_pos hall] at h
    injection h with h
    subst h
    refine ⟨by simpa using hall, by simp⟩
  · rw [if_neg hall] at h
    injection h with h
    subst h
    simp at hv

/-- Counterexample to C3 as stated: on the sample data set both regions match and the
result is valid; after the first region is removed the result is still valid. -/
theorem comparePHashes_removal_counterexample :
    comparePHashes samplePlatform 0 2 [regionAt 0, regionAt 65535] sampleSet
      = .ok { valid := true, sourceRecognizer := 2, results := [7, 9] } ∧
    [regionAt 0, regionAt 65535].eraseIdx 0 = [regionAt 65535] ∧
    comparePHashes samplePlatform 0 2 ([regionAt 0, regionAt 65535].eraseIdx 0) sampleSet
      = .ok { valid := true, sourceRecognizer := 2, results := [9] } := by
  decide

/-- C3, amended: when all regions of a `comparePHashes` invocation match (the result is
valid), removing any one region leaves the result valid, with the identifiers of the
remaining regions in order; the validity becomes false when any one region is replaced by
a region whose nearest-hash distance is not below the threshold. -/
theorem comparePHashes_remove_replace (P : Platform Image Desc) (image : Image)
    (recognizer : Nat) (roi : VectorROI) (dataSet : DataSet) (rr : RecognitionResult)
    (h : comparePHashes P image recognizer roi dataSet = .ok rr) (hv : rr.valid = true) :
    (∀ i, i < roi.length →
      ∃ rr1, comparePHashes P image recognizer (roi.eraseIdx i) dataSet = .ok rr1 ∧
        rr1.valid = true ∧ rr1.results = rr.results.eraseIdx i) ∧
    (∀ i r1, i < roi.length →
      dataSet.phashThreshold ≤ (lookup P image dataSet r1).distance →
      ∃ rr1, comparePHashes P image recognizer (roi.set i r1) dataSet = .ok rr1 ∧
        rr1.valid = false) := by
  have hRange := comparePHashes_ok_inRange P image recognizer roi dataSet rr h
  obtain ⟨hall, hres⟩ := comparePHashes_ok_valid P image recognizer roi dataSet rr h hv
  constructor
  · intro i _
    have hRange1 : InRange P image (roi.eraseIdx i) dataSet :=
      fun r hr => hRange r (List.mem_of_mem_eraseIdx hr)
    have hall1 : ((roi.eraseIdx i).map (entryOf P image dataSet)).all (fun e => e.valid)
        = true := by
      simp only [List.all_eq_true, List.mem_map]
      rintro e ⟨r, hr, rfl⟩
      exact hall r (List.mem_of_mem_eraseIdx hr)
    refine ⟨_, comparePHashes_eq P image recognizer (roi.eraseIdx i) dataSet hRange1, ?_, ?_⟩
    · rw [if_pos hall1]
    · rw [if_pos hall1, hres]
      simp only [List.map_map]
      exact map_eraseIdx_comm _ roi i
  · intro i r1 hi hmiss
    have hRange1 : InRange P image (roi.set i r1) dataSet := by
      intro r hr hhit
      rcases List.mem_or_eq_of_mem_set hr with hmem | heq
      · exact hRange r hmem hhit
      · subst heq
        exact absurd hhit (not_lt.mpr hmiss)
    have hall1 : ¬ ((roi.set i r1).map (entryOf P image dataSet)).all (fun e => e.valid)
        = true := by
      simp only [List.all_eq_true, List.mem_map]
      intro hcontra
      have hlen : i < (roi.set i r1).length := by simpa using hi
      have hmem : r1 ∈ roi.set i r1 := by
        have := List.getElem_mem hlen
        simpa using this
      have := hcontra _ ⟨r1, hmem, rfl⟩
      simp [entryOf, not_lt.mpr hmiss, DataSetEntry.sentinel] at this
    refine ⟨_, comparePHashes_eq P image recognizer (roi.set i r1) dataSet hRange1, ?_⟩
    rw [if_neg hall1]

/-- Witness of the amended C3 on the sample data set. -/
theorem comparePHashes_remove_replace_witness :
    (comparePHashes samplePlatform 0 2 [regionAt 0, regionAt 65535] sampleSet
        = .ok { valid := true, sourceRecognizer := 2, results := [7, 9] } ∧
      (RecognitionResult.mk true 2 [7, 9]).valid = true) ∧
    ((∀ i, i < [regionAt 0, regionAt 65535].length →
      ∃ rr1, comparePHashes samplePlatform 0 2 ([regionAt 0, regionAt 65535].eraseIdx i)
          sampleSet = .ok rr1 ∧
        rr1.valid = true ∧
        rr1.results = (RecognitionResult.mk true 2 [7, 9]).results.eraseIdx i) ∧
    (∀ i r1, i < [regionAt 0, regionAt 65535].length →
      sampleSet.phashThreshold ≤ (lookup samplePlatform 0 sampleSet r1).distance →
      ∃ rr1, comparePHashes samplePlatform 0 2 ([regionAt 0, regionAt 65535].set i r1)
          sampleSet = .ok rr1 ∧
        rr1.valid = false)) :=
  ⟨by decide,
    comparePHashes_remove_replace samplePlatform 0 2 [regionAt 0, regionAt 65535] sampleSet
      { valid := true, sourceRecognizer := 2, results := [7, 9] } (by decide) (by decide)⟩

/-! ## Feature matcher: loop lemmas -/

theorem getMatchesLoop_eq (P : Platform Image Desc) (knn : List (List DMatch))
    (acc : List DMatch) :
    getMatchesLoop P knn acc = acc ++ knn.filterMap (ratioTest P) := by
  induction knn generalizing acc with
  | nil => simp [getMatchesLoop]
  | cons ms rest ih =>
    match ms with
    | [] => simp [getMatchesLoop, ratioTest, ih]
    | [m] => simp [getMatchesLoop, ratioTest, ih]
    | m1 :: m2 :: tl =>
      by_cases h : m1.distance ≤ P.rnd (float06 * m2.distance)
      · simp [getMatchesLoop, ratioTest, ih, h]
      · simp [getMatchesLoop, ratioTest, ih, h]

theorem compareFeaturesLoop_eq (P : Platform Image Desc) (image : Image) (recognizer : Nat)
    (descriptors : VectorDescriptor Desc) (roi : VectorROI) (rr : RecognitionResult) :
    compareFeaturesLoop P image recognizer descriptors roi rr =
      if roi.filterMap (regionOutcome P image descriptors) = [] then rr
      else { valid := true, sourceRecognizer := recognizer,
             results := rr.results ++ roi.filterMap (regionOutcome P image descriptors) } := by
  induction roi generalizing rr with
  | nil => simp [compareFeaturesLoop]
  | cons r rest ih =>
    rw [compareFeaturesLoop]
    simp only [List.filterMap_cons]
    by_cases hdata : P.hasData (regionDescriptor P image r) = false
    · have hout : regionOutcome P image descriptors r = none := by
        simp [regionOutcome, hdata]
      simp only [regionDescriptor] at hdata
      simp only [hdata, hout, ih, Bool.not_false, if_true]
    · have hdata1 : P.hasData (regionDescriptor P image r) = true := by
        simpa using hdata
      by_cases hbest : bestResultOf P (regionDescriptor P image r) descriptors = -1
      · have hout : regionOutcome P image descriptors r = none := by
          simp [regionOutcome, hdata1, hbest]
        simp only [regionDescriptor, bestResultOf] at hdata1 hbest
        simp [hdata1, hout, ih, hbest]
      · have hout : regionOutcome P image descriptors r
            = some (bestResultOf P (regionDescriptor P image r) descriptors) := by
          simp [regionOutcome, hdata1, hbest]
        simp only [regionDescriptor, bestResultOf] at hdata1 hbest hout
        simp only [hdata1, hout, ih, hbest]
        by_cases hrest : rest.filterMap (regionOutcome P image descriptors) = []
        · simp [hrest, hbest]
        · simp [hrest, hbest]

theorem compareFeatures_eq (P : Platform Image Desc) (image : Image) (recognizer : Nat)
    (roi : VectorROI) (descriptors : VectorDescriptor Desc) :
    compareFeatures P image recognizer roi descriptors =
      if roi.filterMap (regionOutcome P image descriptors) = [] then
        { valid := false, sourceRecognizer := P.unsetKind, results := [] }
      else { valid := true, sourceRecognizer := recognizer,
             results := roi.filterMap (regionOutcome P image descriptors) } := by
  simp [compareFeatures, compareFeaturesLoop_eq]

theorem compareFeatures_source (P : Platform Image Desc) (image : Image) (recognizer : Nat)
    (roi : VectorROI) (descriptors : VectorDescriptor Desc)
    (hv : (compareFeatures P image recognizer roi descriptors).valid = true) :
    (compareFeatures P image recognizer roi descriptors).sourceRecognizer = recognizer := by
  rw [compareFeatures_eq] at hv ⊢
  by_cases h : roi.filterMap (regionOutcome P image descriptors) = []
  · simp [h] at hv
  · simp [h]

/-! ## Recognition engine: loop lemmas -/

theorem contributionPHash_eq (P : Platform Image Desc) (image : Image) (allowed kind : Nat)
    (roi : VectorROI) (dataSet : DataSet) (hsel : allowed &&& kind ≠ 0)
    (hr : InRange P image roi dataSet) :
    contributionPHash P image allowed kind roi dataSet =
      if (roi.map (entryOf P image dataSet)).all (fun e => e.valid) = true then
        some { valid := true, sourceRecognizer := kind,
               results := (roi.map (entryOf P image dataSet)).map (fun e => e.id) }
      else none := by
  unfold contributionPHash
  rw [if_pos hsel, comparePHashes_eq P image kind roi dataSet hr]
  by_cases hall : (roi.map (entryOf P image dataSet)).all (fun e => e.valid) = true
  · simp only [hall, if_true]
  · simp only [hall, if_false]
    simp

theorem recognizePHashLoop_eq (P : Platform Image Desc) (image : Image) (allowed : Nat)
    (recs : List PHashRecognizer) (acc : List RecognitionResult)
    (hRange : ∀ rec ∈ recs, allowed &&& rec.1 ≠ 0 → InRange P image rec.2.1 rec.2.2) :
    recognizePHashLoop P image allowed recs acc =
      .ok (acc ++ recs.filterMap
        (fun rec => contributionPHash P image allowed rec.1 rec.2.1 rec.2.2)) := by
  induction recs generalizing acc with
  | nil => simp [recognizePHashLoop]
  | cons rec rest ih =>
    have hrest : ∀ x ∈ rest, allowed &&& x.1 ≠ 0 → InRange P image x.2.1 x.2.2 :=
      fun x hx => hRange x (List.mem_cons_of_mem _ hx)
    rw [recognizePHashLoop]
    by_cases hsel : allowed &&& rec.1 ≠ 0
    · have hr := hRange rec (List.mem_cons_self _ _) hsel
      have hc := contributionPHash_eq P image allowed rec.1 rec.2.1 rec.2.2 hsel hr
      rw [if_pos hsel, comparePHashes_eq P image rec.1 rec.2.1 rec.2.2 hr]
      by_cases hall : (rec.2.1.map (entryOf P image rec.2.2)).all (fun e => e.valid) = true
      · rw [if_pos hall] at hc
        simp only [hall, if_true, ih _ hrest, List.filterMap_cons, hc, List.append_assoc,
          List.singleton_append]
      · rw [if_neg hall] at hc
        simp only [hall, if_false, List.filterMap_cons, hc]
        simp [ih _ hrest]
    · have hc : contributionPHash P image allowed rec.1 rec.2.1 rec.2.2 = none := by
        simp only [contributionPHash, if_neg hsel]
      rw [if_neg hsel, ih _ hrest]
      simp only [List.filterMap_cons, hc]

theorem recognizeSurfLoop_eq (P : Platform Image Desc) (image : Image) (allowed : Nat)
    (recs : List (SurfRecognizer Desc)) (acc : List RecognitionResult) :
    recognizeSurfLoop P image allowed recs acc =
      acc ++ recs.filterMap
        (fun rec => contributionSurf P image allowed rec.1 rec.2.1 rec.2.2) := by
  induction recs generalizing acc with
  | nil => simp [recognizeSurfLoop]
  | cons rec rest ih =>
    rw [recognizeSurfLoop]
    by_cases hsel : allowed &&& rec.1 ≠ 0
    · rw [if_pos hsel]
      by_cases hv : (compareFeatures P image rec.1 rec.2.1 rec.2.2).valid = true
      · have hc : contributionSurf P image allowed rec.1 rec.2.1 rec.2.2
            = some (compareFeatures P image rec.1 rec.2.1 rec.2.2) := by
          simp only [contributionSurf, if_pos hsel, if_pos hv]
        simp only [hv, if_true, ih, List.filterMap_cons, hc, List.append_assoc,
          List.singleton_append]
      · have hc : contributionSurf P image allowed rec.1 rec.2.1 rec.2.2 = none := by
          simp only [contributionSurf, if_pos hsel, if_neg hv]
        simp only [hv, if_false, List.filterMap_cons, hc]
        simp [ih]
    · have hc : contributionSurf P image allowed rec.1 rec.2.1 rec.2.2 = none := by
        simp only [contributionSurf, if_neg hsel]
      rw [if_neg hsel, ih]
      simp only [List.filterMap_cons, hc]

theorem contributionPHash_some (P : Platform Image Desc) (image : Image) (allowed kind : Nat)
    (roi : VectorROI) (dataSet : DataSet) (rr : RecognitionResult)
    (h : contributionPHash P image allowed kind roi dataSet = some rr) :
    allowed &&& kind ≠ 0 ∧ comparePHashes P image kind roi dataSet = .ok rr ∧
      rr.valid = true ∧ rr.sourceRecognizer = kind := by
  by_cases hsel : allowed &&& kind ≠ 0
  · by_cases hr : InRange P image roi dataSet
    · rw [contributionPHash_eq P image allowed kind roi dataSet hsel hr] at h
      rw [comparePHashes_eq P image kind roi dataSet hr]
      by_cases hall : (roi.map (entryOf P image dataSet)).all (fun e => e.valid) = true
      · rw [if_pos hall] at h
        injection h with h
        rw [if_pos hall, ← h]
        exact ⟨hsel, rfl, rfl, rfl⟩
      · rw [if_neg hall] at h
        cases h
    · unfold contributionPHash at h
      rw [if_pos hsel, comparePHashes_fault P image kind roi dataSet hr] at h
      cases h
  · unfold contributionPHash at h
    rw [if_neg hsel] at h
    cases h

theorem contributionSurf_some (P : Platform Image Desc) (image : Image) (allowed kind : Nat)
    (roi : VectorROI) (descriptors : VectorDescriptor Desc) (rr : RecognitionResult)
    (h : contributionSurf P image allowed kind roi descriptors = some rr) :
    allowed &&& kind ≠ 0 ∧ compareFeatures P image kind roi descriptors = rr ∧
      rr.valid = true ∧ rr.sourceRecognizer = kind := by
  unfold contributionSurf at h
  by_cases hsel : allowed &&& kind ≠ 0
  · rw [if_pos hsel] at h
    by_cases hv : (compareFeatures P image kind roi descriptors).valid = true
    · rw [if_pos hv] at h
      injection h with h
      subst h
      exact ⟨hsel, rfl, hv, compareFeatures_source P image kind roi descriptors hv⟩
    · rw [if_neg hv] at h
      cases h
  · rw [if_neg hsel] at h
    cases h

/-- The kinds of the elements contributed by a list of slots form a sublist of the kinds
of the slots. -/
theorem slots_kinds_sublist (slots : List (Nat × Option RecognitionResult))
    (hsrc : ∀ s ∈ slots, ∀ rr, s.2 = some rr → rr.sourceRecognizer = s.1) :
    ((slots.filterMap (fun s => s.2)).map (fun rr => rr.sourceRecognizer)).Sublist
      (slots.map (fun s => s.1)) := by
  induction slots with
  | nil => simp
  | cons s rest ih =>
    have hrest := ih (fun x hx => hsrc x (List.mem_cons_of_mem _ hx))
    cases hs : s.2 with
    | none =>
      simp only [List.filterMap_cons, hs, List.map_cons]
      exact List.Sublist.cons _ hrest
    | some rr =>
      simp only [List.filterMap_cons, hs, List.map_cons]
      rw [hsrc s (List.mem_cons_self _ _) rr hs]
      exact List.Sublist.cons₂ _ hrest

theorem recognize_eq (P : Platform Image Desc) (K : Constants) (self : Recognizer Desc)
    (source : Image) (allowed : Nat)
    (hRange : ∀ rec ∈ self.phashRecognizers, allowed &&& rec.1 ≠ 0 →
      InRange P (normalize P self source) rec.2.1 rec.2.2) :
    recognize P K self source allowed =
      .ok (self.phashRecognizers.filterMap
              (fun rec => contributionPHash P (normalize P self source) allowed
                rec.1 rec.2.1 rec.2.2) ++
            self.surfRecognizers.filterMap
              (fun rec => contributionSurf P (normalize P self source) allowed
                rec.1 rec.2.1 rec.2.2),
          if allowed &&& K.RECOGNIZER_DRAFT_CARD_PICK ≠ 0 then
            match (self.phashRecognizers.filterMap
              (fun rec => contributionPHash P (normalize P self source) allowed
                rec.1 rec.2.1 rec.2.2) ++
            self.surfRecognizers.filterMap
              (fun rec => contributionSurf P (normalize P self source) allowed
                rec.1 rec.2.1 rec.2.2)).find?
                (fun r => r.sourceRecognizer == K.RECOGNIZER_DRAFT_CARD_PICK) with
            | some recognitionResult =>
              { self with lastDraftRecognition := recognitionResult.results }
            | none => self
          else self) := by
  unfold recognize
  simp only [recognizePHashLoop_eq P (normalize P self source) allowed self.phashRecognizers []
    hRange, recognizeSurfLoop_eq, List.nil_append]
  split
  · split <;> rfl
  · rfl

theorem slots_filterMap (P : Platform Image Desc) (image : Image) (allowed : Nat)
    (recsP : List PHashRecognizer) (recsS : List (SurfRecognizer Desc))
    (sl : List (Nat × Option RecognitionResult))
    (h : sl.map (fun s => s.2) =
      recsP.map (fun rec => contributionPHash P image allowed rec.1 rec.2.1 rec.2.2)
      ++ recsS.map (fun rec => contributionSurf P image allowed rec.1 rec.2.1 rec.2.2)) :
    recsP.filterMap (fun rec => contributionPHash P image allowed rec.1 rec.2.1 rec.2.2) ++
      recsS.filterMap (fun rec => contributionSurf P image allowed rec.1 rec.2.1 rec.2.2)
      = sl.filterMap (fun s => s.2) := by
  have h1 : sl.filterMap (fun s => s.2) = (sl.map (fun s => s.2)).filterMap id := by
    simp [List.filterMap_map]
  rw [h1, h]
  simp [List.filterMap_append, List.filterMap_map]

theorem slots_source (P : Platform Image Desc) (K : Constants) (self : Recognizer Desc)
    (image : Image) (allowed : Nat) :
    ∀ s ∈ slots P K self image allowed, ∀ rr, s.2 = some rr →
      allowed &&& s.1 ≠ 0 ∧ rr.valid = true ∧ rr.sourceRecognizer = s.1 := by
  intro s hs rr hrr
  simp only [slots, List.mem_cons, List.mem_singleton, List.not_mem_nil, or_false] at hs
  rcases hs with rfl | rfl | rfl | rfl | rfl | rfl | rfl | rfl
  · exact ⟨(contributionPHash_some _ _ _ _ _ _ _ hrr).1,
      (contributionPHash_some _ _ _ _ _ _ _ hrr).2.2⟩
  · exact ⟨(contributionPHash_some _ _ _ _ _ _ _ hrr).1,
      (contributionPHash_some _ _ _ _ _ _ _ hrr).2.2⟩
  · exact ⟨(contributionPHash_some _ _ _ _ _ _ _ hrr).1,
      (contributionPHash_some _ _ _ _ _ _ _ hrr).2.2⟩
  · exact ⟨(contributionPHash_some _ _ _ _ _ _ _ hrr).1,
      (contributionPHash_some _ _ _ _ _ _ _ hrr).2.2⟩
  · exact ⟨(contributionPHash_some _ _ _ _ _ _ _ hrr).1,
      (contributionPHash_some _ _ _ _ _ _ _ hrr).2.2⟩
  · exact ⟨(contributionPHash_some _ _ _ _ _ _ _ hrr).1,
      (contributionPHash_some _ _ _ _ _ _ _ hrr).2.2⟩
  · exact ⟨(contributionSurf_some _ _ _ _ _ _ _ hrr).1,
      (contributionSurf_some _ _ _ _ _ _ _ hrr).2.2⟩
  · exact ⟨(contributionSurf_some _ _ _ _ _ _ _ hrr).1,
      (contributionSurf_some _ _ _ _ _ _ _ hrr).2.2⟩

/-- The call of `recognize` on a recognizer object in use, in closed form. -/
theorem recognize_inUse (P : Platform Image Desc) (K : Constants) (db : Database)
    (phashThreshold : Int) (c : Calibration)
    (gameEndVictory gameEndDefeat gameCoinFirst gameCoinSecond : Image) (last : List Int)
    (self : Recognizer Desc) (source : Image) (allowed : Nat)
    (hself : self = inUse P K db phashThreshold c gameEndVictory gameEndDefeat gameCoinFirst
      gameCoinSecond last)
    (hRange : ∀ rec ∈ self.phashRecognizers, allowed &&& rec.1 ≠ 0 →
      InRange P (normalize P self source) rec.2.1 rec.2.2) :
    recognize P K self source allowed =
      .ok ((slots P K self (normalize P self source) allowed).filterMap (fun s => s.2),
          if allowed &&& K.RECOGNIZER_DRAFT_CARD_PICK ≠ 0 then
            match ((slots P K self (normalize P self source) allowed).filterMap
                (fun s => s.2)).find?
                (fun r => r.sourceRecognizer == K.RECOGNIZER_DRAFT_CARD_PICK) with
            | some recognitionResult =>
              { self with lastDraftRecognition := recognitionResult.results }
            | none => self
          else self) := by
  have heq := recognize_eq P K self source allowed hRange
  have hres := slots_filterMap P (normalize P self source) allowed self.phashRecognizers
    self.surfRecognizers (slots P K self (normalize P self source) allowed)
    (by subst hself; rfl)
  rw [hres] at heq
  exact heq

/-- C4: the vector returned by `recognize` consists of the contributions of the eight
registered recognizers in the fixed order class-pick, card-pick, class-show, draw,
draw-init-1, draw-init-2 (hash) and coin, end (feature), where a recognizer contributes
its result when its kind is selected by the mask and the result is valid, and nothing
otherwise; when the kinds are pairwise different no kind appears twice.  The hypothesis
says that the accesses `dataSet.entries[index]` made for the selected hash recognizers are
in range. -/
theorem recognize_results (P : Platform Image Desc) (K : Constants) (db : Database)
    (phashThreshold : Int) (c : Calibration)
    (gameEndVictory gameEndDefeat gameCoinFirst gameCoinSecond : Image) (last : List Int)
    (self : Recognizer Desc) (source : Image) (allowed : Nat)
    (hself : self = inUse P K db phashThreshold c gameEndVictory gameEndDefeat gameCoinFirst
      gameCoinSecond last)
    (hRange : ∀ rec ∈ self.phashRecognizers, allowed &&& rec.1 ≠ 0 →
      InRange P (normalize P self source) rec.2.1 rec.2.2) :
    ∃ results self1, recognize P K self source allowed = .ok (results, self1) ∧
      results =
        [ contributionPHash P (normalize P self source) allowed
            K.RECOGNIZER_DRAFT_CLASS_PICK c.roiDraftClassPick self.setClasses,
          contributionPHash P (normalize P self source) allowed
            K.RECOGNIZER_DRAFT_CARD_PICK c.roiDraftCardPick self.setCards,
          contributionPHash P (normalize P self source) allowed
            K.RECOGNIZER_GAME_CLASS_SHOW c.roiGameClassShow self.setClasses,
          contributionPHash P (normalize P self source) allowed
            K.RECOGNIZER_GAME_DRAW c.roiGameDraw self.setCards,
          contributionPHash P (normalize P self source) allowed
            K.RECOGNIZER_GAME_DRAW_INIT_1 c.roiGameDrawInit1 self.setCards,
          contributionPHash P (normalize P self source) allowed
            K.RECOGNIZER_GAME_DRAW_INIT_2 c.roiGameDrawInit2 self.setCards,
          contributionSurf P (normalize P self source) allowed
            K.RECOGNIZER_GAME_COIN c.roiGameCoin self.descriptorCoin,
          contributionSurf P (normalize P self source) allowed
            K.RECOGNIZER_GAME_END c.roiGameEnd self.descriptorEnd ].reduceOption ∧
      (DistinctKinds K → (results.map (fun rr => rr.sourceRecognizer)).Nodup) := by
  have heq := recognize_inUse P K db phashThreshold c gameEndVictory gameEndDefeat
    gameCoinFirst gameCoinSecond last self source allowed hself hRange
  refine ⟨_, _, heq, ?_, ?_⟩
  · have hc : self.c = c := by subst hself; rfl
    rw [← hc]
    have h1 : (slots P K self (normalize P self source) allowed).filterMap (fun s => s.2)
        = ((slots P K self (normalize P self source) allowed).map
            (fun s => s.2)).filterMap id := by
      simp [List.filterMap_map]
    rw [h1]
    rfl
  · intro hK
    have hsub := slots_kinds_sublist (slots P K self (normalize P self source) allowed)
      (fun s hs rr hrr => (slots_source P K self _ allowed s hs rr hrr).2.2)
    exact List.Nodup.sublist hsub hK

/-- Witness of C4: the sample recognizer on the frame `0` with all eight kinds selected. -/
theorem recognize_results_witness :
    (sampleRecognizer sampleCalibration [5]
        = inUse samplePlatform sampleConstants sampleDb 5 sampleCalibration 3 2 8 5 [5] ∧
      ∀ rec ∈ (sampleRecognizer sampleCalibration [5]).phashRecognizers,
        255 &&& rec.1 ≠ 0 →
        InRange samplePlatform
          (normalize samplePlatform (sampleRecognizer sampleCalibration [5]) 0)
          rec.2.1 rec.2.2) ∧
    ∃ results self1,
      recognize samplePlatform sampleConstants (sampleRecognizer sampleCalibration [5]) 0 255
        = .ok (results, self1) ∧
      results =
        [ contributionPHash samplePlatform
            (normalize samplePlatform (sampleRecognizer sampleCalibration [5]) 0) 255
            sampleConstants.RECOGNIZER_DRAFT_CLASS_PICK sampleCalibration.roiDraftClassPick
            (sampleRecognizer sampleCalibration [5]).setClasses,
          contributionPHash samplePlatform
            (normalize samplePlatform (sampleRecognizer sampleCalibration [5]) 0) 255
            sampleConstants.RECOGNIZER_DRAFT_CARD_PICK sampleCalibration.roiDraftCardPick
            (sampleRecognizer sampleCalibration [5]).setCards,
          contributionPHash samplePlatform
            (normalize samplePlatform (sampleRecognizer sampleCalibration [5]) 0) 255
            sampleConstants.RECOGNIZER_GAME_CLASS_SHOW sampleCalibration.roiGameClassShow
            (sampleRecognizer sampleCalibration [5]).setClasses,
          contributionPHash samplePlatform
            (normalize samplePlatform (sampleRecognizer sampleCalibration [5]) 0) 255
            sampleConstants.RECOGNIZER_GAME_DRAW sampleCalibration.roiGameDraw
            (sampleRecognizer sampleCalibration [5]).setCards,
          contributionPHash samplePlatform
            (normalize samplePlatform (sampleRecognizer sampleCalibration [5]) 0) 255
            sampleConstants.RECOGNIZER_GAME_DRAW_INIT_1 sampleCalibration.roiGameDrawInit1
            (sampleRecognizer sampleCalibration [5]).setCards,
          contributionPHash samplePlatform
            (normalize samplePlatform (sampleRecognizer sampleCalibration [5]) 0) 255
            sampleConstants.RECOGNIZER_GAME_DRAW_INIT_2 sampleCalibration.roiGameDrawInit2
            (sampleRecognizer sampleCalibration [5]).setCards,
          contributionSurf samplePlatform
            (normalize samplePlatform (sampleRecognizer sampleCalibration [5]) 0) 255
            sampleConstants.RECOGNIZER_GAME_COIN sampleCalibration.roiGameCoin
            (sampleRecognizer sampleCalibration [5]).descriptorCoin,
          contributionSurf samplePlatform
            (normalize samplePlatform (sampleRecognizer sampleCalibration [5]) 0) 255
            sampleConstants.RECOGNIZER_GAME_END sampleCalibration.roiGameEnd
            (sampleRecognizer sampleCalibration [5]).descriptorEnd ].reduceOption ∧
      (DistinctKinds sampleConstants →
        (results.map (fun rr => rr.sourceRecognizer)).Nodup) :=
  ⟨⟨rfl, by decide⟩,
    recognize_results samplePlatform sampleConstants sampleDb 5 sampleCalibration 3 2 8 5 [5]
      (sampleRecognizer sampleCalibration [5]) 0 255 rfl (by decide)⟩

/-! ## The retained draft recognition -/

theorem find_absent (sl : List (Nat × Option RecognitionResult)) (k : Nat)
    (hsrc : ∀ s ∈ sl, ∀ rr, s.2 = some rr → rr.sourceRecognizer = s.1)
    (hk : k ∉ sl.map (fun s => s.1)) :
    (sl.filterMap (fun s => s.2)).find? (fun r => r.sourceRecognizer == k) = none := by
  rw [List.find?_eq_none]
  intro rr hrr
  rw [List.mem_filterMap] at hrr
  obtain ⟨s, hs, hsome⟩ := hrr
  have h1 := hsrc s hs rr hsome
  have h2 : s.1 ≠ k := by
    intro heq
    exact hk (List.mem_map.mpr ⟨s, hs, heq⟩)
  simp [h1, h2]

theorem find_in_slots (sl : List (Nat × Option RecognitionResult)) (k : Nat)
    (c : Option RecognitionResult)
    (hsrc : ∀ s ∈ sl, ∀ rr, s.2 = some rr → rr.sourceRecognizer = s.1)
    (hnd : (sl.map (fun s => s.1)).Nodup) (hmem : (k, c) ∈ sl) :
    (sl.filterMap (fun s => s.2)).find? (fun r => r.sourceRecognizer == k) = c := by
  induction sl with
  | nil => cases hmem
  | cons s rest ih =>
    have hsrcRest : ∀ x ∈ rest, ∀ rr, x.2 = some rr → rr.sourceRecognizer = x.1 :=
      fun x hx => hsrc x (List.mem_cons_of_mem _ hx)
    rw [List.map_cons, List.nodup_cons] at hnd
    rcases List.mem_cons.mp hmem with heq | hin
    · subst heq
      cases c with
      | none =>
        simp only [List.filterMap_cons]
        exact find_absent rest k hsrcRest hnd.1
      | some rr =>
        have h1 := hsrc (k, some rr) (List.mem_cons_self _ _) rr rfl
        simp only [List.filterMap_cons]
        simp at h1
        simp [h1]
    · have hne : s.1 ≠ k := by
        intro heq
        apply hnd.1
        rw [heq]
        exact List.mem_map.mpr ⟨(k, c), hin, rfl⟩
      cases hs : s.2 with
      | none =>
        simp only [List.filterMap_cons, hs]
        exact ih hsrcRest hnd.2 hin
      | some rr =>
        have h1 := hsrc s (List.mem_cons_self _ _) rr hs
        simp only [List.filterMap_cons, hs]
        rw [List.find?_cons_of_neg]
        · exact ih hsrcRest hnd.2 hin
        · simp [h1, hne]

theorem find_cardPick (P : Platform Image Desc) (K : Constants) (self : Recognizer Desc)
    (image : Image) (allowed : Nat) (hK : DistinctKinds K) :
    ((slots P K self image allowed).filterMap (fun s => s.2)).find?
        (fun r => r.sourceRecognizer == K.RECOGNIZER_DRAFT_CARD_PICK) =
      contributionPHash P image allowed K.RECOGNIZER_DRAFT_CARD_PICK
        self.c.roiDraftCardPick self.setCards := by
  apply find_in_slots
  · exact fun s hs rr hrr => (slots_source P K self image allowed s hs rr hrr).2.2
  · exact hK
  · simp [slots]

theorem contributionPHash_unselected (P : Platform Image Desc) (image : Image)
    (allowed kind : Nat) (roi : VectorROI) (dataSet : DataSet) (h : allowed &&& kind = 0) :
    contributionPHash P image allowed kind roi dataSet = none := by
  simp [contributionPHash, h]

theorem contributionPHash_of_ok (P : Platform Image Desc) (image : Image)
    (allowed kind : Nat) (roi : VectorROI) (dataSet : DataSet) (rr : RecognitionResult)
    (hsel : allowed &&& kind ≠ 0) (h : comparePHashes P image kind roi dataSet = .ok rr) :
    contributionPHash P image allowed kind roi dataSet = if rr.valid then some rr else none := by
  simp only [contributionPHash, if_pos hsel, h]

/-- The recognizer object after a call of `recognize`, in terms of what the card-pick
recognizer contributed. -/
theorem recognize_inUse_state (P : Platform Image Desc) (K : Constants) (db : Database)
    (phashThreshold : Int) (c : Calibration)
    (gameEndVictory gameEndDefeat gameCoinFirst gameCoinSecond : Image) (last : List Int)
    (self : Recognizer Desc) (source : Image) (allowed : Nat) (hK : DistinctKinds K)
    (hself : self = inUse P K db phashThreshold c gameEndVictory gameEndDefeat gameCoinFirst
      gameCoinSecond last)
    (hRange : ∀ rec ∈ self.phashRecognizers, allowed &&& rec.1 ≠ 0 →
      InRange P (normalize P self source) rec.2.1 rec.2.2) :
    recognize P K self source allowed =
      .ok ((slots P K self (normalize P self source) allowed).filterMap (fun s => s.2),
          match contributionPHash P (normalize P self source) allowed
              K.RECOGNIZER_DRAFT_CARD_PICK c.roiDraftCardPick self.setCards with
          | some recognitionResult =>
            { self with lastDraftRecognition := recognitionResult.results }
          | none => self) := by
  have hc : self.c = c := by subst hself; rfl
  rw [recognize_inUse P K db phashThreshold c gameEndVictory gameEndDefeat
    gameCoinFirst gameCoinSecond last self source allowed hself hRange,
    find_cardPick P K self _ allowed hK, hc]
  by_cases hsel : allowed &&& K.RECOGNIZER_DRAFT_CARD_PICK ≠ 0
  · rw [if_pos hsel]
  · rw [if_neg hsel]
    have := contributionPHash_unselected P (normalize P self source) allowed
      K.RECOGNIZER_DRAFT_CARD_PICK c.roiDraftCardPick self.setCards (by simpa using hsel)
    rw [this]

/-- C5: after `recognize`, the retained `lastDraftRecognition` is the identifier sequence
of the card-pick result when the card-pick kind is selected by the mask and that result is
valid, and it is the value from before the call when the kind is not selected or the
result is invalid; no other member changes.  The hypotheses say that the eight kinds are
pairwise different and that the accesses `dataSet.entries[index]` made for the selected
hash recognizers are in range. -/
theorem recognize_lastDraft (P : Platform Image Desc) (K : Constants) (db : Database)
    (phashThreshold : Int) (c : Calibration)
    (gameEndVictory gameEndDefeat gameCoinFirst gameCoinSecond : Image) (last : List Int)
    (self : Recognizer Desc) (source : Image) (allowed : Nat) (hK : DistinctKinds K)
    (hself : self = inUse P K db phashThreshold c gameEndVictory gameEndDefeat gameCoinFirst
      gameCoinSecond last)
    (hRange : ∀ rec ∈ self.phashRecognizers, allowed &&& rec.1 ≠ 0 →
      InRange P (normalize P self source) rec.2.1 rec.2.2) :
    ∃ results self1, recognize P K self source allowed = .ok (results, self1) ∧
      (∀ rr, allowed &&& K.RECOGNIZER_DRAFT_CARD_PICK ≠ 0 →
        comparePHashes P (normalize P self source) K.RECOGNIZER_DRAFT_CARD_PICK
          c.roiDraftCardPick self.setCards = .ok rr →
        rr.valid = true → self1.lastDraftRecognition = rr.results) ∧
      (allowed &&& K.RECOGNIZER_DRAFT_CARD_PICK = 0 →
        self1.lastDraftRecognition = self.lastDraftRecognition) ∧
      (∀ rr, comparePHashes P (normalize P self source) K.RECOGNIZER_DRAFT_CARD_PICK
          c.roiDraftCardPick self.setCards = .ok rr →
        rr.valid = false → self1.lastDraftRecognition = self.lastDraftRecognition) ∧
      self1 = { self with lastDraftRecognition := self1.lastDraftRecognition } := by
  refine ⟨_, _, recognize_inUse_state P K db phashThreshold c gameEndVictory gameEndDefeat
    gameCoinFirst gameCoinSecond last self source allowed hK hself hRange, ?_, ?_, ?_, ?_⟩
  · intro rr hsel hok hv
    rw [contributionPHash_of_ok P _ allowed _ _ _ rr hsel hok, hv]
    rfl
  · intro hsel
    rw [contributionPHash_unselected P _ allowed _ _ _ hsel]
  · intro rr hok hv
    by_cases hsel : allowed &&& K.RECOGNIZER_DRAFT_CARD_PICK ≠ 0
    · rw [contributionPHash_of_ok P _ allowed _ _ _ rr hsel hok, hv]
      rfl
    · rw [contributionPHash_unselected P _ allowed _ _ _ (by simpa using hsel)]
  · cases contributionPHash P (normalize P self source) allowed
      K.RECOGNIZER_DRAFT_CARD_PICK c.roiDraftCardPick self.setCards <;> rfl

/-- Witness of C5: the sample recognizer, which retains `[5]`, on the frame `0` with all
kinds selected. -/
theorem recognize_lastDraft_witness :
    (DistinctKinds sampleConstants ∧
      sampleRecognizer sampleCalibration [5]
        = inUse samplePlatform sampleConstants sampleDb 5 sampleCalibration 3 2 8 5 [5] ∧
      ∀ rec ∈ (sampleRecognizer sampleCalibration [5]).phashRecognizers,
        255 &&& rec.1 ≠ 0 →
        InRange samplePlatform
          (normalize samplePlatform (sampleRecognizer sampleCalibration [5]) 0)
          rec.2.1 rec.2.2) ∧
    ∃ results self1,
      recognize samplePlatform sampleConstants (sampleRecognizer sampleCalibration [5]) 0 255
        = .ok (results, self1) ∧
      (∀ rr, 255 &&& sampleConstants.RECOGNIZER_DRAFT_CARD_PICK ≠ 0 →
        comparePHashes samplePlatform
          (normalize samplePlatform (sampleRecognizer sampleCalibration [5]) 0)
          sampleConstants.RECOGNIZER_DRAFT_CARD_PICK sampleCalibration.roiDraftCardPick
          (sampleRecognizer sampleCalibration [5]).setCards = .ok rr →
        rr.valid = true → self1.lastDraftRecognition = rr.results) ∧
      (255 &&& sampleConstants.RECOGNIZER_DRAFT_CARD_PICK = 0 →
        self1.lastDraftRecognition
          = (sampleRecognizer sampleCalibration [5]).lastDraftRecognition) ∧
      (∀ rr, comparePHashes samplePlatform
          (normalize samplePlatform (sampleRecognizer sampleCalibration [5]) 0)
          sampleConstants.RECOGNIZER_DRAFT_CARD_PICK sampleCalibration.roiDraftCardPick
          (sampleRecognizer sampleCalibration [5]).setCards = .ok rr →
        rr.valid = false →
        self1.lastDraftRecognition
          = (sampleRecognizer sampleCalibration [5]).lastDraftRecognition) ∧
      self1 = { sampleRecognizer sampleCalibration [5] with
                lastDraftRecognition := self1.lastDraftRecognition } :=
  ⟨⟨by decide, rfl, by decide⟩,
    recognize_lastDraft samplePlatform sampleConstants sampleDb 5 sampleCalibration 3 2 8 5
      [5] (sampleRecognizer sampleCalibration [5]) 0 255 (by decide) rfl (by decide)⟩

theorem entryOf_edge (P : Platform Image Desc) (image : Image) (dataSet : DataSet)
    (r : Region) (h : dataSet.phashThreshold ≤ (lookup P image dataSet r).distance) :
    entryOf P image dataSet r = DataSetEntry.sentinel P := by
  simp [entryOf, not_lt.mpr h]

/-- C6: when the card-pick kind is selected and the nearest-hash distance of a card-pick
region equals the threshold of the data set, that region gets the sentinel entry (it is a
non-match), the card-pick result is invalid, the returned vector holds no card-pick
result, and the recognizer object, so also `lastDraftRecognition`, is unchanged.  The
hypotheses say that the eight kinds are pairwise different and that the accesses
`dataSet.entries[index]` made for the selected hash recognizers are in range. -/
theorem recognize_distance_at_threshold (P : Platform Image Desc) (K : Constants)
    (db : Database) (phashThreshold : Int) (c : Calibration)
    (gameEndVictory gameEndDefeat gameCoinFirst gameCoinSecond : Image) (last : List Int)
    (self : Recognizer Desc) (source : Image) (allowed : Nat) (hK : DistinctKinds K)
    (hself : self = inUse P K db phashThreshold c gameEndVictory gameEndDefeat gameCoinFirst
      gameCoinSecond last)
    (hRange : ∀ rec ∈ self.phashRecognizers, allowed &&& rec.1 ≠ 0 →
      InRange P (normalize P self source) rec.2.1 rec.2.2)
    (hsel : allowed &&& K.RECOGNIZER_DRAFT_CARD_PICK ≠ 0)
    (i : Nat) (hi : i < c.roiDraftCardPick.length)
    (hedge : (lookup P (normalize P self source) self.setCards c.roiDraftCardPick[i]).distance
      = self.setCards.phashThreshold) :
    (∃ out, bestPHashMatches P (normalize P self source) c.roiDraftCardPick self.setCards
        = .ok out ∧
      out[i]? = some (DataSetEntry.sentinel P) ∧ (DataSetEntry.sentinel P).valid = false) ∧
    (∃ rr, comparePHashes P (normalize P self source) K.RECOGNIZER_DRAFT_CARD_PICK
        c.roiDraftCardPick self.setCards = .ok rr ∧ rr.valid = false) ∧
    (∃ results self1, recognize P K self source allowed = .ok (results, self1) ∧
      (∀ x ∈ results, x.sourceRecognizer ≠ K.RECOGNIZER_DRAFT_CARD_PICK) ∧
      self1 = self ∧ self1.lastDraftRecognition = self.lastDraftRecognition) := by
  have hmemRec : (K.RECOGNIZER_DRAFT_CARD_PICK, c.roiDraftCardPick, self.setCards)
      ∈ self.phashRecognizers := by
    subst hself
    simp [inUse, init]
  have hr := hRange _ hmemRec hsel
  have hent : entryOf P (normalize P self source) self.setCards c.roiDraftCardPick[i]
      = DataSetEntry.sentinel P := entryOf_edge P _ _ _ (le_of_eq hedge.symm)
  have hall : ¬ (c.roiDraftCardPick.map
      (entryOf P (normalize P self source) self.setCards)).all (fun e => e.valid) = true := by
    simp only [List.all_eq_true, List.mem_map]
    intro hcontra
    have := hcontra _ ⟨c.roiDraftCardPick[i], List.getElem_mem hi, rfl⟩
    rw [hent] at this
    cases this
  have hcontr : contributionPHash P (normalize P self source) allowed
      K.RECOGNIZER_DRAFT_CARD_PICK c.roiDraftCardPick self.setCards = none := by
    rw [contributionPHash_eq P _ allowed _ _ _ hsel hr, if_neg hall]
  refine ⟨⟨c.roiDraftCardPick.map (entryOf P (normalize P self source) self.setCards),
    ?_, ?_, rfl⟩, ⟨_, comparePHashes_eq P _ _ _ _ hr, ?_⟩, ?_⟩
  · rw [bestPHashMatches_eq, if_pos hr]
  · rw [List.getElem?_map, List.getElem?_eq_getElem hi, Option.map_some', hent]
  · rw [if_neg hall]
  · have hstate := recognize_inUse_state P K db phashThreshold c gameEndVictory gameEndDefeat
      gameCoinFirst gameCoinSecond last self source allowed hK hself hRange
    rw [hcontr] at hstate
    refine ⟨_, _, hstate, ?_, rfl, rfl⟩
    have hc : self.c = c := by subst hself; rfl
    have hfind := find_cardPick P K self (normalize P self source) allowed hK
    rw [hc, hcontr, List.find?_eq_none] at hfind
    intro x hx heq
    exact hfind x hx (by simp [heq])

/-- Witness of C6: the third card-pick region of `sampleCalibrationEdge` has hash 31, at
distance 5 of the nearest reference, and the threshold is 5. -/
theorem recognize_distance_at_threshold_witness :
    (DistinctKinds sampleConstants ∧
      sampleRecognizer sampleCalibrationEdge [5]
        = inUse samplePlatform sampleConstants sampleDb 5 sampleCalibrationEdge 3 2 8 5 [5] ∧
      (∀ rec ∈ (sampleRecognizer sampleCalibrationEdge [5]).phashRecognizers,
        255 &&& rec.1 ≠ 0 →
        InRange samplePlatform
          (normalize samplePlatform (sampleRecognizer sampleCalibrationEdge [5]) 0)
          rec.2.1 rec.2.2) ∧
      255 &&& sampleConstants.RECOGNIZER_DRAFT_CARD_PICK ≠ 0 ∧
      ∃ hi : 2 < sampleCalibrationEdge.roiDraftCardPick.length,
        (lookup samplePlatform
            (normalize samplePlatform (sampleRecognizer sampleCalibrationEdge [5]) 0)
            (sampleRecognizer sampleCalibrationEdge [5]).setCards
            sampleCalibrationEdge.roiDraftCardPick[2]).distance
          = (sampleRecognizer sampleCalibrationEdge [5]).setCards.phashThreshold) ∧
    ((∃ out, bestPHashMatches samplePlatform
          (normalize samplePlatform (sampleRecognizer sampleCalibrationEdge [5]) 0)
          sampleCalibrationEdge.roiDraftCardPick
          (sampleRecognizer sampleCalibrationEdge [5]).setCards = .ok out ∧
        out[2]? = some (DataSetEntry.sentinel samplePlatform) ∧
        (DataSetEntry.sentinel samplePlatform).valid = false) ∧
      (∃ rr, comparePHashes samplePlatform
          (normalize samplePlatform (sampleRecognizer sampleCalibrationEdge [5]) 0)
          sampleConstants.RECOGNIZER_DRAFT_CARD_PICK sampleCalibrationEdge.roiDraftCardPick
          (sampleRecognizer sampleCalibrationEdge [5]).setCards = .ok rr ∧
        rr.valid = false) ∧
      (∃ results self1,
        recognize samplePlatform sampleConstants (sampleRecognizer sampleCalibrationEdge [5])
          0 255 = .ok (results, self1) ∧
        (∀ x ∈ results, x.sourceRecognizer ≠ sampleConstants.RECOGNIZER_DRAFT_CARD_PICK) ∧
        self1 = sampleRecognizer sampleCalibrationEdge [5] ∧
        self1.lastDraftRecognition
          = (sampleRecognizer sampleCalibrationEdge [5]).lastDraftRecognition)) :=
  ⟨⟨by decide, rfl, by decide, by decide, by decide, by decide⟩,
    recognize_distance_at_threshold samplePlatform sampleConstants sampleDb 5
      sampleCalibrationEdge 3 2 8 5 [5] (sampleRecognizer sampleCalibrationEdge [5]) 0 255
      (by decide) rfl (by decide) (by decide) 2 (by decide) (by decide)⟩

/-! ## Feature matcher: the best reference -/

theorem bestResultLoop_step (P : Platform Image Desc) (descriptorImage : Desc)
    (seen : List (Desc × Int)) (d : Desc × Int) (state : Int × Nat)
    (h : BestSoFar P descriptorImage seen state) :
    BestSoFar P descriptorImage (seen ++ [d])
      (if isGoodDescriptorMatch (getMatches P descriptorImage d.1) &&
          decide ((getMatches P descriptorImage d.1).length > state.2) then
        (d.2, (getMatches P descriptorImage d.1).length)
      else state) := by
  have hcount : (getMatches P descriptorImage d.1).length = acceptedCount P descriptorImage d :=
    rfl
  by_cases hgood : 7 ≤ acceptedCount P descriptorImage d ∧
      state.2 < acceptedCount P descriptorImage d
  · have hcond : (isGoodDescriptorMatch (getMatches P descriptorImage d.1) &&
          decide ((getMatches P descriptorImage d.1).length > state.2)) = true := by
      simp [isGoodDescriptorMatch, hcount, hgood.1, hgood.2]
    rw [if_pos hcond, hcount]
    right
    refine ⟨seen, d, [], by simp, rfl, hgood.1, ?_, by simp⟩
    intro x hx
    rcases h with ⟨_, hlow⟩ | ⟨before, w, after, hseen, hst, hw, hbefore, hafter⟩
    · exact lt_of_lt_of_le (hlow x hx) hgood.1
    · have hst2 : state.2 = acceptedCount P descriptorImage w := by rw [hst]
      rw [hseen] at hx
      rcases List.mem_append.mp hx with hb | hwa
      · exact lt_trans (hbefore x hb) (hst2 ▸ hgood.2)
      · rcases List.mem_cons.mp hwa with rfl | ha
        · exact hst2 ▸ hgood.2
        · exact lt_of_le_of_lt (hafter x ha) (hst2 ▸ hgood.2)
  · have hcond : ¬ (isGoodDescriptorMatch (getMatches P descriptorImage d.1) &&
          decide ((getMatches P descriptorImage d.1).length > state.2)) = true := by
      simp only [isGoodDescriptorMatch, hcount, Bool.and_eq_true, decide_eq_true_eq]
      exact hgood
    rw [if_neg hcond]
    rcases h with ⟨hst, hlow⟩ | ⟨before, w, after, hseen, hst, hw, hbefore, hafter⟩
    · left
      refine ⟨hst, ?_⟩
      intro x hx
      rcases List.mem_append.mp hx with hs | hd
      · exact hlow x hs
      · rw [List.mem_singleton] at hd
        subst hd
        by_contra hge
        apply hgood
        refine ⟨not_lt.mp hge, ?_⟩
        rw [hst]
        exact lt_of_lt_of_le (by decide) (not_lt.mp hge)
    · right
      have hst2 : state.2 = acceptedCount P descriptorImage w := by rw [hst]
      refine ⟨before, w, after ++ [d], by simp [hseen], hst, hw, hbefore, ?_⟩
      intro x hx
      rcases List.mem_append.mp hx with ha | hd
      · exact hafter x ha
      · rw [List.mem_singleton] at hd
        subst hd
        by_contra hgt
        apply hgood
        have hlt := not_le.mp hgt
        exact ⟨le_trans hw (le_of_lt hlt), hst2 ▸ hlt⟩

theorem bestResultLoop_inv (P : Platform Image Desc) (descriptorImage : Desc)
    (rest seen : List (Desc × Int)) (state : Int × Nat)
    (h : BestSoFar P descriptorImage seen state) :
    BestSoFar P descriptorImage (seen ++ rest)
      (bestResultLoop P descriptorImage rest state) := by
  induction rest generalizing seen state with
  | nil => simpa [bestResultLoop] using h
  | cons d rest ih =>
    have hstep := bestResultLoop_step P descriptorImage seen d state h
    have hnext := ih (seen ++ [d]) _ hstep
    obtain ⟨b, n⟩ := state
    rw [bestResultLoop]
    simp only [List.append_assoc, List.singleton_append] at hnext
    by_cases hcond : (isGoodDescriptorMatch (getMatches P descriptorImage d.1) &&
          decide ((getMatches P descriptorImage d.1).length > n)) = true
    · simp only [hcond, if_true] at hnext ⊢
      exact hnext
    · simp only [hcond, if_false] at hnext ⊢
      exact hnext

theorem bestResultOf_inv (P : Platform Image Desc) (descriptorImage : Desc)
    (descriptors : VectorDescriptor Desc) :
    BestSoFar P descriptorImage descriptors
      (bestResultLoop P descriptorImage descriptors (-1, 0)) := by
  have h := bestResultLoop_inv P descriptorImage descriptors [] (-1, 0)
    (Or.inl ⟨rfl, by simp⟩)
  simpa using h

theorem regionOutcome_some_iff (P : Platform Image Desc) (image : Image)
    (descriptors : VectorDescriptor Desc) (r : Region) (id : Int) :
    regionOutcome P image descriptors r = some id ↔
      P.hasData (regionDescriptor P image r) = true ∧
      bestResultOf P (regionDescriptor P image r) descriptors = id ∧ id ≠ -1 := by
  unfold regionOutcome
  by_cases hdata : P.hasData (regionDescriptor P image r) = false
  · simp [hdata]
  · have hdata1 : P.hasData (regionDescriptor P image r) = true := by simpa using hdata
    by_cases hbest : bestResultOf P (regionDescriptor P image r) descriptors = -1
    · simp only [hdata1, hbest]
      constructor
      · intro h; simp at h
      · rintro ⟨_, h1, h2⟩; exact absurd h1.symm h2
    · have hne : bestResultOf P (regionDescriptor P image r) descriptors ≠ -1 := hbest
      rw [if_neg hdata, if_pos hne]
      simp only [hdata1, Option.some.injEq, true_and]
      constructor
      · intro h; exact ⟨h, h ▸ hbest⟩
      · intro h; exact h.1

/-- C7: the result of `compareFeatures` is valid if and only if at least one region
produced a winner, and its identifier sequence consists of the winners' outcome
identifiers in region order, regions without descriptors or without winner adding
nothing.  A region produces the winner `id` when it has descriptors and the value
`bestResult` of line 264 is `id`, different from `-1`.  So a region list without any hit
gives an invalid result with an empty sequence, and one hit among misses gives a valid
result whose sequence is exactly that outcome. -/
theorem compareFeatures_valid_iff (P : Platform Image Desc) (image : Image) (recognizer : Nat)
    (roi : VectorROI) (descriptors : VectorDescriptor Desc) :
    (∀ r id, regionOutcome P image descriptors r = some id ↔
      P.hasData (regionDescriptor P image r) = true ∧
      bestResultOf P (regionDescriptor P image r) descriptors = id ∧ id ≠ -1) ∧
    (compareFeatures P image recognizer roi descriptors).results
      = roi.filterMap (regionOutcome P image descriptors) ∧
    ((compareFeatures P image recognizer roi descriptors).valid = true ↔
      ∃ r ∈ roi, ∃ id, regionOutcome P image descriptors r = some id) ∧
    ((compareFeatures P image recognizer roi descriptors).valid = true →
      (compareFeatures P image recognizer roi descriptors).sourceRecognizer = recognizer) ∧
    ((∀ r ∈ roi, regionOutcome P image descriptors r = none) →
      (compareFeatures P image recognizer roi descriptors).valid = false ∧
      (compareFeatures P image recognizer roi descriptors).results = []) ∧
    (∀ before r after id, roi = before ++ r :: after →
      regionOutcome P image descriptors r = some id →
      (∀ x ∈ before, regionOutcome P image descriptors x = none) →
      (∀ x ∈ after, regionOutcome P image descriptors x = none) →
      (compareFeatures P image recognizer roi descriptors).valid = true ∧
      (compareFeatures P image recognizer roi descriptors).results = [id]) := by
  have hres : (compareFeatures P image recognizer roi descriptors).results
      = roi.filterMap (regionOutcome P image descriptors) := by
    rw [compareFeatures_eq]
    by_cases h : roi.filterMap (regionOutcome P image descriptors) = []
    · rw [if_pos h, h]
    · rw [if_neg h]
  have hvalid : (compareFeatures P image recognizer roi descriptors).valid = true ↔
      roi.filterMap (regionOutcome P image descriptors) ≠ [] := by
    rw [compareFeatures_eq]
    by_cases h : roi.filterMap (regionOutcome P image descriptors) = []
    · rw [if_pos h]; simp [h]
    · rw [if_neg h]; simp [h]
  refine ⟨regionOutcome_some_iff P image descriptors, hres, ?_,
    compareFeatures_source P image recognizer roi descriptors, ?_, ?_⟩
  · rw [hvalid]
    constructor
    · intro hne
      obtain ⟨id, hid⟩ := List.exists_mem_of_ne_nil _ hne
      obtain ⟨r, hr, hrid⟩ := List.mem_filterMap.mp hid
      exact ⟨r, hr, id, hrid⟩
    · rintro ⟨r, hr, id, hrid⟩ hnil
      have : id ∈ roi.filterMap (regionOutcome P image descriptors) :=
        List.mem_filterMap.mpr ⟨r, hr, hrid⟩
      rw [hnil] at this
      cases this
  · intro hmiss
    have hnil : roi.filterMap (regionOutcome P image descriptors) = [] := by
      rw [List.filterMap_eq_nil_iff]
      exact hmiss
    refine ⟨?_, by rw [hres, hnil]⟩
    cases hv : (compareFeatures P image recognizer roi descriptors).valid
    · rfl
    · exact absurd hnil (hvalid.mp hv)
  · intro before r after id hroi hhit hbefore hafter
    have hlist : roi.filterMap (regionOutcome P image descriptors) = [id] := by
      rw [hroi, List.filterMap_append, List.filterMap_cons, hhit,
        List.filterMap_eq_nil_iff.mpr hbefore, List.filterMap_eq_nil_iff.mpr hafter]
      rfl
    refine ⟨hvalid.mpr (by rw [hlist]; simp), by rw [hres, hlist]⟩

/-- Witness of C7: of two regions of the sample platform the first has no descriptors
and the second is a hit with outcome 3. -/
theorem compareFeatures_valid_iff_witness :
    regionOutcome samplePlatform 0 [(8, 3), (5, 4)] (regionAt 0) = none ∧
    regionOutcome samplePlatform 0 [(8, 3), (5, 4)] (regionAt 1) = some 3 ∧
    (compareFeatures samplePlatform 0 64 [regionAt 0, regionAt 1] [(8, 3), (5, 4)]).valid
      = true ∧
    (compareFeatures samplePlatform 0 64 [regionAt 0, regionAt 1] [(8, 3), (5, 4)]).results
      = [3] :=
  ⟨by decide!, by decide!,
    (compareFeatures_valid_iff samplePlatform 0 64 [regionAt 0, regionAt 1]
      [(8, 3), (5, 4)]).2.2.2.2.2 [regionAt 0] (regionAt 1) [] 3 rfl (by decide!)
      (by decide!) (by decide)⟩

/-- C8: for a region with descriptors, with the count of a reference being the number of
its accepted correspondences: when no reference reaches 7 there is no winner
(`bestResult` stays `-1`); otherwise `bestResult` is the outcome of a reference `w` whose
count is at least 7, larger than the count of every earlier reference and at least the
count of every later one.  With counts 8 and 5 for a list of two references the first one
is selected, and the result of `compareFeatures` on that region is valid (the outcome
identifier being different from `-1`, the value that stands for no winner). -/
theorem bestResult_winner (P : Platform Image Desc) (descriptorImage : Desc)
    (descriptors : VectorDescriptor Desc) :
    ((∀ d ∈ descriptors, acceptedCount P descriptorImage d < 7) →
      bestResultOf P descriptorImage descriptors = -1) ∧
    ((∃ d ∈ descriptors, 7 ≤ acceptedCount P descriptorImage d) →
      ∃ before w after, descriptors = before ++ w :: after ∧
        bestResultOf P descriptorImage descriptors = w.2 ∧
        7 ≤ acceptedCount P descriptorImage w ∧
        (∀ d ∈ before,
          acceptedCount P descriptorImage d < acceptedCount P descriptorImage w) ∧
        (∀ d ∈ after,
          acceptedCount P descriptorImage d ≤ acceptedCount P descriptorImage w)) ∧
    (∀ first second : Desc × Int, descriptors = [first, second] →
      acceptedCount P descriptorImage first = 8 →
      acceptedCount P descriptorImage second = 5 →
      bestResultOf P descriptorImage descriptors = first.2 ∧
      ∀ (image : Image) (recognizer : Nat) (r : Region),
        regionDescriptor P image r = descriptorImage →
        P.hasData descriptorImage = true → first.2 ≠ -1 →
        compareFeatures P image recognizer [r] descriptors =
          { valid := true, sourceRecognizer := recognizer, results := [first.2] }) := by
  have hinv := bestResultOf_inv P descriptorImage descriptors
  refine ⟨?_, ?_, ?_⟩
  · intro hlow
    rcases hinv with ⟨hst, _⟩ | ⟨before, w, after, hseen, _, hw, _, _⟩
    · simp only [bestResultOf, hst]
    · have hmem : w ∈ descriptors := by rw [hseen]; simp
      exact absurd (hlow w hmem) (not_lt.mpr hw)
  · rintro ⟨d, hd, hd7⟩
    rcases hinv with ⟨_, hlow⟩ | ⟨before, w, after, hseen, hst, hw, hbefore, hafter⟩
    · exact absurd (hlow d hd) (not_lt.mpr hd7)
    · exact ⟨before, w, after, hseen, by simp only [bestResultOf, hst], hw, hbefore, hafter⟩
  · intro first second hdesc h8 h5
    have h8a : (getMatches P descriptorImage first.1).length = 8 := h8
    have h5a : (getMatches P descriptorImage second.1).length = 5 := h5
    have hbest : bestResultOf P descriptorImage descriptors = first.2 := by
      subst hdesc
      simp [bestResultOf, bestResultLoop, isGoodDescriptorMatch, h8a, h5a]
    refine ⟨hbest, ?_⟩
    intro image recognizer r hr hdata hne
    have hout : regionOutcome P image descriptors r = some first.2 := by
      rw [regionOutcome_some_iff, hr]
      exact ⟨hdata, hbest, hne⟩
    rw [compareFeatures_eq]
    simp [hout]

/-- Witness of C8: on the sample platform the references `8` and `5` have 8 and 5
accepted correspondences. -/
theorem bestResult_winner_witness :
    acceptedCount samplePlatform 1 (8, 3) = 8 ∧ acceptedCount samplePlatform 1 (5, 4) = 5 ∧
    bestResultOf samplePlatform 1 [(8, 3), (5, 4)] = 3 ∧
    compareFeatures samplePlatform 0 64 [regionAt 1] [(8, 3), (5, 4)]
      = { valid := true, sourceRecognizer := 64, results := [3] } :=
  ⟨by decide!, by decide!,
    ((bestResult_winner samplePlatform 1 [(8, 3), (5, 4)]).2.2 (8, 3) (5, 4) rfl
      (by decide!) (by decide!)).1,
    ((bestResult_winner samplePlatform 1 [(8, 3), (5, 4)]).2.2 (8, 3) (5, 4) rfl
      (by decide!) (by decide!)).2 0 64 (regionAt 1) (by decide) (by decide) (by decide)⟩

/-! ## The ratio test -/

theorem float06_ge : (6 : ℚ) / 10 ≤ float06 := by
  unfold float06; norm_num

theorem ratioTest_accept (P : Platform Image Desc) (m1 m2 : DMatch) (rest : List DMatch)
    (hmono : Monotone P.rnd) (hrep : P.rnd m1.distance = m1.distance)
    (hpos : 0 ≤ m2.distance) (h : m1.distance ≤ 6 / 10 * m2.distance) :
    ratioTest P (m1 :: m2 :: rest) = some m1 := by
  have h1 : m1.distance ≤ float06 * m2.distance :=
    le_trans h (mul_le_mul_of_nonneg_right float06_ge hpos)
  have h2 : m1.distance ≤ P.rnd (float06 * m2.distance) := by
    have := hmono h1
    rwa [hrep] at this
  simp [ratioTest, h2]

theorem ratioTest_reject (P : Platform Image Desc) (m1 m2 : DMatch) (rest : List DMatch)
    (hrel : P.rnd (float06 * m2.distance) ≤ float06 * m2.distance * (1 + 1 / 2 ^ 23))
    (hpos : 0 < m2.distance) (h : m1.distance = 61 / 100 * m2.distance) :
    ratioTest P (m1 :: m2 :: rest) = none := by
  have h1 : float06 * m2.distance * (1 + 1 / 2 ^ 23) < m1.distance := by
    rw [h]
    unfold float06
    have : (10066330 / 16777216 : ℚ) * m2.distance * (1 + 1 / 2 ^ 23)
        = (10066330 / 16777216 * (1 + 1 / 2 ^ 23)) * m2.distance := by ring
    rw [this]
    exact mul_lt_mul_of_pos_right (by norm_num) hpos
  have h2 : ¬ m1.distance ≤ P.rnd (float06 * m2.distance) :=
    not_le.mpr (lt_of_le_of_lt hrel h1)
  simp [ratioTest, h2]

/-- Counterexample to C9 as stated: in single-precision arithmetic the query with best
distance `60 + 2 ^ (-18)` and second-best distance `100` is accepted, because the `float`
product `0.6f * 100` is `60 + 2 ^ (-18)`, although `60 + 2 ^ (-18)` is more than
`0.6 * 100`; the query with best distance `0.6f` and second-best distance `1` is accepted
although `0.6f` is more than `0.6`.  The four distances are single-precision values. -/
theorem getMatches_ratio_counterexample :
    singleRatioPlatform.knnMatch 0 0 2 =
      [ [ { queryIdx := 0, trainIdx := 0, imgIdx := 0, distance := 60 + 1 / 262144 },
          { queryIdx := 0, trainIdx := 1, imgIdx := 0, distance := 100 } ],
        [ { queryIdx := 1, trainIdx := 0, imgIdx := 0, distance := float06 },
          { queryIdx := 1, trainIdx := 1, imgIdx := 0, distance := 1 } ] ] ∧
    getMatches singleRatioPlatform 0 0 =
      [ { queryIdx := 0, trainIdx := 0, imgIdx := 0, distance := 60 + 1 / 262144 },
        { queryIdx := 1, trainIdx := 0, imgIdx := 0, distance := float06 } ] ∧
    ¬ ((60 + 1 / 262144 : ℚ) ≤ 6 / 10 * 100) ∧
    ¬ (float06 ≤ 6 / 10 * 1) ∧
    singleRatioPlatform.rnd (60 + 1 / 262144) = 60 + 1 / 262144 ∧
    singleRatioPlatform.rnd 100 = 100 ∧
    singleRatioPlatform.rnd float06 = float06 ∧
    singleRatioPlatform.rnd 1 = 1 ∧
    singleRatioPlatform.rnd (float06 * 100) = 60 + 1 / 262144 ∧
    singleRatioPlatform.rnd (6 / 10) = float06 := by
  refine ⟨rfl, ?_, ?_, ?_, ?_, ?_, ?_, ?_, ?_, ?_⟩ <;> decide!

/-- C9, amended: `getMatches` returns, in query order, the best neighbours of exactly
those queries that have at least two neighbours and pass the test
`m1.distance <= 0.6f * m2.distance` of line 298, where `0.6f` is the single-precision
value nearest to 0.6 and the product is the rounded `float` product; this is not the test
`d1 <= 0.6 * d2` on the exact numbers.  For a positive second-best distance a
correspondence with ratio 0.59 is accepted, one with ratio exactly 0.6 is accepted, and
one with ratio 0.61 is rejected; the acceptances hold for every monotone rounding that
leaves the `float` value `m1.distance` unchanged, the rejection whenever the product is
rounded with a relative error of at most `2 ^ (-23)`. -/
theorem getMatches_ratio_test (P : Platform Image Desc) (descriptorObj descriptorScene : Desc) :
    getMatches P descriptorObj descriptorScene
      = (P.knnMatch descriptorObj descriptorScene 2).filterMap (ratioTest P) ∧
    (∀ m1 m2 rest, ratioTest P (m1 :: m2 :: rest) = some m1 ↔
      m1.distance ≤ P.rnd (float06 * m2.distance)) ∧
    (∀ ms m, ratioTest P ms = some m → ∃ m2 rest, ms = m :: m2 :: rest) ∧
    (∀ m1 m2 rest, Monotone P.rnd → P.rnd m1.distance = m1.distance → 0 < m2.distance →
      m1.distance / m2.distance = 59 / 100 → ratioTest P (m1 :: m2 :: rest) = some m1) ∧
    (∀ m1 m2 rest, Monotone P.rnd → P.rnd m1.distance = m1.distance → 0 < m2.distance →
      m1.distance / m2.distance = 6 / 10 → ratioTest P (m1 :: m2 :: rest) = some m1) ∧
    (∀ m1 m2 rest,
      P.rnd (float06 * m2.distance) ≤ float06 * m2.distance * (1 + 1 / 2 ^ 23) →
      0 < m2.distance →
      m1.distance / m2.distance = 61 / 100 → ratioTest P (m1 :: m2 :: rest) = none) := by
  refine ⟨?_, ?_, ?_, ?_, ?_, ?_⟩
  · simp [getMatches, getMatchesLoop_eq]
  · intro m1 m2 rest
    by_cases h : m1.distance ≤ P.rnd (float06 * m2.distance)
    · simp [ratioTest, h]
    · simp [ratioTest, h]
  · intro ms m h
    match ms, h with
    | [], h => simp [ratioTest] at h
    | [_], h => simp [ratioTest] at h
    | m1 :: m2 :: rest, h =>
      by_cases hc : m1.distance ≤ P.rnd (float06 * m2.distance)
      · simp [ratioTest, hc] at h
        exact ⟨m2, rest, by rw [h]⟩
      · simp [ratioTest, hc] at h
  · intro m1 m2 rest hmono hrep hpos hratio
    have hd : m1.distance = 59 / 100 * m2.distance := by
      field_simp at hratio
      linarith
    apply ratioTest_accept P m1 m2 rest hmono hrep (le_of_lt hpos)
    rw [hd]
    exact mul_le_mul_of_nonneg_right (by norm_num) (le_of_lt hpos)
  · intro m1 m2 rest hmono hrep hpos hratio
    have hd : m1.distance = 6 / 10 * m2.distance := by
      field_simp at hratio
      linarith
    exact ratioTest_accept P m1 m2 rest hmono hrep (le_of_lt hpos) (le_of_eq hd)
  · intro m1 m2 rest hrel hpos hratio
    have hd : m1.distance = 61 / 100 * m2.distance := by
      field_simp at hratio
      linarith
    exact ratioTest_reject P m1 m2 rest hrel hpos hd

/-- Witness of C9: on four queries with ratios 0.59, 0.61, 0.6 and a single neighbour,
the first and the third best neighbours are returned. -/
theorem getMatches_ratio_test_witness :
    getMatches ratioPlatform 0 0 =
      [ { queryIdx := 0, trainIdx := 0, imgIdx := 0, distance := 59 },
        { queryIdx := 2, trainIdx := 0, imgIdx := 0, distance := 60 } ] ∧
    ratioTest ratioPlatform
      [ { queryIdx := 0, trainIdx := 0, imgIdx := 0, distance := 59 },
        { queryIdx := 0, trainIdx := 1, imgIdx := 0, distance := 100 } ]
      = some { queryIdx := 0, trainIdx := 0, imgIdx := 0, distance := 59 } ∧
    ratioTest ratioPlatform
      [ { queryIdx := 2, trainIdx := 0, imgIdx := 0, distance := 60 },
        { queryIdx := 2, trainIdx := 1, imgIdx := 0, distance := 100 } ]
      = some { queryIdx := 2, trainIdx := 0, imgIdx := 0, distance := 60 } ∧
    ratioTest ratioPlatform
      [ { queryIdx := 1, trainIdx := 0, imgIdx := 0, distance := 61 },
        { queryIdx := 1, trainIdx := 1, imgIdx := 0, distance := 100 } ]
      = none :=
  ⟨(getMatches_ratio_test ratioPlatform 0 0).1.trans (by decide!),
    (getMatches_ratio_test ratioPlatform 0 0).2.2.2.1 _ _ [] (fun _ _ h => h) rfl
      (by norm_num) (by norm_num),
    (getMatches_ratio_test ratioPlatform 0 0).2.2.2.2.1 _ _ [] (fun _ _ h => h) rfl
      (by norm_num) (by norm_num),
    (getMatches_ratio_test ratioPlatform 0 0).2.2.2.2.2 _ _ []
      (by simp only [ratioPlatform, samplePlatform, float06]; norm_num)
      (by norm_num) (by norm_num)⟩

/-! ## The colour-candidate heuristic -/

/-- C10: when the retained `lastDraftRecognition` is empty, `getIndexOfBluest` returns
`-1`, whatever the card database, the image, the region list and the platform are. -/
theorem getIndexOfBluest_empty (P : Platform Image Desc) (self : Recognizer Desc)
    (image : Image) (roi : VectorROI) (h : self.lastDraftRecognition = []) :
    getIndexOfBluest P self image roi = .ok (-1) := by
  unfold getIndexOfBluest
  rw [h]

/-- Witness of C10: the sample recognizer right after construction. -/
theorem getIndexOfBluest_empty_witness :
    (sampleRecognizer sampleCalibration []).lastDraftRecognition = [] ∧
    getIndexOfBluest samplePlatform (sampleRecognizer sampleCalibration []) 0
      sampleCalibration.roiDraftCardPick = .ok (-1) :=
  ⟨rfl, getIndexOfBluest_empty samplePlatform (sampleRecognizer sampleCalibration []) 0
    sampleCalibration.roiDraftCardPick rfl⟩

theorem getIndexOfBluest_eq (P : Platform Image Desc) (self : Recognizer Desc) (image : Image)
    (roi : VectorROI) :
    getIndexOfBluest P self image roi =
      match self.lastDraftRecognition with
      | [] => .ok (-1)
      | first :: _ =>
        match self.db.cards[toSizeT first]? with
        | none => .error Fault.cardIndex
        | some card => bluestForQuality P card.quality image roi := by
  unfold getIndexOfBluest bluestForQuality
  rfl

theorem hsvMeansLoop_eq (P : Platform Image Desc) (image : Image) (roi : VectorROI)
    (hV sV vV : List ℚ) :
    hsvMeansLoop P image roi (hV, sV, vV) =
      (hV ++ roi.map (slotHue P image), sV ++ roi.map (slotSaturation P image),
        vV ++ roi.map (slotValue P image)) := by
  induction roi generalizing hV sV vV with
  | nil => simp [hsvMeansLoop]
  | cons r rest ih =>
    rw [hsvMeansLoop]
    simp only [ih, List.map_cons, List.append_assoc, List.singleton_append, slotHue,
      slotSaturation, slotValue]

theorem hueLoop_cons (quality : Int) (hV sV : List ℚ) (i : Nat) (rest : List Nat)
    (st : HueState) (h s : ℚ) (hh : hV[i]? = some h) (hs : sV[i]? = some s)
    (hred : i < st.red.length) (hcand : i < st.candidateColor.length) :
    hueLoop quality hV sV (i :: rest) st = hueLoop quality hV sV rest (hueStep quality h s i st) := by
  rw [hueLoop]
  simp only [hs, hh]
  by_cases hlt : s < st.minS
  · simp only [hlt, if_true]
    rw [if_pos ⟨hred, hcand⟩]
    simp [hueStep, hueQualifies, hlt]
  · simp only [hlt, if_false]
    rw [if_pos ⟨hred, hcand⟩]
    simp [hueStep, hueQualifies, hlt]

theorem hueLoop_flagWrite (quality : Int) (hV sV : List ℚ) (i : Nat) (rest : List Nat)
    (st : HueState) (h s : ℚ) (hh : hV[i]? = some h) (hs : sV[i]? = some s)
    (hred : ¬ (i < st.red.length ∧ i < st.candidateColor.length)) :
    hueLoop quality hV sV (i :: rest) st = .error Fault.flagWrite := by
  rw [hueLoop]
  simp only [hs, hh]
  by_cases hlt : s < st.minS
  · simp only [hlt, if_true]
    rw [if_neg hred]
  · simp only [hlt, if_false]
    rw [if_neg hred]

theorem bluestForQuality_three (P : Platform Image Desc) (quality : Int) (image : Image)
    (r0 r1 r2 : Region) :
    bluestForQuality P quality image [r0, r1, r2] =
      if averageAboveThres quality (averageValueOf P (slotValue P image r0)
          (slotValue P image r1) (slotValue P image r2)) = false then .ok (-1)
      else if (hueEnd quality (slotHue P image r0) (slotHue P image r1) (slotHue P image r2)
            (slotSaturation P image r0) (slotSaturation P image r1)
            (slotSaturation P image r2)).isMatch = true ∧
          (hueEnd quality (slotHue P image r0) (slotHue P image r1) (slotHue P image r2)
            (slotSaturation P image r0) (slotSaturation P image r1)
            (slotSaturation P image r2)).minSIndex =
          toSizeT (hueEnd quality (slotHue P image r0) (slotHue P image r1)
            (slotHue P image r2) (slotSaturation P image r0) (slotSaturation P image r1)
            (slotSaturation P image r2)).cand then
        .ok (hueEnd quality (slotHue P image r0) (slotHue P image r1) (slotHue P image r2)
            (slotSaturation P image r0) (slotSaturation P image r1)
            (slotSaturation P image r2)).cand
      else .ok (-1) := by
  unfold bluestForQuality
  rw [hsvMeansLoop_eq]
  have hrange : List.range 3 = [0, 1, 2] := rfl
  simp only [List.nil_append, List.map_cons, List.map_nil, List.getElem?_cons_zero,
    List.getElem?_cons_succ, List.length_cons, List.length_nil, Nat.reduceAdd, hrange]
  have h1 := hueLoop_cons quality
    [slotHue P image r0, slotHue P image r1, slotHue P image r2]
    [slotSaturation P image r0, slotSaturation P image r1, slotSaturation P image r2]
    0 [1, 2] (hueStart (slotSaturation P image r0)) (slotHue P image r0)
    (slotSaturation P image r0) rfl rfl (by simp [hueStart])
    (by simp [hueStart])
  have h2 := hueLoop_cons quality
    [slotHue P image r0, slotHue P image r1, slotHue P image r2]
    [slotSaturation P image r0, slotSaturation P image r1, slotSaturation P image r2]
    1 [2] (hueStep quality (slotHue P image r0) (slotSaturation P image r0) 0
      (hueStart (slotSaturation P image r0))) (slotHue P image r1)
    (slotSaturation P image r1) rfl rfl (by simp [hueStart, hueStep])
    (by simp [hueStart, hueStep])
  have h3 := hueLoop_cons quality
    [slotHue P image r0, slotHue P image r1, slotHue P image r2]
    [slotSaturation P image r0, slotSaturation P image r1, slotSaturation P image r2]
    2 [] (hueStep quality (slotHue P image r1) (slotSaturation P image r1) 1
      (hueStep quality (slotHue P image r0) (slotSaturation P image r0) 0
      (hueStart (slotSaturation P image r0)))) (slotHue P image r2)
    (slotSaturation P image r2) rfl rfl (by simp [hueStart, hueStep])
    (by simp [hueStart, hueStep])
  have hloop : hueLoop quality
      [slotHue P image r0, slotHue P image r1, slotHue P image r2]
      [slotSaturation P image r0, slotSaturation P image r1, slotSaturation P image r2]
      [0, 1, 2] (hueStart (slotSaturation P image r0)) =
      .ok (hueEnd quality (slotHue P image r0) (slotHue P image r1) (slotHue P image r2)
            (slotSaturation P image r0) (slotSaturation P image r1)
            (slotSaturation P image r2)) := by
    rw [h1, h2, h3]
    rfl
  simp only [hueStart] at hloop
  rw [hloop]
  simp only [averageAboveThres, averageValueOf]
  by_cases hg : ((decide (quality = 5) && decide (P.rnd (floatThird * P.rnd (P.rnd
      (slotValue P image r0 + slotValue P image r1) + slotValue P image r2)) ≥ 200)) ||
      (decide (quality ≠ 5) && decide (P.rnd (floatThird * P.rnd (P.rnd
      (slotValue P image r0 + slotValue P image r1) + slotValue P image r2)) ≥ 220))) = true
  · simp only [hg]
    simp
  · simp only [Bool.not_eq_true] at hg
    simp only [hg]
    simp

theorem toSizeT_zero : toSizeT 0 = 0 := by decide
theorem toSizeT_one : toSizeT 1 = 1 := by decide
theorem toSizeT_two : toSizeT 2 = 2 := by decide
theorem toSizeT_neg_one : toSizeT (-1) = 18446744073709551615 := by decide

theorem hueEnd_decision (quality : Int) (h0 h1 h2 s0 s1 s2 : ℚ) :
    (if (hueEnd quality h0 h1 h2 s0 s1 s2).isMatch = true ∧
        (hueEnd quality h0 h1 h2 s0 s1 s2).minSIndex =
          toSizeT (hueEnd quality h0 h1 h2 s0 s1 s2).cand then
      (hueEnd quality h0 h1 h2 s0 s1 s2).cand
    else -1) =
      bluestOfThree true (hueQualifies quality h0) (hueQualifies quality h1)
        (hueQualifies quality h2) s0 s1 s2 := by
  unfold hueEnd hueStep hueStart bluestOfThree
  generalize hueQualifies quality h0 = q0
  generalize hueQualifies quality h1 = q1
  generalize hueQualifies quality h2 = q2
  simp only [lt_self_iff_false, if_false]
  by_cases h10 : s1 < s0
  · by_cases h21 : s2 < s1
    · have h20 : s2 < s0 := lt_trans h21 h10
      have n01 : ¬ s0 ≤ s1 := not_le.mpr h10
      have n12 : ¬ s1 ≤ s2 := not_le.mpr h21
      cases q0 <;> cases q1 <;> cases q2 <;>
        simp [h10, h21, h20, n01, n12, toSizeT_zero, toSizeT_one, toSizeT_two,
          toSizeT_neg_one]
    · have l12 : s1 ≤ s2 := not_lt.mp h21
      have n01 : ¬ s0 ≤ s1 := not_le.mpr h10
      cases q0 <;> cases q1 <;> cases q2 <;>
        simp [h10, h21, l12, n01, toSizeT_zero, toSizeT_one, toSizeT_two, toSizeT_neg_one]
  · have l01 : s0 ≤ s1 := not_lt.mp h10
    by_cases h20 : s2 < s0
    · have h21 : s2 < s1 := lt_of_lt_of_le h20 l01
      have n02 : ¬ s0 ≤ s2 := not_le.mpr h20
      cases q0 <;> cases q1 <;> cases q2 <;>
        simp [h10, h20, h21, l01, n02, toSizeT_zero, toSizeT_one, toSizeT_two,
          toSizeT_neg_one]
    · have l02 : s0 ≤ s2 := not_lt.mp h20
      cases q0 <;> cases q1 <;> cases q2 <;>
        simp [h10, h20, l01, l02, toSizeT_zero, toSizeT_one, toSizeT_two, toSizeT_neg_one]

theorem bluestForQuality_three_eq (P : Platform Image Desc) (quality : Int) (image : Image)
    (r0 r1 r2 : Region) :
    bluestForQuality P quality image [r0, r1, r2] =
      .ok (bluestOfThree
        (averageAboveThres quality (averageValueOf P (slotValue P image r0)
          (slotValue P image r1) (slotValue P image r2)))
        (hueQualifies quality (slotHue P image r0)) (hueQualifies quality (slotHue P image r1))
        (hueQualifies quality (slotHue P image r2))
        (slotSaturation P image r0) (slotSaturation P image r1)
        (slotSaturation P image r2)) := by
  rw [bluestForQuality_three]
  by_cases hg : averageAboveThres quality (averageValueOf P (slotValue P image r0)
          (slotValue P image r1) (slotValue P image r2)) = false
  · rw [if_pos hg, hg]
    simp [bluestOfThree]
  · rw [if_neg hg]
    have hg1 : averageAboveThres quality (averageValueOf P (slotValue P image r0)
          (slotValue P image r1) (slotValue P image r2)) = true := by simpa using hg
    rw [hg1, ← hueEnd_decision]
    split <;> rfl

theorem getIndexOfBluest_three (P : Platform Image Desc) (self : Recognizer Desc)
    (image : Image) (first : Int) (rest : List Int) (card : Card) (r0 r1 r2 : Region)
    (hlast : self.lastDraftRecognition = first :: rest)
    (hcard : self.db.cards[toSizeT first]? = some card) :
    getIndexOfBluest P self image [r0, r1, r2] =
      .ok (bluestOfThree
        (averageAboveThres card.quality (averageValueOf P (slotValue P image r0)
          (slotValue P image r1) (slotValue P image r2)))
        (hueQualifies card.quality (slotHue P image r0))
        (hueQualifies card.quality (slotHue P image r1))
        (hueQualifies card.quality (slotHue P image r2))
        (slotSaturation P image r0) (slotSaturation P image r1)
        (slotSaturation P image r2)) := by
  rw [getIndexOfBluest_eq, hlast]
  simp only [hcard]
  exact bluestForQuality_three_eq P card.quality image r0 r1 r2

theorem averageAboveThres_false (quality : Int) (averageValue : ℚ)
    (h : (quality = 5 ∧ averageValue < 200) ∨ (quality ≠ 5 ∧ averageValue < 220)) :
    averageAboveThres quality averageValue = false := by
  unfold averageAboveThres
  rcases h with ⟨hq, hv⟩ | ⟨hq, hv⟩
  · simp [hq, not_le.mpr hv]
  · simp [hq, not_le.mpr hv]

theorem averageAboveThres_true (quality : Int) (averageValue : ℚ)
    (h : (quality = 5 ∧ 200 ≤ averageValue) ∨ (quality ≠ 5 ∧ 220 ≤ averageValue)) :
    averageAboveThres quality averageValue = true := by
  unfold averageAboveThres
  rcases h with ⟨hq, hv⟩ | ⟨hq, hv⟩
  · simp [hq, hv]
  · simp [hq, hv]

theorem hueQualifies_iff (quality : Int) (h : ℚ) :
    hueQualifies quality h = true ↔
      (quality = 4 ∧ 110 ≤ h ∧ h ≤ 150) ∨
      (quality ≠ 4 ∧ ((90 ≤ h ∧ h ≤ 110) ∨ (50 ≤ h ∧ h ≤ 80))) := by
  unfold hueQualifies
  simp [and_assoc]

/-- Counterexample to C11 as stated: the card at index 0 has quality 4, so the gate is
220; the three slots have the mean values 220, `220 - 2 ^ (-16)` and `220 - 2 ^ (-16)`,
single-precision values whose mean is below 220; in single-precision arithmetic the sums
of line 198 round to 440 and to 660 and the product with `1/3.0f` rounds to 220, so the
gate is passed and `getIndexOfBluest` returns the slot 2, the only slot with a hue in the
band of quality 4 and the slot of least saturation. -/
theorem getIndexOfBluest_gate_counterexample :
    (sampleRecognizer sampleCalibration [0, 1, 0]).lastDraftRecognition = [0, 1, 0] ∧
    qualityUsed (sampleRecognizer sampleCalibration [0, 1, 0]) = some 4 ∧
    slotValue singleTintPlatform 0 (regionAt 0) = 220 ∧
    slotValue singleTintPlatform 0 (regionAt 1) = 220 - 1 / 65536 ∧
    slotValue singleTintPlatform 0 (regionAt 2) = 220 - 1 / 65536 ∧
    (slotValue singleTintPlatform 0 (regionAt 0) + slotValue singleTintPlatform 0 (regionAt 1)
      + slotValue singleTintPlatform 0 (regionAt 2)) / 3 < 220 ∧
    singleTintPlatform.rnd (1 / 3) = floatThird ∧
    averageValueOf singleTintPlatform (slotValue singleTintPlatform 0 (regionAt 0))
      (slotValue singleTintPlatform 0 (regionAt 1))
      (slotValue singleTintPlatform 0 (regionAt 2)) = 220 ∧
    getIndexOfBluest singleTintPlatform (sampleRecognizer sampleCalibration [0, 1, 0]) 0
      [regionAt 0, regionAt 1, regionAt 2] = .ok 2 := by
  refine ⟨rfl, ?_, ?_, ?_, ?_, ?_, ?_, ?_, ?_⟩ <;> decide!

/-- C11, amended: with a retained result that is not empty and three slots, when the
looked-up quality is 5 and `averageValue` is below 200, or the quality is another one and
`averageValue` is below 220, `getIndexOfBluest` returns `-1`, whatever the platform makes
the hue and saturation means.  Here `averageValue` is the `float` value that line 198
computes from the three mean values, `1/3.0f` times the rounded sum, which can be at the
gate when the exact mean is below it, and the card index of line 173 is in range. -/
theorem getIndexOfBluest_below_gate (P : Platform Image Desc) (self : Recognizer Desc)
    (image : Image) (first : Int) (rest : List Int) (card : Card) (r0 r1 r2 : Region)
    (hlast : self.lastDraftRecognition = first :: rest)
    (hcard : self.db.cards[toSizeT first]? = some card)
    (hgate : (card.quality = 5 ∧ averageValueOf P (slotValue P image r0)
        (slotValue P image r1) (slotValue P image r2) < 200) ∨
      (card.quality ≠ 5 ∧ averageValueOf P (slotValue P image r0)
        (slotValue P image r1) (slotValue P image r2) < 220)) :
    getIndexOfBluest P self image [r0, r1, r2] = .ok (-1) := by
  rw [getIndexOfBluest_three P self image first rest card r0 r1 r2 hlast hcard,
    averageAboveThres_false _ _ hgate]
  simp [bluestOfThree]

/-- Witness of C11: the card at index 0 has quality 4 and every slot has mean value 219,
so `averageValue` is below 220. -/
theorem getIndexOfBluest_below_gate_witness :
    ((sampleRecognizer sampleCalibration [0, 1, 0]).lastDraftRecognition = 0 :: [1, 0] ∧
      (sampleRecognizer sampleCalibration [0, 1, 0]).db.cards[toSizeT 0]?
        = some { id := 0, phash := 0, quality := 4 } ∧
      (((4 : Int) = 5 ∧ averageValueOf (tintPlatform 219)
          (slotValue (tintPlatform 219) 0 (regionAt 0))
          (slotValue (tintPlatform 219) 0 (regionAt 1))
          (slotValue (tintPlatform 219) 0 (regionAt 2)) < 200) ∨
        ((4 : Int) ≠ 5 ∧ averageValueOf (tintPlatform 219)
          (slotValue (tintPlatform 219) 0 (regionAt 0))
          (slotValue (tintPlatform 219) 0 (regionAt 1))
          (slotValue (tintPlatform 219) 0 (regionAt 2)) < 220))) ∧
    getIndexOfBluest (tintPlatform 219) (sampleRecognizer sampleCalibration [0, 1, 0]) 0
      [regionAt 0, regionAt 1, regionAt 2] = .ok (-1) :=
  ⟨⟨rfl, by decide, by decide!⟩,
    getIndexOfBluest_below_gate (tintPlatform 219)
      (sampleRecognizer sampleCalibration [0, 1, 0]) 0 0 [1, 0]
      { id := 0, phash := 0, quality := 4 } (regionAt 0) (regionAt 1) (regionAt 2) rfl
      (by decide) (by decide!)⟩

/-- C12: with a retained result that is not empty, three slots and `averageValue` at or
above the gate of the looked-up quality (200 for quality 5, 220 otherwise): when exactly
one slot `k` is hue-qualifying (mean hue in [110,150] for quality 4, in [90,110] or [50,80]
for any other quality, bounds included) and its mean saturation is strictly smaller than
that of every other slot, `getIndexOfBluest` returns `k`.  The card index of line 173 is
in range. -/
theorem getIndexOfBluest_single_candidate (P : Platform Image Desc) (self : Recognizer Desc)
    (image : Image) (first : Int) (rest : List Int) (card : Card) (slot : Fin 3 → Region)
    (k : Fin 3)
    (hlast : self.lastDraftRecognition = first :: rest)
    (hcard : self.db.cards[toSizeT first]? = some card)
    (hgate : (card.quality = 5 ∧ 200 ≤ averageValueOf P (slotValue P image (slot 0))
        (slotValue P image (slot 1)) (slotValue P image (slot 2))) ∨
      (card.quality ≠ 5 ∧ 220 ≤ averageValueOf P (slotValue P image (slot 0))
        (slotValue P image (slot 1)) (slotValue P image (slot 2))))
    (hqual : ∀ j : Fin 3, hueQualifies card.quality (slotHue P image (slot j)) = true ↔ j = k)
    (hsat : ∀ j : Fin 3, j ≠ k →
      slotSaturation P image (slot k) < slotSaturation P image (slot j)) :
    getIndexOfBluest P self image [slot 0, slot 1, slot 2] = .ok ((k : Nat) : Int) ∧
    ∀ (quality : Int) (h : ℚ), hueQualifies quality h = true ↔
      (quality = 4 ∧ 110 ≤ h ∧ h ≤ 150) ∨
      (quality ≠ 4 ∧ ((90 ≤ h ∧ h ≤ 110) ∨ (50 ≤ h ∧ h ≤ 80))) := by
  refine ⟨?_, hueQualifies_iff⟩
  rw [getIndexOfBluest_three P self image first rest card _ _ _ hlast hcard,
    averageAboveThres_true _ _ hgate]
  have q0 := hqual 0
  have q1 := hqual 1
  have q2 := hqual 2
  have s0 := hsat 0
  have s1 := hsat 1
  have s2 := hsat 2
  fin_cases k
  · have a0 : hueQualifies card.quality (slotHue P image (slot 0)) = true := q0.mpr rfl
    have a1 : hueQualifies card.quality (slotHue P image (slot 1)) = false := by
      simpa using q1
    have a2 : hueQualifies card.quality (slotHue P image (slot 2)) = false := by
      simpa using q2
    have b1 := s1 (by decide)
    have b2 := s2 (by decide)
    simp only [Fin.zero_eta] at b1 b2
    simp [bluestOfThree, a0, a1, a2, le_of_lt b1, le_of_lt b2]
  · have a0 : hueQualifies card.quality (slotHue P image (slot 0)) = false := by
      simpa using q0
    have a1 : hueQualifies card.quality (slotHue P image (slot 1)) = true := q1.mpr rfl
    have a2 : hueQualifies card.quality (slotHue P image (slot 2)) = false := by
      simpa using q2
    have b0 := s0 (by decide)
    have b2 := s2 (by decide)
    simp only [Fin.mk_one] at b0 b2
    simp [bluestOfThree, a0, a1, a2, b0, le_of_lt b2]
  · have a0 : hueQualifies card.quality (slotHue P image (slot 0)) = false := by
      simpa using q0
    have a1 : hueQualifies card.quality (slotHue P image (slot 1)) = false := by
      simpa using q1
    have a2 : hueQualifies card.quality (slotHue P image (slot 2)) = true := q2.mpr rfl
    have b0 := s0 (by decide)
    have b1 := s1 (by decide)
    have c0 : slotSaturation P image (slot 2) < slotSaturation P image (slot 0) := b0
    have c1 : slotSaturation P image (slot 2) < slotSaturation P image (slot 1) := b1
    simp [bluestOfThree, a0, a1, a2, c0, c1]

/-- Witness of C12: the card at index 1 has quality 5, every slot has mean value 230, and
of the three sample slots only the last has a qualifying hue, 60, and it has the smallest
saturation. -/
theorem getIndexOfBluest_single_candidate_witness :
    ((sampleRecognizer sampleCalibration [1, 0, 1]).lastDraftRecognition = 1 :: [0, 1] ∧
      (sampleRecognizer sampleCalibration [1, 0, 1]).db.cards[toSizeT 1]?
        = some { id := 1, phash := 65535, quality := 5 } ∧
      (((5 : Int) = 5 ∧ 200 ≤ averageValueOf (tintPlatform 230)
          (slotValue (tintPlatform 230) 0 (sampleSlot 0))
          (slotValue (tintPlatform 230) 0 (sampleSlot 1))
          (slotValue (tintPlatform 230) 0 (sampleSlot 2))) ∨
        ((5 : Int) ≠ 5 ∧ 220 ≤ averageValueOf (tintPlatform 230)
          (slotValue (tintPlatform 230) 0 (sampleSlot 0))
          (slotValue (tintPlatform 230) 0 (sampleSlot 1))
          (slotValue (tintPlatform 230) 0 (sampleSlot 2)))) ∧
      (∀ j : Fin 3,
        hueQualifies 5 (slotHue (tintPlatform 230) 0 (sampleSlot j)) = true ↔ j = 2) ∧
      (∀ j : Fin 3, j ≠ 2 → slotSaturation (tintPlatform 230) 0 (sampleSlot 2)
        < slotSaturation (tintPlatform 230) 0 (sampleSlot j))) ∧
    (getIndexOfBluest (tintPlatform 230) (sampleRecognizer sampleCalibration [1, 0, 1]) 0
        [sampleSlot 0, sampleSlot 1, sampleSlot 2] = .ok (((2 : Fin 3) : Nat) : Int) ∧
      ∀ (quality : Int) (h : ℚ), hueQualifies quality h = true ↔
        (quality = 4 ∧ 110 ≤ h ∧ h ≤ 150) ∨
        (quality ≠ 4 ∧ ((90 ≤ h ∧ h ≤ 110) ∨ (50 ≤ h ∧ h ≤ 80)))) :=
  ⟨⟨rfl, by decide, by decide!, by decide!, by decide!⟩,
    getIndexOfBluest_single_candidate (tintPlatform 230)
      (sampleRecognizer sampleCalibration [1, 0, 1]) 0 1 [0, 1]
      { id := 1, phash := 65535, quality := 5 } sampleSlot 2 rfl (by decide) (by decide!)
      (by decide!) (by decide!)⟩

/-- C13: with a retained result that is not empty and three slots, when two or more slots
are hue-qualifying for the looked-up quality, `getIndexOfBluest` returns `-1`, whatever
the saturation and value means are.  The card index of line 173 is in range. -/
theorem getIndexOfBluest_two_candidates (P : Platform Image Desc) (self : Recognizer Desc)
    (image : Image) (first : Int) (rest : List Int) (card : Card) (slot : Fin 3 → Region)
    (i j : Fin 3)
    (hlast : self.lastDraftRecognition = first :: rest)
    (hcard : self.db.cards[toSizeT first]? = some card)
    (hij : i ≠ j)
    (hi : hueQualifies card.quality (slotHue P image (slot i)) = true)
    (hj : hueQualifies card.quality (slotHue P image (slot j)) = true) :
    getIndexOfBluest P self image [slot 0, slot 1, slot 2] = .ok (-1) := by
  rw [getIndexOfBluest_three P self image first rest card _ _ _ hlast hcard]
  fin_cases i <;> fin_cases j <;> simp at hij hi hj <;> simp [bluestOfThree, hi, hj]

/-- Witness of C13: the sample platform gives every slot the mean hue 100, qualifying for
the quality 5 of the card at index 1. -/
theorem getIndexOfBluest_two_candidates_witness :
    ((sampleRecognizer sampleCalibration [1, 0, 1]).lastDraftRecognition = 1 :: [0, 1] ∧
      (sampleRecognizer sampleCalibration [1, 0, 1]).db.cards[toSizeT 1]?
        = some { id := 1, phash := 65535, quality := 5 } ∧
      (0 : Fin 3) ≠ 1 ∧
      hueQualifies 5 (slotHue samplePlatform 0 (sampleSlot 0)) = true ∧
      hueQualifies 5 (slotHue samplePlatform 0 (sampleSlot 1)) = true) ∧
    getIndexOfBluest samplePlatform (sampleRecognizer sampleCalibration [1, 0, 1]) 0
      [sampleSlot 0, sampleSlot 1, sampleSlot 2] = .ok (-1) :=
  ⟨⟨rfl, by decide, by decide, by decide!, by decide!⟩,
    getIndexOfBluest_two_candidates samplePlatform
      (sampleRecognizer sampleCalibration [1, 0, 1]) 0 1 [0, 1]
      { id := 1, phash := 65535, quality := 5 } sampleSlot 0 1 rfl (by decide) (by decide)
      (by decide!) (by decide!)⟩

theorem hueEnd_minSIndex (quality : Int) (h0 h1 h2 s0 s1 s2 : ℚ) :
    (hueEnd quality h0 h1 h2 s0 s1 s2).minSIndex =
      if s1 < s0 then (if s2 < s1 then 2 else 1) else (if s2 < s0 then 2 else 0) := by
  unfold hueEnd hueStep hueStart
  simp only [lt_self_iff_false, if_false]
  by_cases h10 : s1 < s0
  · by_cases h21 : s2 < s1 <;> simp [h10, h21]
  · by_cases h20 : s2 < s0 <;> simp [h10, h20]

theorem hueEnd_minSIndex_iff (quality : Int) (h0 h1 h2 : ℚ) (s : Fin 3 → ℚ) (m : Fin 3) :
    (hueEnd quality h0 h1 h2 (s 0) (s 1) (s 2)).minSIndex = (m : Nat) ↔
      (∀ j, s m ≤ s j) ∧ (∀ j, j < m → s m < s j) := by
  rw [hueEnd_minSIndex]
  by_cases h10 : s 1 < s 0
  · by_cases h21 : s 2 < s 1
    · have h20 : s 2 < s 0 := lt_trans h21 h10
      fin_cases m <;> simp [Fin.forall_fin_succ, h10, h21, h20, not_le.mpr h10,
        not_le.mpr h21, not_le.mpr h20, le_of_lt h10, le_of_lt h21, le_of_lt h20]
    · have l12 : s 1 ≤ s 2 := not_lt.mp h21
      fin_cases m <;> simp [Fin.forall_fin_succ, h10, h21, l12, not_le.mpr h10,
        le_of_lt h10]
  · have l01 : s 0 ≤ s 1 := not_lt.mp h10
    by_cases h20 : s 2 < s 0
    · have h21 : s 2 < s 1 := lt_of_lt_of_le h20 l01
      fin_cases m <;> simp [Fin.forall_fin_succ, h10, h20, h21, l01, not_le.mpr h20,
        not_le.mpr h21, le_of_lt h20, le_of_lt h21]
    · have l02 : s 0 ≤ s 2 := not_lt.mp h20
      fin_cases m <;> simp [Fin.forall_fin_succ, h10, h20, l01, l02]

theorem bluestOfThree_single (q : Fin 3 → Bool) (s : Fin 3 → ℚ) (k : Fin 3) (quality : Int)
    (h0 h1 h2 : ℚ) (hq : ∀ j, q j = true ↔ j = k) :
    bluestOfThree true (q 0) (q 1) (q 2) (s 0) (s 1) (s 2) =
      if (hueEnd quality h0 h1 h2 (s 0) (s 1) (s 2)).minSIndex = (k : Nat) then
        ((k : Nat) : Int)
      else -1 := by
  rw [hueEnd_minSIndex]
  have q0 := hq 0
  have q1 := hq 1
  have q2 := hq 2
  fin_cases k
  · have a0 : q 0 = true := q0.mpr rfl
    have a1 : q 1 = false := by simpa using q1
    have a2 : q 2 = false := by simpa using q2
    by_cases h10 : s 1 < s 0
    · by_cases h21 : s 2 < s 1 <;>
        simp [bluestOfThree, a0, a1, a2, h10, h21, not_le.mpr h10]
    · by_cases h20 : s 2 < s 0
      · simp [bluestOfThree, a0, a1, a2, h10, h20, not_le.mpr h20]
      · simp [bluestOfThree, a0, a1, a2, h10, h20, not_lt.mp h10, not_lt.mp h20]
  · have a0 : q 0 = false := by simpa using q0
    have a1 : q 1 = true := q1.mpr rfl
    have a2 : q 2 = false := by simpa using q2
    by_cases h10 : s 1 < s 0
    · by_cases h21 : s 2 < s 1
      · simp [bluestOfThree, a0, a1, a2, h10, h21, not_le.mpr h21]
      · simp [bluestOfThree, a0, a1, a2, h10, h21, not_lt.mp h21]
    · by_cases h20 : s 2 < s 0 <;> simp [bluestOfThree, a0, a1, a2, h10, h20]
  · have a0 : q 0 = false := by simpa using q0
    have a1 : q 1 = false := by simpa using q1
    have a2 : q 2 = true := q2.mpr rfl
    by_cases h10 : s 1 < s 0
    · by_cases h21 : s 2 < s 1
      · simp [bluestOfThree, a0, a1, a2, h10, h21, lt_trans h21 h10]
      · simp [bluestOfThree, a0, a1, a2, h10, h21]
    · by_cases h20 : s 2 < s 0
      · simp [bluestOfThree, a0, a1, a2, h10, h20, lt_of_lt_of_le h20 (not_lt.mp h10)]
      · simp [bluestOfThree, a0, a1, a2, h10, h20]

/-- C15: in `getIndexOfBluest` on three slots the index `minSIndex` after the second loop
is the earliest index that attains the minimum mean saturation, and with the gate passed,
the retained result not empty and exactly one hue-qualifying slot `k`, the function
returns `k` when `minSIndex` is `k` and `-1` otherwise: when slot `k` has the minimum
saturation but ties with an earlier slot the result is `-1`, and when it has the minimum
saturation and every earlier slot has a larger one (so that it ties with later slots
only) the result is `k`.  The card index of line 173 is in range. -/
theorem getIndexOfBluest_first_minimum (P : Platform Image Desc) (self : Recognizer Desc)
    (image : Image) (first : Int) (rest : List Int) (card : Card) (slot : Fin 3 → Region)
    (k : Fin 3)
    (hlast : self.lastDraftRecognition = first :: rest)
    (hcard : self.db.cards[toSizeT first]? = some card)
    (hgate : (card.quality = 5 ∧ 200 ≤ averageValueOf P (slotValue P image (slot 0))
        (slotValue P image (slot 1)) (slotValue P image (slot 2))) ∨
      (card.quality ≠ 5 ∧ 220 ≤ averageValueOf P (slotValue P image (slot 0))
        (slotValue P image (slot 1)) (slotValue P image (slot 2))))
    (hqual : ∀ j : Fin 3,
      hueQualifies card.quality (slotHue P image (slot j)) = true ↔ j = k) :
    (∀ m : Fin 3,
      (hueEnd card.quality (slotHue P image (slot 0)) (slotHue P image (slot 1))
          (slotHue P image (slot 2)) (slotSaturation P image (slot 0))
          (slotSaturation P image (slot 1)) (slotSaturation P image (slot 2))).minSIndex
        = (m : Nat) ↔
      (∀ j, slotSaturation P image (slot m) ≤ slotSaturation P image (slot j)) ∧
      (∀ j, j < m → slotSaturation P image (slot m) < slotSaturation P image (slot j))) ∧
    getIndexOfBluest P self image [slot 0, slot 1, slot 2] =
      .ok (if (hueEnd card.quality (slotHue P image (slot 0)) (slotHue P image (slot 1))
          (slotHue P image (slot 2)) (slotSaturation P image (slot 0))
          (slotSaturation P image (slot 1)) (slotSaturation P image (slot 2))).minSIndex
            = (k : Nat) then ((k : Nat) : Int) else -1) ∧
    ((∀ j, slotSaturation P image (slot k) ≤ slotSaturation P image (slot j)) →
      (∃ j, j < k ∧ slotSaturation P image (slot j) = slotSaturation P image (slot k)) →
      getIndexOfBluest P self image [slot 0, slot 1, slot 2] = .ok (-1)) ∧
    ((∀ j, slotSaturation P image (slot k) ≤ slotSaturation P image (slot j)) →
      (∀ j, j < k → slotSaturation P image (slot k) < slotSaturation P image (slot j)) →
      getIndexOfBluest P self image [slot 0, slot 1, slot 2] = .ok ((k : Nat) : Int)) := by
  have hmin := hueEnd_minSIndex_iff card.quality (slotHue P image (slot 0))
    (slotHue P image (slot 1)) (slotHue P image (slot 2))
    (fun j => slotSaturation P image (slot j))
  have hres : getIndexOfBluest P self image [slot 0, slot 1, slot 2] =
      .ok (if (hueEnd card.quality (slotHue P image (slot 0)) (slotHue P image (slot 1))
          (slotHue P image (slot 2)) (slotSaturation P image (slot 0))
          (slotSaturation P image (slot 1)) (slotSaturation P image (slot 2))).minSIndex
            = (k : Nat) then ((k : Nat) : Int) else -1) := by
    rw [getIndexOfBluest_three P self image first rest card _ _ _ hlast hcard,
      averageAboveThres_true _ _ hgate]
    exact congrArg Except.ok (bluestOfThree_single
      (fun j => hueQualifies card.quality (slotHue P image (slot j)))
      (fun j => slotSaturation P image (slot j)) k card.quality _ _ _ hqual)
  refine ⟨hmin, hres, ?_, ?_⟩
  · rintro _ ⟨j, hjk, hjeq⟩
    rw [hres, if_neg]
    intro hidx
    have := ((hmin k).mp hidx).2 j hjk
    rw [hjeq] at this
    exact lt_irrefl _ this
  · intro hle hlt
    rw [hres, if_pos ((hmin k).mpr ⟨hle, hlt⟩)]

/-- Witness of C15: the card at index 1 has quality 5; with the candidate at slot 2, which
ties with slot 0 for the minimum saturation, the result is `-1`; with the candidate at
slot 0, which ties with the later slot 2, the result is `0`. -/
theorem getIndexOfBluest_first_minimum_witness :
    getIndexOfBluest (tiePlatform 2) (sampleRecognizer sampleCalibration [1, 0, 1]) 0
      [sampleSlot 0, sampleSlot 1, sampleSlot 2] = .ok (-1) ∧
    getIndexOfBluest (tiePlatform 0) (sampleRecognizer sampleCalibration [1, 0, 1]) 0
      [sampleSlot 0, sampleSlot 1, sampleSlot 2] = .ok (((0 : Fin 3) : Nat) : Int) :=
  ⟨(getIndexOfBluest_first_minimum (tiePlatform 2)
      (sampleRecognizer sampleCalibration [1, 0, 1]) 0 1 [0, 1]
      { id := 1, phash := 65535, quality := 5 } sampleSlot 2 rfl (by decide) (by decide!)
      (by decide!)).2.2.1 (by decide!) (by decide!),
    (getIndexOfBluest_first_minimum (tiePlatform 0)
      (sampleRecognizer sampleCalibration [1, 0, 1]) 0 1 [0, 1]
      { id := 1, phash := 65535, quality := 5 } sampleSlot 0 rfl (by decide) (by decide!)
      (by decide!)).2.2.2 (by decide!) (by decide!)⟩

theorem bluestOfThree_range (gate : Bool) (q : Fin 3 → Bool) (s : Fin 3 → ℚ) :
    bluestOfThree gate (q 0) (q 1) (q 2) (s 0) (s 1) (s 2) = -1 ∨
    ∃ i : Fin 3, bluestOfThree gate (q 0) (q 1) (q 2) (s 0) (s 1) (s 2) = ((i : Nat) : Int) ∧
      q i = true ∧ ∀ j, s i ≤ s j := by
  unfold bluestOfThree
  split
  · rename_i h
    right
    refine ⟨0, rfl, h.2.1, ?_⟩
    simp [Fin.forall_fin_succ, h.2.2.2.2.1, h.2.2.2.2.2]
  · split
    · rename_i h
      right
      refine ⟨1, rfl, h.2.2.1, ?_⟩
      simp [Fin.forall_fin_succ, le_of_lt h.2.2.2.2.1, h.2.2.2.2.2]
    · split
      · rename_i h
        right
        refine ⟨2, rfl, h.2.2.2.1, ?_⟩
        simp [Fin.forall_fin_succ, le_of_lt h.2.2.2.2.1, le_of_lt h.2.2.2.2.2]
      · left
        rfl

theorem bluestOfThree_none (gate : Bool) (s0 s1 s2 : ℚ) :
    bluestOfThree gate false false false s0 s1 s2 = -1 := by
  simp [bluestOfThree]

theorem hueEnd_minSIndex_lt (quality : Int) (h0 h1 h2 s0 s1 s2 : ℚ) :
    (hueEnd quality h0 h1 h2 s0 s1 s2).minSIndex < 3 := by
  rw [hueEnd_minSIndex]
  split <;> split <;> decide

/-- C17: on three slots, a value that `getIndexOfBluest` returns is `-1` or an index `i`
with `0 <= i < 3` such that slot `i` is hue-qualifying for the looked-up quality and no
slot has a smaller mean saturation than slot `i`; the function does return a value when
the retained result is not empty and the card index of line 173 is in range; when no slot
is hue-qualifying the result is `-1`, because the converted candidate `-1` is
`2 ^ 64 - 1`, which `minSIndex`, below 3, never equals. -/
theorem getIndexOfBluest_result_range (P : Platform Image Desc) (self : Recognizer Desc)
    (image : Image) (slot : Fin 3 → Region) :
    (∀ res, getIndexOfBluest P self image [slot 0, slot 1, slot 2] = .ok res →
      res = -1 ∨
      ∃ (first : Int) (rest : List Int) (card : Card) (i : Fin 3),
        self.lastDraftRecognition = first :: rest ∧
        self.db.cards[toSizeT first]? = some card ∧
        res = ((i : Nat) : Int) ∧
        hueQualifies card.quality (slotHue P image (slot i)) = true ∧
        ∀ j, slotSaturation P image (slot i) ≤ slotSaturation P image (slot j)) ∧
    (∀ (first : Int) (rest : List Int) (card : Card),
      self.lastDraftRecognition = first :: rest →
      self.db.cards[toSizeT first]? = some card →
      ∃ res, getIndexOfBluest P self image [slot 0, slot 1, slot 2] = .ok res) ∧
    (∀ (first : Int) (rest : List Int) (card : Card),
      self.lastDraftRecognition = first :: rest →
      self.db.cards[toSizeT first]? = some card →
      (∀ j, hueQualifies card.quality (slotHue P image (slot j)) = false) →
      getIndexOfBluest P self image [slot 0, slot 1, slot 2] = .ok (-1)) ∧
    (toSizeT (-1) = 2 ^ 64 - 1 ∧
      ∀ (quality : Int) (h0 h1 h2 s0 s1 s2 : ℚ),
        (hueEnd quality h0 h1 h2 s0 s1 s2).minSIndex < 3 ∧
        (hueEnd quality h0 h1 h2 s0 s1 s2).minSIndex ≠ toSizeT (-1)) := by
  refine ⟨?_, ?_, ?_, ?_, ?_⟩
  · intro res hres
    cases hlast : self.lastDraftRecognition with
    | nil =>
      rw [getIndexOfBluest_eq, hlast] at hres
      left
      injection hres with hres
      exact hres.symm
    | cons first rest =>
      cases hcard : self.db.cards[toSizeT first]? with
      | none =>
        rw [getIndexOfBluest_eq, hlast] at hres
        simp only [hcard] at hres
        cases hres
      | some card =>
        rw [getIndexOfBluest_three P self image first rest card _ _ _ hlast hcard] at hres
        injection hres with hres
        rcases bluestOfThree_range
          (averageAboveThres card.quality (averageValueOf P (slotValue P image (slot 0))
            (slotValue P image (slot 1)) (slotValue P image (slot 2))))
          (fun j => hueQualifies card.quality (slotHue P image (slot j)))
          (fun j => slotSaturation P image (slot j)) with hneg | ⟨i, hi, hq, hs⟩
        · left
          rw [← hres]
          exact hneg
        · right
          exact ⟨first, rest, card, i, rfl, hcard, by rw [← hres]; exact hi, hq, hs⟩
  · intro first rest card hlast hcard
    exact ⟨_, getIndexOfBluest_three P self image first rest card _ _ _ hlast hcard⟩
  · intro first rest card hlast hcard hnone
    rw [getIndexOfBluest_three P self image first rest card _ _ _ hlast hcard,
      hnone 0, hnone 1, hnone 2, bluestOfThree_none]
  · rw [toSizeT_neg_one]
    norm_num
  · intro quality h0 h1 h2 s0 s1 s2
    have hlt := hueEnd_minSIndex_lt quality h0 h1 h2 s0 s1 s2
    refine ⟨hlt, ?_⟩
    rw [toSizeT_neg_one]
    omega

/-- Witness of C17: for the quality 4 of the card at index 0 no slot of the sample
platform, whose mean hues are 100, is hue-qualifying. -/
theorem getIndexOfBluest_result_range_witness :
    getIndexOfBluest samplePlatform (sampleRecognizer sampleCalibration [0, 1, 0]) 0
      [sampleSlot 0, sampleSlot 1, sampleSlot 2] = .ok (-1) :=
  (getIndexOfBluest_result_range samplePlatform (sampleRecognizer sampleCalibration [0, 1, 0])
    0 sampleSlot).2.2.1 0 [1, 0] { id := 0, phash := 0, quality := 4 } rfl (by decide)
    (by decide!)

/-! ## Construction: the data sets -/

theorem fillCards_eq (cards : List Card) (set : DataSet) :
    fillCards cards set =
      { entries := set.entries ++ cards.map (fun e => DataSetEntry.ofId e.id)
        hashes := set.hashes ++ cards.map (fun e => e.phash)
        phashThreshold := set.phashThreshold } := by
  induction cards generalizing set with
  | nil => simp [fillCards]
  | cons e rest ih => simp [fillCards, ih]

theorem fillClasses_eq (heroes : List Hero) (set : DataSet) :
    fillClasses heroes set =
      { entries := set.entries ++ heroes.map (fun e => DataSetEntry.ofId e.id)
        hashes := set.hashes ++ heroes.map (fun e => e.phash)
        phashThreshold := set.phashThreshold } := by
  induction heroes generalizing set with
  | nil => simp [fillClasses]
  | cons e rest ih => simp [fillClasses, ih]

theorem init_setCards (P : Platform Image Desc) (K : Constants) (db : Database)
    (phashThreshold : Int) (c : Calibration)
    (gameEndVictory gameEndDefeat gameCoinFirst gameCoinSecond : Image) :
    (init P K db phashThreshold c gameEndVictory gameEndDefeat gameCoinFirst
        gameCoinSecond).setCards =
      { entries := db.cards.map (fun e => DataSetEntry.ofId e.id)
        hashes := db.cards.map (fun e => e.phash)
        phashThreshold := phashThreshold } := by
  simp [init, fillCards_eq]

theorem init_setClasses (P : Platform Image Desc) (K : Constants) (db : Database)
    (phashThreshold : Int) (c : Calibration)
    (gameEndVictory gameEndDefeat gameCoinFirst gameCoinSecond : Image) :
    (init P K db phashThreshold c gameEndVictory gameEndDefeat gameCoinFirst
        gameCoinSecond).setClasses =
      { entries := db.heroes.map (fun e => DataSetEntry.ofId e.id)
        hashes := db.heroes.map (fun e => e.phash)
        phashThreshold := phashThreshold } := by
  simp [init, fillClasses_eq]

/-- C16: after construction the card data set and the class data set are parallel to the
database lists: `entries` and `hashes` have the length of `db->cards` (of `db->heroes`),
`entries[i]` is a valid entry with the id of record `i` and `hashes[i]` is the hash of
record `i`; both sets carry the configured threshold, and the six hash recognizers hold,
in registration order, the class, card, class, card, card, card set, each with that
threshold. -/
theorem init_dataSets (P : Platform Image Desc) (K : Constants) (db : Database)
    (phashThreshold : Int) (c : Calibration)
    (gameEndVictory gameEndDefeat gameCoinFirst gameCoinSecond : Image)
    (self : Recognizer Desc)
    (hself : self = init P K db phashThreshold c gameEndVictory gameEndDefeat gameCoinFirst
      gameCoinSecond) :
    (self.setCards.entries.length = db.cards.length ∧
      self.setCards.hashes.length = db.cards.length ∧
      ∀ (i : Nat) (hi : i < db.cards.length),
        self.setCards.entries[i]? = some { id := db.cards[i].id, valid := true } ∧
        self.setCards.hashes[i]? = some db.cards[i].phash) ∧
    (self.setClasses.entries.length = db.heroes.length ∧
      self.setClasses.hashes.length = db.heroes.length ∧
      ∀ (i : Nat) (hi : i < db.heroes.length),
        self.setClasses.entries[i]? = some { id := db.heroes[i].id, valid := true } ∧
        self.setClasses.hashes[i]? = some db.heroes[i].phash) ∧
    self.setCards.phashThreshold = phashThreshold ∧
    self.setClasses.phashThreshold = phashThreshold ∧
    self.phashRecognizers.map (fun rec => rec.2.2) =
      [self.setClasses, self.setCards, self.setClasses, self.setCards, self.setCards,
        self.setCards] ∧
    self.phashRecognizers.length = 6 ∧
    ∀ rec ∈ self.phashRecognizers, rec.2.2.phashThreshold = phashThreshold := by
  have hcards := init_setCards P K db phashThreshold c gameEndVictory gameEndDefeat
    gameCoinFirst gameCoinSecond
  have hclasses := init_setClasses P K db phashThreshold c gameEndVictory gameEndDefeat
    gameCoinFirst gameCoinSecond
  have hrecs : self.phashRecognizers.map (fun rec => rec.2.2) =
      [self.setClasses, self.setCards, self.setClasses, self.setCards, self.setCards,
        self.setCards] := by
    subst hself
    rfl
  rw [← hself] at hcards hclasses
  refine ⟨⟨?_, ?_, ?_⟩, ⟨?_, ?_, ?_⟩, ?_, ?_, hrecs, ?_, ?_⟩
  · rw [hcards]; simp
  · rw [hcards]; simp
  · intro i hi
    rw [hcards]
    simp [List.getElem?_map, List.getElem?_eq_getElem hi, DataSetEntry.ofId]
  · rw [hclasses]; simp
  · rw [hclasses]; simp
  · intro i hi
    rw [hclasses]
    simp [List.getElem?_map, List.getElem?_eq_getElem hi, DataSetEntry.ofId]
  · rw [hcards]
  · rw [hclasses]
  · subst hself
    rfl
  · intro rec hrec
    have hmem : rec.2.2 ∈ self.phashRecognizers.map (fun rec => rec.2.2) :=
      List.mem_map.mpr ⟨rec, hrec, rfl⟩
    rw [hrecs] at hmem
    simp only [List.mem_cons, List.mem_singleton, List.not_mem_nil, or_false] at hmem
    rcases hmem with h | h | h | h | h | h <;> rw [h] <;>
      first
        | rw [hcards]
        | rw [hclasses]

/-- Witness of C16: the sample recognizer right after construction. -/
theorem init_dataSets_witness :
    sampleRecognizer sampleCalibration []
      = init samplePlatform sampleConstants sampleDb 5 sampleCalibration 3 2 8 5 ∧
    ((sampleRecognizer sampleCalibration []).setCards.entries.length = sampleDb.cards.length ∧
      (sampleRecognizer sampleCalibration []).setCards.hashes.length = sampleDb.cards.length ∧
      ∀ (i : Nat) (hi : i < sampleDb.cards.length),
        (sampleRecognizer sampleCalibration []).setCards.entries[i]?
          = some { id := sampleDb.cards[i].id, valid := true } ∧
        (sampleRecognizer sampleCalibration []).setCards.hashes[i]?
          = some sampleDb.cards[i].phash) ∧
    ((sampleRecognizer sampleCalibration []).setClasses.entries.length
        = sampleDb.heroes.length ∧
      (sampleRecognizer sampleCalibration []).setClasses.hashes.length
        = sampleDb.heroes.length ∧
      ∀ (i : Nat) (hi : i < sampleDb.heroes.length),
        (sampleRecognizer sampleCalibration []).setClasses.entries[i]?
          = some { id := sampleDb.heroes[i].id, valid := true } ∧
        (sampleRecognizer sampleCalibration []).setClasses.hashes[i]?
          = some sampleDb.heroes[i].phash) ∧
    (sampleRecognizer sampleCalibration []).setCards.phashThreshold = 5 ∧
    (sampleRecognizer sampleCalibration []).setClasses.phashThreshold = 5 ∧
    (sampleRecognizer sampleCalibration []).phashRecognizers.map (fun rec => rec.2.2) =
      [(sampleRecognizer sampleCalibration []).setClasses,
        (sampleRecognizer sampleCalibration []).setCards,
        (sampleRecognizer sampleCalibration []).setClasses,
        (sampleRecognizer sampleCalibration []).setCards,
        (sampleRecognizer sampleCalibration []).setCards,
        (sampleRecognizer sampleCalibration []).setCards] ∧
    (sampleRecognizer sampleCalibration []).phashRecognizers.length = 6 ∧
    ∀ rec ∈ (sampleRecognizer sampleCalibration []).phashRecognizers,
      rec.2.2.phashThreshold = 5 :=
  ⟨rfl, init_dataSets samplePlatform sampleConstants sampleDb 5 sampleCalibration 3 2 8 5
    (sampleRecognizer sampleCalibration []) rfl⟩

/-! ## An empty region list -/

theorem comparePHashes_nil (P : Platform Image Desc) (image : Image) (kind : Nat)
    (dataSet : DataSet) :
    comparePHashes P image kind [] dataSet =
      .ok { valid := true, sourceRecognizer := kind, results := [] } := by
  rfl

theorem contributionPHash_nil (P : Platform Image Desc) (image : Image) (allowed kind : Nat)
    (dataSet : DataSet) (hsel : allowed &&& kind ≠ 0) :
    contributionPHash P image allowed kind [] dataSet =
      some { valid := true, sourceRecognizer := kind, results := [] } := by
  simp only [contributionPHash, if_pos hsel, comparePHashes_nil]
  rfl

/-- C18: for an empty region list `comparePHashes` returns a valid result with an empty
identifier sequence; `recognize` emits that result for every selected hash recognizer
whose region list is empty; and when the card-pick region list is empty and card-pick is
selected, `lastDraftRecognition` is empty after the call and a following
`getIndexOfBluest` returns `-1`.  The hypotheses say that the accesses
`dataSet.entries[index]` made for the selected hash recognizers are in range and, for
the last part, that the eight kinds are pairwise different. -/
theorem recognize_empty_roi (P : Platform Image Desc) (K : Constants) (db : Database)
    (phashThreshold : Int) (c : Calibration)
    (gameEndVictory gameEndDefeat gameCoinFirst gameCoinSecond : Image) (last : List Int)
    (self : Recognizer Desc) (source : Image) (allowed : Nat)
    (hself : self = inUse P K db phashThreshold c gameEndVictory gameEndDefeat gameCoinFirst
      gameCoinSecond last)
    (hRange : ∀ rec ∈ self.phashRecognizers, allowed &&& rec.1 ≠ 0 →
      InRange P (normalize P self source) rec.2.1 rec.2.2) :
    (∀ (image : Image) (kind : Nat) (dataSet : DataSet),
      comparePHashes P image kind [] dataSet =
        .ok { valid := true, sourceRecognizer := kind, results := [] }) ∧
    ∃ results self1, recognize P K self source allowed = .ok (results, self1) ∧
      (∀ rec ∈ self.phashRecognizers, rec.2.1 = [] → allowed &&& rec.1 ≠ 0 →
        { valid := true, sourceRecognizer := rec.1, results := [] } ∈ results) ∧
      (DistinctKinds K → c.roiDraftCardPick = [] →
        allowed &&& K.RECOGNIZER_DRAFT_CARD_PICK ≠ 0 →
        self1.lastDraftRecognition = [] ∧
        ∀ (image : Image) (roi : VectorROI), getIndexOfBluest P self1 image roi = .ok (-1)) := by
  refine ⟨comparePHashes_nil P, ?_⟩
  have heq := recognize_eq P K self source allowed hRange
  refine ⟨_, _, heq, ?_, ?_⟩
  · intro rec hrec hnil hsel
    apply List.mem_append_left
    rw [List.mem_filterMap]
    refine ⟨rec, hrec, ?_⟩
    rw [hnil]
    exact contributionPHash_nil P _ allowed rec.1 rec.2.2 hsel
  · intro hK hnil hsel
    have hstate := recognize_inUse_state P K db phashThreshold c gameEndVictory gameEndDefeat
      gameCoinFirst gameCoinSecond last self source allowed hK hself hRange
    rw [heq] at hstate
    injection hstate with hstate
    injection hstate with _ hstate2
    rw [hstate2, hnil, contributionPHash_nil P _ allowed _ _ hsel]
    refine ⟨rfl, ?_⟩
    intro image roi
    rw [getIndexOfBluest_eq]

/-- Witness of C18: the sample recognizer with a calibration that has no card-pick
region, card-pick selected. -/
theorem recognize_empty_roi_witness :
    (sampleRecognizer { sampleCalibration with roiDraftCardPick := [] } [5]
        = inUse samplePlatform sampleConstants sampleDb 5
            { sampleCalibration with roiDraftCardPick := [] } 3 2 8 5 [5] ∧
      ∀ rec ∈ (sampleRecognizer { sampleCalibration with roiDraftCardPick := [] }
          [5]).phashRecognizers,
        2 &&& rec.1 ≠ 0 →
        InRange samplePlatform
          (normalize samplePlatform
            (sampleRecognizer { sampleCalibration with roiDraftCardPick := [] } [5]) 0)
          rec.2.1 rec.2.2) ∧
    ((∀ (image : Nat) (kind : Nat) (dataSet : DataSet),
      comparePHashes samplePlatform image kind [] dataSet =
        .ok { valid := true, sourceRecognizer := kind, results := [] }) ∧
    ∃ results self1,
      recognize samplePlatform sampleConstants
        (sampleRecognizer { sampleCalibration with roiDraftCardPick := [] } [5]) 0 2
        = .ok (results, self1) ∧
      (∀ rec ∈ (sampleRecognizer { sampleCalibration with roiDraftCardPick := [] }
          [5]).phashRecognizers,
        rec.2.1 = [] → 2 &&& rec.1 ≠ 0 →
        { valid := true, sourceRecognizer := rec.1, results := [] } ∈ results) ∧
      (DistinctKinds sampleConstants →
        ({ sampleCalibration with roiDraftCardPick := [] } : Calibration).roiDraftCardPick
          = [] →
        2 &&& sampleConstants.RECOGNIZER_DRAFT_CARD_PICK ≠ 0 →
        self1.lastDraftRecognition = [] ∧
        ∀ (image : Nat) (roi : VectorROI),
          getIndexOfBluest samplePlatform self1 image roi = .ok (-1))) :=
  ⟨⟨rfl, by decide⟩,
    recognize_empty_roi samplePlatform sampleConstants sampleDb 5
      { sampleCalibration with roiDraftCardPick := [] } 3 2 8 5 [5]
      (sampleRecognizer { sampleCalibration with roiDraftCardPick := [] } [5]) 0 2 rfl
      (by decide)⟩

/-! ## The quality of the first retained card -/

theorem find_by_position (cards : List Card) (offset : Int) (k : Nat)
    (hid : ∀ (i : Nat) (hi : i < cards.length), cards[i].id = (i : Int) + offset)
    (hk : k < cards.length) :
    cards.find? (fun card => card.id == (k : Int) + offset) = cards[k]? := by
  induction cards generalizing offset k with
  | nil => simp at hk
  | cons a rest ih =>
    have ha : a.id = offset := by
      have := hid 0 (by simp)
      simpa using this
    cases k with
    | zero =>
      simp [List.find?_cons, ha]
    | succ k =>
      have hne : ¬ (a.id == ((k + 1 : Nat) : Int) + offset) = true := by
        rw [ha]
        simp only [beq_iff_eq]
        push_cast
        omega
      rw [List.find?_cons]
      simp only [hne]
      have hrest : ∀ (i : Nat) (hi : i < rest.length), rest[i].id = (i : Int) + (offset + 1) := by
        intro i hi
        have := hid (i + 1) (by simpa using hi)
        simp only [List.getElem_cons_succ] at this
        rw [this]
        push_cast
        ring
      have hk' : k < rest.length := by simpa using hk
      have := ih (offset + 1) k hrest hk'
      rw [List.getElem?_cons_succ, ← this]
      congr 1
      funext card
      push_cast
      congr 1
      ring

theorem toSizeT_of_nonneg (i : Int) (h0 : 0 ≤ i) (h1 : i < 2 ^ sizeBits) :
    toSizeT i = i.toNat := by
  unfold toSizeT
  rw [Int.emod_eq_of_lt h0 h1]

theorem toSizeT_le (i : Int) (h0 : 0 ≤ i) : toSizeT i ≤ i.toNat := by
  unfold toSizeT
  apply Int.toNat_le_toNat
  by_cases h1 : i < 2 ^ sizeBits
  · rw [Int.emod_eq_of_lt h0 h1]
  · have hpos : (0 : Int) < 2 ^ sizeBits := by positivity
    exact le_of_lt (lt_of_lt_of_le (Int.emod_lt_of_pos i hpos) (not_lt.mp h1))

/-- Counterexample to C14 as stated: over `swappedDb` a card-pick recognition retains
`[1, 0, 1]`; the card whose identifier is 1 has quality 4, but line 173 reads the card at
position 1, of quality 5.  The result of `getIndexOfBluest` shows it: it is 2, while with
quality 4 the gate of 220 is not reached and the result would be `-1`. -/
theorem getIndexOfBluest_quality_counterexample :
    recognize (tintPlatform 210) sampleConstants (swappedRecognizer []) 0 2
      = .ok ([{ valid := true, sourceRecognizer := 2, results := [1, 0, 1] }],
          swappedRecognizer [1, 0, 1]) ∧
    qualityUsed (swappedRecognizer [1, 0, 1]) = some 5 ∧
    qualityByIdentifier swappedDb 1 = some 4 ∧
    getIndexOfBluest (tintPlatform 210) (swappedRecognizer [1, 0, 1]) 0
      [sampleSlot 0, sampleSlot 1, sampleSlot 2] = .ok 2 ∧
    bluestForQuality (tintPlatform 210) 5 0 [sampleSlot 0, sampleSlot 1, sampleSlot 2]
      = .ok 2 ∧
    bluestForQuality (tintPlatform 210) 4 0 [sampleSlot 0, sampleSlot 1, sampleSlot 2]
      = .ok (-1) := by
  decide!

/-- C14, amended: the quality that `getIndexOfBluest` uses is the quality of the card
stored in `db->cards` at the position given by the first retained identifier (converted
to `size_t`); the rest of the function depends on the database through that quality only,
and the access is a fault when the position is out of range.  It is the quality of the
card whose identifier equals the first retained identifier when every card of the
database has its position as identifier and the identifier is a valid position. -/
theorem getIndexOfBluest_quality (P : Platform Image Desc) (self : Recognizer Desc)
    (image : Image) (roi : VectorROI) (first : Int) (rest : List Int)
    (hlast : self.lastDraftRecognition = first :: rest) :
    qualityUsed self = (self.db.cards[toSizeT first]?).map (fun card => card.quality) ∧
    getIndexOfBluest P self image roi =
      (match qualityUsed self with
        | some quality => bluestForQuality P quality image roi
        | none => .error Fault.cardIndex) ∧
    ((∀ (i : Nat) (hi : i < self.db.cards.length), self.db.cards[i].id = (i : Int)) →
      self.db.cards.length ≤ 2 ^ sizeBits → 0 ≤ first → first < self.db.cards.length →
      qualityUsed self = qualityByIdentifier self.db first ∧
      ∃ quality, qualityUsed self = some quality) := by
  have hused : qualityUsed self
      = (self.db.cards[toSizeT first]?).map (fun card => card.quality) := by
    simp only [qualityUsed, hlast]
  refine ⟨hused, ?_, ?_⟩
  · rw [getIndexOfBluest_eq, hused, hlast]
    cases hc : self.db.cards[toSizeT first]? with
    | none => simp only [hc]; rfl
    | some card => simp only [hc]; rfl
  · intro hid hlen h0 h1
    have hlt : first < 2 ^ sizeBits := by
      have : ((self.db.cards.length : Nat) : Int) ≤ ((2 ^ sizeBits : Nat) : Int) :=
        Int.ofNat_le.mpr hlen
      push_cast at this
      exact lt_of_lt_of_le h1 this
    have hk : first.toNat < self.db.cards.length := by
      have := Int.toNat_of_nonneg h0
      omega
    have hfirst : ((first.toNat : Nat) : Int) + 0 = first := by
      rw [add_zero]
      exact Int.toNat_of_nonneg h0
    have hfind := find_by_position self.db.cards 0 first.toNat
      (fun i hi => by rw [add_zero]; exact hid i hi) hk
    rw [hfirst] at hfind
    rw [hused, toSizeT_of_nonneg first h0 hlt]
    refine ⟨?_, ?_⟩
    · simp only [qualityByIdentifier, hfind]
    · rw [List.getElem?_eq_getElem hk]
      exact ⟨_, rfl⟩

/-- Witness of the amended C14: over the sample database, whose identifiers are the
positions, the retained `[1, 0, 1]` makes the function use the quality 5 of the card with
identifier 1. -/
theorem getIndexOfBluest_quality_witness :
    (sampleRecognizer sampleCalibration [1, 0, 1]).lastDraftRecognition = 1 :: [0, 1] ∧
    qualityUsed (sampleRecognizer sampleCalibration [1, 0, 1]) = some 5 ∧
    qualityUsed (sampleRecognizer sampleCalibration [1, 0, 1])
      = qualityByIdentifier (sampleRecognizer sampleCalibration [1, 0, 1]).db 1 :=
  ⟨rfl,
    (getIndexOfBluest_quality samplePlatform (sampleRecognizer sampleCalibration [1, 0, 1])
      0 [] 1 [0, 1] rfl).1.trans (by decide),
    ((getIndexOfBluest_quality samplePlatform (sampleRecognizer sampleCalibration [1, 0, 1])
      0 [] 1 [0, 1] rfl).2.2 (by decide) (by decide) (by decide) (by decide)).1⟩

/-! ## Other numbers of slots than three -/

theorem bluestForQuality_short (P : Platform Image Desc) (quality : Int) (image : Image)
    (roi : VectorROI) (hlen : roi.length < 3) :
    bluestForQuality P quality image roi = .error Fault.valueRead := by
  unfold bluestForQuality
  rw [hsvMeansLoop_eq]
  match roi, hlen with
  | [], _ => rfl
  | [_], _ => rfl
  | [_, _], _ => rfl

theorem range_add_four (n : Nat) :
    List.range (n + 4) = 0 :: 1 :: 2 :: 3 :: List.range' 4 n := by
  simp [List.range_eq_range', List.range'_succ]

theorem hueLoop_four (quality : Int) (h0 h1 h2 h3 s0 s1 s2 s3 : ℚ) (hs ss : List ℚ)
    (n : Nat) (st : HueState) (hred : st.red.length = 3)
    (hcand : st.candidateColor.length = 3) :
    hueLoop quality (h0 :: h1 :: h2 :: h3 :: hs) (s0 :: s1 :: s2 :: s3 :: ss)
      (List.range (n + 4)) st = .error Fault.flagWrite := by
  rw [range_add_four]
  rw [hueLoop_cons quality _ _ 0 _ st h0 s0 rfl rfl (by omega) (by omega)]
  rw [hueLoop_cons quality _ _ 1 _ _ h1 s1 rfl rfl (by simp [hueStep, hred])
    (by simp [hueStep, hcand])]
  rw [hueLoop_cons quality _ _ 2 _ _ h2 s2 rfl rfl (by simp [hueStep, hred])
    (by simp [hueStep, hcand])]
  exact hueLoop_flagWrite quality _ _ 3 _ _ h3 s3 (by simp) (by simp) (by simp [hueStep, hred])

theorem bluestForQuality_long (P : Platform Image Desc) (quality : Int) (image : Image)
    (r0 r1 r2 r3 : Region) (more : List Region) :
    bluestForQuality P quality image (r0 :: r1 :: r2 :: r3 :: more) =
      if averageAboveThres quality (averageValueOf P (slotValue P image r0)
          (slotValue P image r1) (slotValue P image r2)) = false then .ok (-1)
      else .error Fault.flagWrite := by
  unfold bluestForQuality
  rw [hsvMeansLoop_eq]
  simp only [List.nil_append, List.map_cons, List.getElem?_cons_zero,
    List.getElem?_cons_succ, List.length_cons]
  have hloop := hueLoop_four quality (slotHue P image r0) (slotHue P image r1)
    (slotHue P image r2) (slotHue P image r3) (slotSaturation P image r0)
    (slotSaturation P image r1) (slotSaturation P image r2) (slotSaturation P image r3)
    (more.map (slotHue P image)) (more.map (slotSaturation P image))
    (more.map (slotHue P image)).length (hueStart (slotSaturation P image r0))
    (by simp [hueStart]) (by simp [hueStart])
  simp only [hueStart] at hloop
  rw [hloop]
  simp only [averageAboveThres, averageValueOf]
  by_cases hg : ((decide (quality = 5) && decide (P.rnd (floatThird * P.rnd (P.rnd
      (slotValue P image r0 + slotValue P image r1) + slotValue P image r2)) ≥ 200)) ||
      (decide (quality ≠ 5) && decide (P.rnd (floatThird * P.rnd (P.rnd
      (slotValue P image r0 + slotValue P image r1) + slotValue P image r2)) ≥ 220))) = true
  · simp only [hg]
    simp
  · simp only [Bool.not_eq_true] at hg
    simp only [hg]
    simp

/-- Counterexample to C19 as stated: with four regions and `averageValue` below the gate
(quality 4, mean values 219) `getIndexOfBluest` returns `-1` at line 203, so no flag is
written and no access is out of range, while with mean values 230 the write for the
fourth slot is out of range; and the retained identifier `-1` is less than the number of
cards, 2, but `db->cards[-1]` is out of range. -/
theorem getIndexOfBluest_bounds_counterexample :
    getIndexOfBluest (tintPlatform 219) (sampleRecognizer sampleCalibration [0, 1, 0]) 0
      [regionAt 0, regionAt 1, regionAt 2, regionAt 3] = .ok (-1) ∧
    getIndexOfBluest (tintPlatform 230) (sampleRecognizer sampleCalibration [0, 1, 0]) 0
      [regionAt 0, regionAt 1, regionAt 2, regionAt 3] = .error Fault.flagWrite ∧
    ((-1 : Int) < ((sampleRecognizer sampleCalibration [-1]).db.cards.length : Int) ∧
      getIndexOfBluest (tintPlatform 230) (sampleRecognizer sampleCalibration [-1]) 0
        [regionAt 0, regionAt 1, regionAt 2] = .error Fault.cardIndex) := by
  decide!

/-- C19, amended: with a retained result that is not empty, `getIndexOfBluest` makes no
out-of-range access when the region list has exactly three entries and the first retained
identifier is a valid index of `db->cards` (`0 <= id < size`): it returns a value.  With
fewer than three regions and the card index in range, the read of the value means is out
of range.  With more than three regions and the card index in range, the flag write for
the fourth slot is out of range when `averageValue` of the first three slots reaches the
gate, and when it does not the function returns `-1` without any out-of-range access. -/
theorem getIndexOfBluest_bounds (P : Platform Image Desc) (self : Recognizer Desc)
    (image : Image) (first : Int) (rest : List Int)
    (hlast : self.lastDraftRecognition = first :: rest) :
    (∀ r0 r1 r2 : Region, 0 ≤ first → first < self.db.cards.length →
      ∃ res, getIndexOfBluest P self image [r0, r1, r2] = .ok res) ∧
    (∀ (roi : VectorROI) (card : Card), self.db.cards[toSizeT first]? = some card →
      roi.length < 3 → getIndexOfBluest P self image roi = .error Fault.valueRead) ∧
    (∀ (r0 r1 r2 r3 : Region) (more : List Region) (card : Card),
      self.db.cards[toSizeT first]? = some card →
      (averageAboveThres card.quality (averageValueOf P (slotValue P image r0)
          (slotValue P image r1) (slotValue P image r2)) = true →
        getIndexOfBluest P self image (r0 :: r1 :: r2 :: r3 :: more)
          = .error Fault.flagWrite) ∧
      (averageAboveThres card.quality (averageValueOf P (slotValue P image r0)
          (slotValue P image r1) (slotValue P image r2)) = false →
        getIndexOfBluest P self image (r0 :: r1 :: r2 :: r3 :: more) = .ok (-1))) ∧
    (∀ (quality : Int) (averageValue : ℚ), averageAboveThres quality averageValue = true ↔
      (quality = 5 ∧ 200 ≤ averageValue) ∨ (quality ≠ 5 ∧ 220 ≤ averageValue)) := by
  refine ⟨?_, ?_, ?_, ?_⟩
  · intro r0 r1 r2 h0 h1
    have hidx : toSizeT first < self.db.cards.length := by
      have hle := toSizeT_le first h0
      have := Int.toNat_of_nonneg h0
      omega
    exact ⟨_, getIndexOfBluest_three P self image first rest _ r0 r1 r2 hlast
      (List.getElem?_eq_getElem hidx)⟩
  · intro roi card hcard hlen
    rw [getIndexOfBluest_eq, hlast]
    simp only [hcard]
    exact bluestForQuality_short P card.quality image roi hlen
  · intro r0 r1 r2 r3 more card hcard
    have heq : getIndexOfBluest P self image (r0 :: r1 :: r2 :: r3 :: more) =
        bluestForQuality P card.quality image (r0 :: r1 :: r2 :: r3 :: more) := by
      rw [getIndexOfBluest_eq, hlast]
      simp only [hcard]
    rw [heq, bluestForQuality_long]
    constructor
    · intro hg
      rw [hg]
      rfl
    · intro hg
      rw [hg]
      rfl
  · intro quality averageValue
    constructor
    · intro h
      by_cases hq : quality = 5
      · left
        refine ⟨hq, ?_⟩
        by_contra hlt
        rw [averageAboveThres_false quality averageValue (Or.inl ⟨hq, not_le.mp hlt⟩)] at h
        cases h
      · right
        refine ⟨hq, ?_⟩
        by_contra hlt
        rw [averageAboveThres_false quality averageValue (Or.inr ⟨hq, not_le.mp hlt⟩)] at h
        cases h
    · exact averageAboveThres_true quality averageValue

/-- Witness of the amended C19: the sample recognizer retaining `[0, 1, 0]`, on three
slots, on two slots, and on four slots with mean values 230 and 219. -/
theorem getIndexOfBluest_bounds_witness :
    (sampleRecognizer sampleCalibration [0, 1, 0]).lastDraftRecognition = 0 :: [1, 0] ∧
    (∃ res, getIndexOfBluest (tintPlatform 230) (sampleRecognizer sampleCalibration [0, 1, 0])
      0 [regionAt 0, regionAt 1, regionAt 2] = .ok res) ∧
    getIndexOfBluest (tintPlatform 230) (sampleRecognizer sampleCalibration [0, 1, 0]) 0
      [regionAt 0, regionAt 1] = .error Fault.valueRead ∧
    getIndexOfBluest (tintPlatform 230) (sampleRecognizer sampleCalibration [0, 1, 0]) 0
      (regionAt 0 :: regionAt 1 :: regionAt 2 :: regionAt 3 :: []) = .error Fault.flagWrite :=
  ⟨rfl,
    (getIndexOfBluest_bounds (tintPlatform 230) (sampleRecognizer sampleCalibration [0, 1, 0])
      0 0 [1, 0] rfl).1 (regionAt 0) (regionAt 1) (regionAt 2) (by decide) (by decide),
    (getIndexOfBluest_bounds (tintPlatform 230) (sampleRecognizer sampleCalibration [0, 1, 0])
      0 0 [1, 0] rfl).2.1 [regionAt 0, regionAt 1] { id := 0, phash := 0, quality := 4 }
      (by decide) (by decide),
    ((getIndexOfBluest_bounds (tintPlatform 230)
      (sampleRecognizer sampleCalibration [0, 1, 0]) 0 0 [1, 0] rfl).2.2.1 (regionAt 0)
      (regionAt 1) (regionAt 2) (regionAt 3) [] { id := 0, phash := 0, quality := 4 }
      (by decide)).1 (by decide!)⟩

end Recognizer

end hs
